import Mathlib

/-!
# FTTH/GPON simulator (`ftth_sim.c`): loss model, statistics, recursive traversal

A shallow embedding of the optical-budget core of `ftth_sim.c`.

Modelling conventions
* C `double` values are elements of an arbitrary linearly ordered field `α`
  (exact arithmetic: `ℚ` for evaluation, `ℝ` where `log10` is the real
  base-10 logarithm).  Rounding of IEEE doubles is outside this exact model.
* `log10` of `<math.h>` is not part of the repository; it is a parameter
  `log10 : α → α` of every function that (transitively) calls it.
* C `int` values are `Int` (no overflow is reachable for the counters without
  more than `2^31` terminals in memory).
* `char` buffers are `List Char` holding the C string (the bytes before the
  first NUL); `strncat`, `strncpy` and `snprintf` truncate with `List.take`.
* A `Node` owns the ordered list of its children: the list is the chain
  `n->child, n->child->sibling, ...` of the C structure.  A null child pointer
  is the empty list; the root is never null (`read_topology` exits without one),
  so the guard `if (!n)` of `walk_and_compute` has no counterpart.
* The file `ont_csv`, the global array `ont_results`, the `SplitterList` and the
  shared `path` buffer are the four components of `SimState`, threaded through
  the traversal.
* Where the order of the additions matters (the merge of statistics), the
  arithmetic of the machine is modelled too: `stats_merge_fl` and
  `walk_and_compute_fl` take the rounding `rnd : α → α` of the result of each
  operation on doubles as a parameter (the identity gives the exact model), and
  `round_double` is the rounding of IEEE 754 binary64, to nearest, ties to even,
  on `ℚ`.
* `read_topology` is modelled on the list of lines that `fgets` returns.
  `strtol` and `strtod` are not part of the repository: they are the parameters
  `parse_int` and `parse_double`.  The array `stack` of node pointers is the
  chain of last children of the tree under `root` together with the greatest
  index whose entry is not null; where the behaviour of the C program is
  undefined (an index beyond `stack[64]`, the counter `auto_ont_id` beyond
  `INT_MAX`) the model gives no tree.
-/

namespace FtthSim

/-- The capacity of the global array `ont_results`. -/
def MAX_ONT : Nat := 1024

/-- The number of worst terminals that are reported. -/
def TOP_N : Nat := 5

/-- The three kinds of node (`enum NodeType`). -/
inductive NodeType where
  | NODE_OLT
  | NODE_SPLITTER
  | NODE_ONT
  deriving DecidableEq, Repr

/-- The scalar fields of `struct Node` (everything except the two links). -/
structure NodeFields (α : Type) where
  type : NodeType
  len_km : α
  connectors : Int
  splices : Int
  splitter_ratio : Int
  name : List Char
  ont_id : Int
  olt_tx_dbm : α
  gpon_rxmin_dbm : α
  faulty : Int
  extra_loss_db : α

/-- A node of the topology: its fields and its children in input order
(`child` followed by the `sibling` chain). -/
inductive Node (α : Type) where
  | mk (fields : NodeFields α) (children : List (Node α)) : Node α

/-- The scalar fields of a node. -/
def Node.fields {α : Type} : Node α → NodeFields α
  | .mk f _ => f

/-- The children of a node, in input order. -/
def Node.children {α : Type} : Node α → List (Node α)
  | .mk _ cs => cs

/-- Aggregate over the terminals of a subtree (`SubtreeStats`). -/
structure SubtreeStats (α : Type) where
  ont_count : Int
  ok_count : Int
  fail_count : Int
  down_count : Int
  sum_rx : α
  sum_loss : α
  best_rx : α
  worst_rx : α
  deriving DecidableEq

/-- One record per splitter (`SplitterRecord`). -/
structure SplitterRecord (α : Type) where
  name : List Char
  ratio : Int
  ont_count : Int
  ok_count : Int
  fail_count : Int
  down_count : Int
  avg_rx : α
  avg_loss : α
  worst_rx : α
  deriving DecidableEq

/-- One entry of the global array `ont_results` (`OntResult`). -/
structure OntResult (α : Type) where
  ont_id : Int
  rx_dbm : α
  margin_db : α
  path : List Char
  deriving DecidableEq

/-- The arguments of the `fprintf` that writes one line of `ont_results.csv`:
`ont_id,total_dist_km,total_loss_db,rx_dbm,margin_db,status,path`. -/
structure OntCsvRow (α : Type) where
  ont_id : Int
  total_dist_km : α
  total_loss_db : α
  rx_dbm : α
  margin_db : α
  status : String
  path : List Char
  deriving DecidableEq

/-- Everything the traversal writes to: the global `ont_results` (its length is
`ont_results_count`), the lines written to `ont_csv`, the splitter list and the
shared path buffer. -/
structure SimState (α : Type) where
  ont_results : List (OntResult α)
  ont_csv : List (OntCsvRow α)
  splitters : List (SplitterRecord α)
  path : List Char
  deriving DecidableEq

section Model

variable {α : Type} [LinearOrderedField α]

/-- Fibre attenuation, dB per km. -/
def ATTEN_DB_PER_KM : α := 35 / 100

/-- Loss of one connector, dB. -/
def CONN_LOSS_DB : α := 50 / 100

/-- Loss of one splice, dB. -/
def SPLICE_LOSS_DB : α := 10 / 100

/-- Insertion loss of a splitter on top of the ideal split loss, dB. -/
def SPLITTER_INS_DB : α := 1

/-- Loss of a splitter of the given ratio (`splitter_loss_db`). -/
def splitter_loss_db (log10 : α → α) (ratio : Int) : α :=
  if ratio ≤ 1 then 0
  else 10 * log10 (ratio : α) + SPLITTER_INS_DB

/-- Loss of the link that enters a node (`node_link_loss_db`). -/
def node_link_loss_db (log10 : α → α) (n : NodeFields α) : α :=
  let loss : α := 0
  let loss := loss + n.len_km * ATTEN_DB_PER_KM
  let loss := loss + (n.connectors : α) * CONN_LOSS_DB
  let loss := loss + (n.splices : α) * SPLICE_LOSS_DB
  let loss := if n.type = NodeType.NODE_SPLITTER then loss + splitter_loss_db log10 n.splitter_ratio else loss
  let loss := if n.faulty ≠ 0 then loss + n.extra_loss_db else loss
  loss

/-- The statistics of an empty subtree (`stats_init`). -/
def stats_init : SubtreeStats α where
  ont_count := 0
  ok_count := 0
  fail_count := 0
  down_count := 0
  sum_rx := 0
  sum_loss := 0
  best_rx := -1000000000
  worst_rx := 1000000000

/-- Merge of the statistics `b` into `a` (`stats_merge`); the result is the new
content of `*a`. -/
def stats_merge (a b : SubtreeStats α) : SubtreeStats α where
  ont_count := a.ont_count + b.ont_count
  ok_count := a.ok_count + b.ok_count
  fail_count := a.fail_count + b.fail_count
  down_count := a.down_count + b.down_count
  sum_rx := a.sum_rx + b.sum_rx
  sum_loss := a.sum_loss + b.sum_loss
  best_rx := if b.best_rx > a.best_rx then b.best_rx else a.best_rx
  worst_rx := if b.worst_rx < a.worst_rx then b.worst_rx else a.worst_rx

/-- Append of a label to the path buffer of capacity `cap` (`path_append`): a
`"/"` first when the buffer is not empty, each `strncat` bounded by the room
left.  The buffer holds a string shorter than `cap`, so that `cap - strlen - 1`
does not wrap. -/
def path_append (path : List Char) (cap : Nat) (part : List Char) : List Char :=
  let path := if path ≠ [] then path ++ "/".toList.take (cap - path.length - 1) else path
  path ++ part.take (cap - path.length - 1)

/-- The label `part` that `walk_and_compute` builds for a node with `snprintf`
into a buffer of 128 bytes. -/
def node_part (n : NodeFields α) : List Char :=
  match n.type with
  | NodeType.NODE_OLT => "OLT".toList.take 127
  | NodeType.NODE_SPLITTER =>
    if n.name ≠ [] then
      (n.name ++ "(1:".toList ++ (toString n.splitter_ratio).toList ++ ")".toList).take 127
    else
      ("S(1:".toList ++ (toString n.splitter_ratio).toList ++ ")".toList).take 127
  | NodeType.NODE_ONT => ("ONT#".toList ++ (toString n.ont_id).toList).take 127

mutual
/-- The recursive traversal (`walk_and_compute`): returns the statistics of the
subtree of the node and the state after the call. -/
def walk_and_compute (log10 : α → α) (path_cap : Nat) :
    Node α → α → α → α → α → Int → SimState α → SubtreeStats α × SimState α
  | .mk n children, parent_tx_dbm, rxmin_dbm, acc_loss_db, acc_dist_km, down_flag, st =>
    let tx_dbm := if n.type = NodeType.NODE_OLT then n.olt_tx_dbm else parent_tx_dbm
    let my_rxmin := if n.type = NodeType.NODE_OLT then n.gpon_rxmin_dbm else rxmin_dbm
    let new_loss := if n.type ≠ NodeType.NODE_OLT then acc_loss_db + node_link_loss_db log10 n else acc_loss_db
    let new_dist := if n.type ≠ NodeType.NODE_OLT then acc_dist_km + n.len_km else acc_dist_km
    let new_down : Int := if n.type ≠ NodeType.NODE_OLT ∧ n.faulty ≠ 0 then 1 else down_flag
    let old_path := st.path.take 511
    let part := node_part n
    let path := if part ≠ [] then path_append st.path path_cap part else st.path
    let here : SubtreeStats α := stats_init
    if n.type = NodeType.NODE_ONT then
      let rx_dbm := tx_dbm - new_loss
      let margin := rx_dbm - my_rxmin
      let ont_results :=
        if st.ont_results.length < MAX_ONT then
          st.ont_results ++ [{ ont_id := n.ont_id, rx_dbm := rx_dbm, margin_db := margin, path := path.take 511 }]
        else st.ont_results
      let status : String :=
        if new_down ≠ 0 then "DOWN" else if rx_dbm ≥ my_rxmin then "OK" else "FAIL"
      let ok : Int := if new_down ≠ 0 then 0 else if rx_dbm ≥ my_rxmin then 1 else 0
      let ont_csv := st.ont_csv ++
        [{ ont_id := n.ont_id, total_dist_km := new_dist, total_loss_db := new_loss, rx_dbm := rx_dbm,
           margin_db := margin, status := status, path := path }]
      let here := { here with ont_count := 1, sum_rx := rx_dbm, sum_loss := new_loss,
                              best_rx := rx_dbm, worst_rx := rx_dbm }
      let here :=
        if new_down ≠ 0 then { here with down_count := 1 }
        else if ok ≠ 0 then { here with ok_count := 1 }
        else { here with fail_count := 1 }
      (here, { ont_results := ont_results, ont_csv := ont_csv, splitters := st.splitters,
               path := old_path.take (path_cap - 1) })
    else
      let r := walk_children log10 path_cap children tx_dbm my_rxmin new_loss new_dist new_down here
        { st with path := path }
      let here := r.1
      let st1 := r.2
      let splitters :=
        if n.type = NodeType.NODE_SPLITTER then
          st1.splitters ++
            [{ name := if n.name ≠ [] then n.name.take 63 else "(unnamed)".toList.take 63,
               ratio := n.splitter_ratio,
               ont_count := here.ont_count,
               ok_count := here.ok_count,
               fail_count := here.fail_count,
               down_count := here.down_count,
               avg_rx := if here.ont_count > 0 then here.sum_rx / (here.ont_count : α) else 0,
               avg_loss := if here.ont_count > 0 then here.sum_loss / (here.ont_count : α) else 0,
               worst_rx := if here.ont_count > 0 then here.worst_rx else 0 }]
        else st1.splitters
      (here, { st1 with splitters := splitters, path := old_path.take (path_cap - 1) })
/-- The loop `while (child)` of `walk_and_compute`: visits the children in order
and merges the statistics of each into `here`. -/
def walk_children (log10 : α → α) (path_cap : Nat) :
    List (Node α) → α → α → α → α → Int → SubtreeStats α → SimState α → SubtreeStats α × SimState α
  | [], _, _, _, _, _, here, st => (here, st)
  | child :: rest, tx_dbm, my_rxmin, new_loss, new_dist, new_down, here, st =>
    let r := walk_and_compute log10 path_cap child tx_dbm my_rxmin new_loss new_dist new_down st
    walk_children log10 path_cap rest tx_dbm my_rxmin new_loss new_dist new_down (stats_merge here r.1) r.2
end

/-- Root-to-terminal node sequences of the terminals that the traversal visits,
in visiting order (depth first, children in input order).  A terminal is
visited unless it lies below another terminal: the traversal returns at a
terminal without looking at its children. -/
def visited_paths : Node α → List (List (Node α))
  | .mk n children =>
    if n.type = NodeType.NODE_ONT then [[Node.mk n children]]
    else (visited_paths_children children).map (fun p => Node.mk n children :: p)
where
  /-- Visited paths of a list of sibling subtrees, left to right. -/
  visited_paths_children : List (Node α) → List (List (Node α))
    | [] => []
    | c :: cs => visited_paths c ++ visited_paths_children cs

/-- A downward chain of nodes: it starts at the given node and every next node
is a child of the one before it. -/
inductive IsDescent : Node α → List (Node α) → Prop where
  | single (t : Node α) : IsDescent t [t]
  | step (t c : Node α) (p : List (Node α)) : c ∈ t.children → IsDescent c p → IsDescent t (t :: p)

/-- The values a call of `walk_and_compute` passes on to the calls below it. -/
structure Inherited (α : Type) where
  tx_dbm : α
  my_rxmin : α
  new_loss : α
  new_dist : α
  new_down : Int

/-- The values `tx_dbm`, `my_rxmin`, `new_loss`, `new_dist`, `new_down` that
`walk_and_compute` computes at a node from the ones it was called with. -/
def Inherited.enter (log10 : α → α) (c : Inherited α) (n : NodeFields α) : Inherited α where
  tx_dbm := if n.type = NodeType.NODE_OLT then n.olt_tx_dbm else c.tx_dbm
  my_rxmin := if n.type = NodeType.NODE_OLT then n.gpon_rxmin_dbm else c.my_rxmin
  new_loss := if n.type ≠ NodeType.NODE_OLT then c.new_loss + node_link_loss_db log10 n else c.new_loss
  new_dist := if n.type ≠ NodeType.NODE_OLT then c.new_dist + n.len_km else c.new_dist
  new_down := if n.type ≠ NodeType.NODE_OLT ∧ n.faulty ≠ 0 then 1 else c.new_down

/-- The inherited values after descending along a sequence of nodes. -/
def Inherited.along (log10 : α → α) (c : Inherited α) (p : List (Node α)) : Inherited α :=
  p.foldl (fun c n => c.enter log10 n.fields) c

/-- The line of `ont_results.csv` written at a terminal, from the values
computed at the terminal. -/
def leaf_row (c : Inherited α) (ont_id : Int) (path : List Char) : OntCsvRow α where
  ont_id := ont_id
  total_dist_km := c.new_dist
  total_loss_db := c.new_loss
  rx_dbm := c.tx_dbm - c.new_loss
  margin_db := c.tx_dbm - c.new_loss - c.my_rxmin
  status := if c.new_down ≠ 0 then "DOWN" else if c.tx_dbm - c.new_loss ≥ c.my_rxmin then "OK" else "FAIL"
  path := path

/-- The single-count statistics returned at a terminal, from the values computed
at the terminal. -/
def leaf_stats (c : Inherited α) : SubtreeStats α where
  ont_count := 1
  ok_count := if c.new_down ≠ 0 then 0 else if c.tx_dbm - c.new_loss ≥ c.my_rxmin then 1 else 0
  fail_count := if c.new_down ≠ 0 then 0 else if c.tx_dbm - c.new_loss ≥ c.my_rxmin then 0 else 1
  down_count := if c.new_down ≠ 0 then 1 else 0
  sum_rx := c.tx_dbm - c.new_loss
  sum_loss := c.new_loss
  best_rx := c.tx_dbm - c.new_loss
  worst_rx := c.tx_dbm - c.new_loss

/-- The record pushed for a splitter whose children returned the merged
statistics `here`. -/
def splitter_record (n : NodeFields α) (here : SubtreeStats α) : SplitterRecord α where
  name := if n.name ≠ [] then n.name.take 63 else "(unnamed)".toList.take 63
  ratio := n.splitter_ratio
  ont_count := here.ont_count
  ok_count := here.ok_count
  fail_count := here.fail_count
  down_count := here.down_count
  avg_rx := if here.ont_count > 0 then here.sum_rx / (here.ont_count : α) else 0
  avg_loss := if here.ont_count > 0 then here.sum_loss / (here.ont_count : α) else 0
  worst_rx := if here.ont_count > 0 then here.worst_rx else 0

/-- The path buffer after the label of a node has been appended. -/
def path_enter (cap : Nat) (path : List Char) (n : NodeFields α) : List Char :=
  if node_part n ≠ [] then path_append path cap (node_part n) else path

/-- A fresh node as `node_new` returns it: zeroed by `calloc`, then the defaults. -/
def node_new (t : NodeType) : NodeFields α where
  type := t
  len_km := 0
  connectors := 0
  splices := 0
  splitter_ratio := 0
  name := []
  ont_id := -1
  olt_tx_dbm := 3
  gpon_rxmin_dbm := -27
  faulty := 0
  extra_loss_db := 0

/-- The state in which `main` starts the traversal: no result stored, no line
written after the header, an empty splitter list and an empty path. -/
def state_init : SimState α where
  ont_results := []
  ont_csv := []
  splitters := []
  path := []

/-- The call of `walk_and_compute` in `main`: from the root, with the transmit
power and threshold of the root, loss 0, distance 0, the down flag clear and
the path buffer of 512 bytes. -/
def main_walk (log10 : α → α) (root : Node α) : SubtreeStats α × SimState α :=
  walk_and_compute log10 512 root root.fields.olt_tx_dbm root.fields.gpon_rxmin_dbm 0 0 0 state_init

/-- The last head-end on a sequence of nodes, when there is one. -/
def nearest_head_end (p : List (Node α)) : Option (Node α) :=
  (p.filter (fun n => n.fields.type = NodeType.NODE_OLT)).getLast?

/-- A head-end (3 dBm, -27 dBm) above a second head-end (5 dBm, -20 dBm) above
one terminal: the topology text `OLT`, `  OLT tx=5 rxmin=-20`, `    ONT`. -/
def tree_nested_head_end : Node ℚ :=
  .mk (node_new NodeType.NODE_OLT)
    [.mk { node_new NodeType.NODE_OLT with olt_tx_dbm := 5, gpon_rxmin_dbm := -20 }
      [.mk { node_new NodeType.NODE_ONT with ont_id := 1 } []]]

/-- A head-end with the fault flag set above one terminal: the topology text
`OLT faulty=1`, `  ONT`. -/
def tree_faulty_head_end : Node ℚ :=
  .mk { node_new NodeType.NODE_OLT with faulty := 1 }
    [.mk { node_new NodeType.NODE_ONT with ont_id := 1 } []]

/-- The scenario with a faulty feeder splitter: head-end (3 dBm, -27 dBm), a
splitter of ratio 8 with 2 km, 1 connector, the fault flag and 5 dB extra loss,
one terminal with 1 km, 1 connector, 1 splice. -/
def tree_faulty_splitter : Node α :=
  .mk { node_new NodeType.NODE_OLT with olt_tx_dbm := 3, gpon_rxmin_dbm := -27 }
    [.mk { node_new NodeType.NODE_SPLITTER with
            splitter_ratio := 8, len_km := 2, connectors := 1, faulty := 1, extra_loss_db := 5 }
      [.mk { node_new NodeType.NODE_ONT with len_km := 1, connectors := 1, splices := 1, ont_id := 1 } []]]

/-- The single-count statistics of one terminal result: count 1, its receive
power as sum, best and worst, its loss as sum of losses, and the one of
ok/fail/down that its status names. -/
def single_stats (r : OntCsvRow α) : SubtreeStats α where
  ont_count := 1
  ok_count := if r.status = "OK" then 1 else 0
  fail_count := if r.status = "FAIL" then 1 else 0
  down_count := if r.status = "DOWN" then 1 else 0
  sum_rx := r.rx_dbm
  sum_loss := r.total_loss_db
  best_rx := r.rx_dbm
  worst_rx := r.rx_dbm

/-- Reordering of children: the trees obtained from a tree by permuting the
children of any of its nodes, any number of times. -/
inductive Reorder : Node α → Node α → Prop where
  | same (t : Node α) : Reorder t t
  | perm (n : NodeFields α) (cs cs' : List (Node α)) : cs.Perm cs' → Reorder (.mk n cs) (.mk n cs')
  | child (n : NodeFields α) (before : List (Node α)) (c c' : Node α) (after : List (Node α)) :
      Reorder c c' → Reorder (.mk n (before ++ c :: after)) (.mk n (before ++ c' :: after))
  | trans (t₁ t₂ t₃ : Node α) : Reorder t₁ t₂ → Reorder t₂ t₃ → Reorder t₁ t₃

/-- Two sibling splitters under the head-end, each with one terminal. -/
def tree_two_splitters : Node ℚ :=
  .mk (node_new NodeType.NODE_OLT)
    [.mk { node_new NodeType.NODE_SPLITTER with name := "A".toList, splitter_ratio := 8, len_km := 2 }
      [.mk { node_new NodeType.NODE_ONT with ont_id := 1, len_km := 1 } []],
     .mk { node_new NodeType.NODE_SPLITTER with name := "B".toList, splitter_ratio := 4, len_km := 3 }
      [.mk { node_new NodeType.NODE_ONT with ont_id := 2, len_km := 1 } []]]

/-- A terminal 10^10 km below the head-end: the topology text `OLT`,
`  ONT len=10000000000`. -/
def tree_far_terminal : Node ℚ :=
  .mk (node_new NodeType.NODE_OLT)
    [.mk { node_new NodeType.NODE_ONT with ont_id := 1, len_km := 10000000000 } []]

/-- The label of a node in a path string: `OLT` for a head-end, `name(1:ratio)`
for a named splitter, `S(1:ratio)` for an unnamed one, `ONT#id` for a
terminal. -/
def node_label (n : NodeFields α) : List Char :=
  match n.type with
  | NodeType.NODE_OLT => "OLT".toList
  | NodeType.NODE_SPLITTER =>
    (if n.name ≠ [] then n.name else "S".toList) ++ "(1:".toList ++
      (toString n.splitter_ratio).toList ++ ")".toList
  | NodeType.NODE_ONT => "ONT#".toList ++ (toString n.ont_id).toList

/-- The full path string of a sequence of nodes: their labels, in order, joined
by `/`. -/
def full_path (p : List (Node α)) : List Char :=
  "/".toList.intercalate (p.map (fun n => node_label n.fields))

/-- The fields of a node are values that `struct Node` can hold: a name of at
most 63 characters and 32-bit `splitter_ratio` and `ont_id`. -/
def NodeFields.fits (n : NodeFields α) : Prop :=
  n.name.length ≤ 63 ∧ -2147483648 ≤ n.splitter_ratio ∧ n.splitter_ratio ≤ 2147483647 ∧
    -2147483648 ≤ n.ont_id ∧ n.ont_id ≤ 2147483647

/-- A path string extended by a label, without any bound on its length. -/
def path_extend (x part : List Char) : List Char :=
  if x ≠ [] then x ++ '/' :: part else part

/-- A chain of `k` splitters, each named with 63 times the letter `a`, above the
given subtree. -/
def splitter_chain (k : Nat) (below : Node ℚ) : Node ℚ :=
  match k with
  | 0 => below
  | k + 1 =>
    .mk { node_new NodeType.NODE_SPLITTER with name := List.replicate 63 'a', splitter_ratio := 2 }
      [splitter_chain k below]

/-- A terminal below eight nested splitters with names of 63 characters. -/
def tree_long_path : Node ℚ :=
  .mk (node_new NodeType.NODE_OLT)
    [splitter_chain 8 (.mk { node_new NodeType.NODE_ONT with ont_id := 1 } [])]

/-- What a line of the CSV file has to do with the root-to-terminal path of its
terminal: every value except the path string is the one computed from the
inherited values along the path. -/
def row_matches (log10 : α → α) (c : Inherited α) (r : OntCsvRow α) (p : List (Node α)) : Prop :=
  ∃ e s, p.getLast? = some e ∧ r = leaf_row (c.along log10 p) e.fields.ont_id s

/-- The end-to-end scenario: head-end (3 dBm, -27 dBm), a splitter of ratio 8 with
2 km of feeder and 1 connector, one terminal with 1 km of drop, 1 connector and
1 splice, nothing faulty. -/
def tree_scenario : Node α :=
  .mk { node_new NodeType.NODE_OLT with olt_tx_dbm := 3, gpon_rxmin_dbm := -27 }
    [.mk { node_new NodeType.NODE_SPLITTER with splitter_ratio := 8, len_km := 2, connectors := 1 }
      [.mk { node_new NodeType.NODE_ONT with len_km := 1, connectors := 1, splices := 1, ont_id := 1 } []]]

/-- Root-to-splitter node sequences of the splitters that the traversal visits,
in the order in which their records are pushed: post-order, a splitter after
all splitters beneath it and before those of its later siblings.  A splitter is
visited unless it lies below a terminal. -/
def splitter_paths : Node α → List (List (Node α))
  | .mk n children =>
    if n.type = NodeType.NODE_ONT then []
    else (splitter_paths_children children).map (fun p => Node.mk n children :: p) ++
      (if n.type = NodeType.NODE_SPLITTER then [[Node.mk n children]] else [])
where
  /-- Splitter paths of a list of sibling subtrees, left to right. -/
  splitter_paths_children : List (Node α) → List (List (Node α))
    | [] => []
    | c :: cs => splitter_paths c ++ splitter_paths_children cs

/-- What a splitter record has to do with the root-to-splitter path of its
splitter: it is the record built at the splitter from the statistics that
`walk_and_compute` returns for the splitter, called with the values inherited
along the path down to its parent. -/
def record_matches (log10 : α → α) (c : Inherited α) (r : SplitterRecord α) (p : List (Node α)) : Prop :=
  ∃ s, p.getLast? = some s ∧
    r = splitter_record s.fields
      (walk_and_compute log10 512 s (c.along log10 p.dropLast).tx_dbm (c.along log10 p.dropLast).my_rxmin
        (c.along log10 p.dropLast).new_loss (c.along log10 p.dropLast).new_dist
        (c.along log10 p.dropLast).new_down state_init).1

/-- The entry of `ont_results` stored for the terminal of a CSV line: its id,
receive power and margin, and the path string copied with `strncpy` of 511. -/
def row_result (r : OntCsvRow α) : OntResult α where
  ont_id := r.ont_id
  rx_dbm := r.rx_dbm
  margin_db := r.margin_db
  path := r.path.take 511

/-- A head-end above 1025 terminals with the ids 1 to 1025: the topology text
`OLT` followed by 1025 lines `  ONT`. -/
def tree_many_terminals : Node ℚ :=
  .mk (node_new NodeType.NODE_OLT)
    ((List.range 1025).map (fun i => .mk { node_new NodeType.NODE_ONT with ont_id := (i : Int) + 1 } []))

/-- A splitter below a terminal: the topology text `OLT`, `  ONT`,
`    SPLITTER ratio=4`. -/
def tree_splitter_below_terminal : Node ℚ :=
  .mk (node_new NodeType.NODE_OLT)
    [.mk { node_new NodeType.NODE_ONT with ont_id := 1 }
      [.mk { node_new NodeType.NODE_SPLITTER with splitter_ratio := 4 } []]]

/-- The call of `walk_and_compute` on the node `s` at the end of the path `p`,
with the values inherited along the path down to the parent of `s`, replayed
from the initial state: its lines are those of the terminals visited in the
subtree of `s`. -/
def run_at (log10 : α → α) (c : Inherited α) (p : List (Node α)) (s : Node α) :
    SubtreeStats α × SimState α :=
  walk_and_compute log10 512 s (c.along log10 p.dropLast).tx_dbm (c.along log10 p.dropLast).my_rxmin
    (c.along log10 p.dropLast).new_loss (c.along log10 p.dropLast).new_dist
    (c.along log10 p.dropLast).new_down state_init

/-- The comparison function given to `qsort` (`cmp_margin`): -1, 1 or 0 as the
margin of the first result is below, above or equal to that of the second. -/
def cmp_margin (x y : OntResult α) : Int :=
  if x.margin_db < y.margin_db then -1
  else if x.margin_db > y.margin_db then 1
  else 0

/-- What the C library promises of `qsort(ont_results, ont_results_count,
sizeof(OntResult), cmp_margin)`, as a function from the array before the call to
the array after it: the same elements, in an order in which `cmp_margin` of an
earlier and a later element is never positive.  The order of elements that
compare equal is left open. -/
def qsort_sorts (qsort : List (OntResult α) → List (OntResult α)) : Prop :=
  ∀ l, (qsort l).Perm l ∧ (qsort l).Pairwise (fun x y => cmp_margin x y ≤ 0)

/-- The first `n` results after the sort: what the loop
`for (i = 0; i < TOP_N && i < ont_results_count; i++)` of `main` prints for
`n = TOP_N`. -/
def worst_n (qsort : List (OntResult α) → List (OntResult α)) (n : Nat) (results : List (OntResult α)) :
    List (OntResult α) :=
  (qsort results).take n

/-- An implementation of `qsort` with `cmp_margin`: insertion sort, which keeps
elements that compare equal in their original order. -/
def insertion_qsort (l : List (OntResult α)) : List (OntResult α) :=
  l.insertionSort (fun x y => cmp_margin x y ≤ 0)

/-- Two terminals with the same link under the head-end: the topology text
`OLT`, `  ONT id=1`, `  ONT id=2`. -/
def tree_twins : Node ℚ :=
  .mk (node_new NodeType.NODE_OLT)
    [.mk { node_new NodeType.NODE_ONT with ont_id := 1 } [],
     .mk { node_new NodeType.NODE_ONT with ont_id := 2 } []]

/-- The tree `tree_twins` with its two terminals in the other order. -/
def tree_twins_swapped : Node ℚ :=
  .mk (node_new NodeType.NODE_OLT)
    [.mk { node_new NodeType.NODE_ONT with ont_id := 2 } [],
     .mk { node_new NodeType.NODE_ONT with ont_id := 1 } []]

/-- Division of a sum by an `int` count in which a division by a zero count
stays visible: `none` stands for the division by 0 that the C program evaluates
in floating point (giving NaN or an infinity). -/
def div_count (x : α) (count : Int) : Option α :=
  if count = 0 then none else some (x / (count : α))

/-- The averages that `print_summary` prints (`AVG RX`, `AVG LOSS`), under its
guard `all->ont_count > 0`; nothing is printed for them otherwise. -/
def print_summary (all : SubtreeStats α) : List (Option α) :=
  if all.ont_count > 0 then [div_count all.sum_rx all.ont_count, div_count all.sum_loss all.ont_count]
  else []

/-- The average that `generate_report` prints (`Average RX power`): the division
`stats->sum_rx / stats->ont_count`, evaluated without a guard. -/
def generate_report (stats : SubtreeStats α) : Option α :=
  div_count stats.sum_rx stats.ont_count

/-- A head-end without any node below it: the topology text `OLT`. -/
def tree_head_end_only : Node ℚ :=
  .mk (node_new NodeType.NODE_OLT) []

/-- All nodes of a tree in the order of the lines of the topology text: a node
before its children, the children from first to last. -/
def tree_nodes : Node α → List (Node α)
  | .mk n children => Node.mk n children :: tree_nodes_children children
where
  /-- The nodes of a list of sibling subtrees, left to right. -/
  tree_nodes_children : List (Node α) → List (Node α)
    | [] => []
    | c :: cs => tree_nodes c ++ tree_nodes_children cs

/-- A head-end with a length of -1 km above a second head-end (5 dBm, -20 dBm)
above one terminal: the topology text `OLT len=-1`, `  OLT tx=5 rxmin=-20`,
`    ONT`. -/
def tree_head_end_negative_length : Node ℚ :=
  .mk { node_new NodeType.NODE_OLT with len_km := -1 }
    [.mk { node_new NodeType.NODE_OLT with olt_tx_dbm := 5, gpon_rxmin_dbm := -20 }
      [.mk { node_new NodeType.NODE_ONT with ont_id := 1 } []]]

/-- The largest `int`. -/
def INT_MAX : Int := 2147483647

/-- The characters for which `isspace` holds in the C locale. -/
def isspace (c : Char) : Bool :=
  c = ' ' || c = '\t' || c = '\n' || c = '\x0b' || c = '\x0c' || c = '\r'

/-- The string after its leading white space (`ltrim`). -/
def ltrim (s : List Char) : List Char := s.dropWhile isspace

/-- The string without its trailing white space (`rtrim`). -/
def rtrim (s : List Char) : List Char := (s.reverse.dropWhile isspace).reverse

/-- The number of blanks at the start of the string (`leading_spaces`). -/
def leading_spaces (s : List Char) : Nat := (s.takeWhile (fun c => c = ' ')).length

/-- The node type a token names (`parse_type`); `none` where the program stops
with `Nepoznati node type`. -/
def parse_type (tok : List Char) : Option NodeType :=
  if tok = "OLT".toList then some NodeType.NODE_OLT
  else if tok = "SPLITTER".toList then some NodeType.NODE_SPLITTER
  else if tok = "ONT".toList then some NodeType.NODE_ONT
  else none

/-- One `key=value` applied to a node (`apply_kv`); `parse_int` stands for
`(int)strtol(v, NULL, 10)` and `parse_double` for `strtod(v, NULL)`.  An unknown
key changes nothing. -/
def apply_kv (parse_int : List Char → Int) (parse_double : List Char → α) (n : NodeFields α)
    (key val : List Char) : NodeFields α :=
  if key = "len".toList then { n with len_km := parse_double val }
  else if key = "km".toList then { n with len_km := parse_double val }
  else if key = "conn".toList then { n with connectors := parse_int val }
  else if key = "sp".toList then { n with splices := parse_int val }
  else if key = "ratio".toList then { n with splitter_ratio := parse_int val }
  else if key = "name".toList then { n with name := val.take 63 }
  else if key = "id".toList then { n with ont_id := parse_int val }
  else if key = "tx".toList then { n with olt_tx_dbm := parse_double val }
  else if key = "rxmin".toList then { n with gpon_rxmin_dbm := parse_double val }
  else if key = "faulty".toList then { n with faulty := if parse_int val ≠ 0 then 1 else 0 }
  else if key = "extra".toList then { n with extra_loss_db := parse_double val }
  else n

/-- The tokens `strtok_r` cuts out of a string with the delimiters blank and
tab: the maximal runs of other characters. -/
def strtok_tokens (s : List Char) : List (List Char) :=
  (s.splitOnP (fun c => c = ' ' || c = '\t')).filter (fun t => t ≠ [])

/-- One token after the type applied to the node: a token without `=` is
skipped, otherwise the token is cut at its first `=` into key and value. -/
def apply_token (parse_int : List Char → Int) (parse_double : List Char → α) (n : NodeFields α)
    (tok : List Char) : NodeFields α :=
  if '=' ∈ tok then
    apply_kv parse_int parse_double n (tok.takeWhile (fun c => c ≠ '='))
      ((tok.dropWhile (fun c => c ≠ '=')).drop 1)
  else n

/-- One line of the topology parsed into the node (`parse_line`): the first
token is the type, the others are `key=value` pairs; `none` where the program
stops (no token, unknown type). -/
def parse_line (parse_int : List Char → Int) (parse_double : List Char → α) (n : NodeFields α)
    (line_no_indent : List Char) : Option (NodeFields α) :=
  match strtok_tokens line_no_indent with
  | [] => none
  | tok :: toks =>
    match parse_type tok with
    | none => none
    | some t => some (toks.foldl (apply_token parse_int parse_double) { n with type := t })

/-- The child appended (`node_add_child`) to the node that `stack[k]` points to.
The entries of `stack` that are not null are `stack[0]`, the root, and for each
the last child of the entry before it, so `stack[k]` is reached from the root
by going to the last child `k` times. -/
def add_child_at : Nat → Node α → Node α → Option (Node α)
  | 0, child, .mk f cs => some (.mk f (cs ++ [child]))
  | k + 1, child, .mk f cs =>
    match cs.getLast? with
    | none => none
    | some l => (add_child_at k child l).map (fun l2 => .mk f (cs.dropLast ++ [l2]))

/-- The variables of the loop of `read_topology`: the tree under `root`, the
greatest index `depth` with `stack[depth]` not null (meaningful when there is a
root), and the counter `auto_ont_id`. -/
structure TopoState (α : Type) where
  root : Option (Node α)
  depth : Nat
  auto_ont_id : Int

/-- The identifier of a node just parsed: a terminal whose identifier is
negative (none given, or a negative one) takes the value of the counter
`auto_ont_id`, which is then incremented.  Returns the node and the counter. -/
def number_terminal (auto_ont_id : Int) (n : NodeFields α) : NodeFields α × Int :=
  if n.type = NodeType.NODE_ONT ∧ n.ont_id < 0 then ({ n with ont_id := auto_ont_id }, auto_ont_id + 1)
  else (n, auto_ont_id)

/-- The part of the loop body of `read_topology` after `parse_line`: the
identifier of a terminal, the place of the node in the tree, the stack.  It is
`none` where the program stops (a node at depth 0 that is not a head-end, a
missing parent) and where the behaviour of the C program is undefined (a depth
of 64 or more, beyond `stack[64]`; the counter beyond `INT_MAX`). -/
def place_node (st : TopoState α) (depth : Nat) (n0 : NodeFields α) : Option (TopoState α) :=
  if n0.type = NodeType.NODE_ONT ∧ n0.ont_id < 0 ∧ st.auto_ont_id ≥ INT_MAX then none
  else
    let n := (number_terminal st.auto_ont_id n0).1
    let auto_ont_id := (number_terminal st.auto_ont_id n0).2
    if depth = 0 then
      if n.type ≠ NodeType.NODE_OLT then none
      else some { root := some (.mk n []), depth := 0, auto_ont_id := auto_ont_id }
    else if depth ≥ 64 then none
    else
      match st.root with
      | none => none
      | some r =>
        if depth - 1 > st.depth then none
        else
          (add_child_at (depth - 1) (.mk n []) r).map
            (fun r2 => { root := some r2, depth := depth, auto_ont_id := auto_ont_id })

/-- The body of the loop of `read_topology` for one line as `fgets` returns it:
blank lines and lines starting with a hash sign are skipped, the indentation
must be even and gives the depth. -/
def read_line (parse_int : List Char → Int) (parse_double : List Char → α) (st : TopoState α)
    (line : List Char) : Option (TopoState α) :=
  let p := ltrim (rtrim line)
  if p = [] then some st
  else if p.head? = some '#' then some st
  else if leading_spaces (rtrim line) % 2 ≠ 0 then none
  else
    match parse_line parse_int parse_double (node_new NodeType.NODE_ONT) (p.take 1023) with
    | none => none
    | some n0 => place_node st (leading_spaces (rtrim line) / 2) n0

/-- The loop of `read_topology` over the lines of the file. -/
def read_lines (parse_int : List Char → Int) (parse_double : List Char → α) :
    TopoState α → List (List Char) → Option (TopoState α)
  | st, [] => some st
  | st, line :: lines =>
    match read_line parse_int parse_double st line with
    | none => none
    | some st2 => read_lines parse_int parse_double st2 lines

/-- The tree `read_topology` builds from the lines of the file; `none` where the
program stops with an error (also when there is no root at the end). -/
def read_topology (parse_int : List Char → Int) (parse_double : List Char → α)
    (lines : List (List Char)) : Option (Node α) :=
  match read_lines parse_int parse_double { root := none, depth := 0, auto_ont_id := 1 } lines with
  | none => none
  | some st => st.root

/-- The node a line describes, as `parse_line` fills it in, before the
identifier is looked at; `none` for a line that is skipped or not parsed. -/
def line_fields (parse_int : List Char → Int) (parse_double : List Char → α)
    (line : List Char) : Option (NodeFields α) :=
  if ltrim (rtrim line) = [] then none
  else if (ltrim (rtrim line)).head? = some '#' then none
  else parse_line parse_int parse_double (node_new NodeType.NODE_ONT) ((ltrim (rtrim line)).take 1023)

/-- The nodes the lines of the file describe, in the order of the lines. -/
def parsed_nodes (parse_int : List Char → Int) (parse_double : List Char → α)
    (lines : List (List Char)) : List (NodeFields α) :=
  lines.filterMap (line_fields parse_int parse_double)

/-- The identifiers in order of appearance: going through the nodes in the order
of their lines, a terminal whose line gave no identifier that is 0 or more gets
the next number of the counter, every other node is left as it is. -/
def assign_ids : Int → List (NodeFields α) → List (NodeFields α)
  | _, [] => []
  | a, n :: ns =>
    if n.type = NodeType.NODE_ONT ∧ n.ont_id < 0 then { n with ont_id := a } :: assign_ids (a + 1) ns
    else n :: assign_ids a ns

/-- The identifiers of the terminals among the nodes, in order. -/
def terminal_ids (l : List (NodeFields α)) : List Int :=
  (l.filter (fun n => n.type = NodeType.NODE_ONT)).map (fun n => n.ont_id)

/-- What the loop of `read_topology` keeps true: the counter is 1 plus the number
of terminals numbered so far, and the nodes of the tree under the root are, in
the order of their lines, the last of the nodes numbered so far. -/
def TopoInv (P : List (NodeFields α)) (st : TopoState α) : Prop :=
  st.auto_ont_id =
      1 + ((P.filter (fun n => n.type = NodeType.NODE_ONT ∧ n.ont_id < 0)).length : Nat) ∧
    ∀ r, st.root = some r → ∃ j, (tree_nodes r).map Node.fields = (assign_ids 1 P).drop j

/-- The entries `stack[0]` to `stack[depth]` are nodes of the tree: a node can be
appended below each of them. -/
def TopoChain (st : TopoState α) : Prop :=
  ∀ r, st.root = some r → ∀ k, k ≤ st.depth → ∀ c, (add_child_at k c r).isSome = true

/-- A decimal numeral read as `strtol` reads it: an optional sign, then the
digits up to the first character that is not one. -/
def decimal_int (s : List Char) : Int :=
  let digits (t : List Char) : Int :=
    ((t.takeWhile Char.isDigit).foldl (fun v c => 10 * v + (c.toNat - 48)) (0 : Nat) : Nat)
  match s with
  | '-' :: t => - digits t
  | '+' :: t => digits t
  | t => digits t

/-- The topology text of four lines in which a terminal is given the identifier
1, the next one none, and the last one a negative identifier. -/
def text_duplicate_id : List (List Char) :=
  ["OLT\n".toList, "  ONT id=1\n".toList, "  ONT\n".toList, "  ONT id=-3\n".toList]

/-- The tree of `text_duplicate_id`. -/
def tree_duplicate_id : Node ℚ :=
  .mk (node_new NodeType.NODE_OLT)
    [.mk { node_new NodeType.NODE_ONT with ont_id := 1 } [],
     .mk { node_new NodeType.NODE_ONT with ont_id := 1 } [],
     .mk { node_new NodeType.NODE_ONT with ont_id := 2 } []]

/-- A topology text in which no terminal is given an identifier. -/
def text_auto_ids : List (List Char) :=
  ["# two terminals behind a splitter, one at the head-end\n".toList, "OLT\n".toList,
   "  SPLITTER ratio=4 name=S1\n".toList, "    ONT\n".toList, "    ONT\n".toList, "\n".toList,
   "  ONT\n".toList]

/-- The tree of `text_auto_ids`. -/
def tree_auto_ids : Node ℚ :=
  .mk (node_new NodeType.NODE_OLT)
    [.mk { node_new NodeType.NODE_SPLITTER with splitter_ratio := 4, name := "S1".toList }
      [.mk { node_new NodeType.NODE_ONT with ont_id := 1 } [],
       .mk { node_new NodeType.NODE_ONT with ont_id := 2 } []],
     .mk { node_new NodeType.NODE_ONT with ont_id := 3 } []]

/-- The position of the leading binary digit of a natural number: the greatest
`k` with `2 ^ k ≤ n` (0 for `n = 0`). -/
def bit_floor (n : Nat) : Nat := go n n
where
  /-- Halving until the number is below 2, at most `fuel` times. -/
  go : Nat → Nat → Nat
    | 0, _ => 0
    | fuel + 1, m => if m < 2 then 0 else go fuel (m / 2) + 1

/-- Rounding of a rational number to the nearest IEEE 754 binary64 number
(a C `double`), ties to the even significand: the result is a multiple of
`2 ^ e`, where `e` is 52 below the position of the leading binary digit of `x`
and at least -1074 (the subnormal numbers).  Overflow to infinity is outside the
model: the numbers are below `2 ^ 1024` in absolute value. -/
def round_double (x : ℚ) : ℚ :=
  if x = 0 then 0
  else
    let n : Nat := x.num.natAbs
    let d : Nat := x.den
    let e0 : Int := (bit_floor n : Int) - (bit_floor d : Int)
    let e1 : Int := if n * 2 ^ (-e0).toNat < d * 2 ^ e0.toNat then e0 - 1 else e0
    let e : Int := max (e1 - 52) (-1074)
    let mn : Nat := n * 2 ^ (-e).toNat
    let md : Nat := d * 2 ^ e.toNat
    let q : Nat := mn / md
    let r : Nat := mn % md
    let k : Nat := if 2 * r < md then q else if md < 2 * r then q + 1 else if q % 2 = 0 then q else q + 1
    let m : ℚ := ((k * 2 ^ e.toNat : Nat) : ℚ) / ((2 ^ (-e).toNat : Nat) : ℚ)
    if x < 0 then -m else m

/-- Loss of a splitter (`splitter_loss_db`) with the arithmetic of the machine:
`rnd` rounds the exact result of each operation on doubles to a double. -/
def splitter_loss_db_fl (rnd : α → α) (log10 : α → α) (ratio : Int) : α :=
  if ratio ≤ 1 then 0
  else rnd (rnd (10 * log10 (ratio : α)) + SPLITTER_INS_DB)

/-- Loss of the link that enters a node (`node_link_loss_db`) with the arithmetic
of the machine: every product and every `+=` is rounded by `rnd`, and the
constants 0.35, 0.50 and 0.10 are the doubles nearest to them. -/
def node_link_loss_db_fl (rnd : α → α) (log10 : α → α) (n : NodeFields α) : α :=
  let loss : α := 0
  let loss := rnd (loss + rnd (n.len_km * rnd ATTEN_DB_PER_KM))
  let loss := rnd (loss + rnd ((n.connectors : α) * rnd CONN_LOSS_DB))
  let loss := rnd (loss + rnd ((n.splices : α) * rnd SPLICE_LOSS_DB))
  let loss :=
    if n.type = NodeType.NODE_SPLITTER then rnd (loss + splitter_loss_db_fl rnd log10 n.splitter_ratio)
    else loss
  let loss := if n.faulty ≠ 0 then rnd (loss + n.extra_loss_db) else loss
  loss

/-- Merge of the statistics `b` into `a` (`stats_merge`) with the arithmetic of
the machine: the two `+=` on doubles give the rounded sums; the counts, the
maximum and the minimum are exact.  With `rnd` the identity it is
`stats_merge`. -/
def stats_merge_fl (rnd : α → α) (a b : SubtreeStats α) : SubtreeStats α where
  ont_count := a.ont_count + b.ont_count
  ok_count := a.ok_count + b.ok_count
  fail_count := a.fail_count + b.fail_count
  down_count := a.down_count + b.down_count
  sum_rx := rnd (a.sum_rx + b.sum_rx)
  sum_loss := rnd (a.sum_loss + b.sum_loss)
  best_rx := if b.best_rx > a.best_rx then b.best_rx else a.best_rx
  worst_rx := if b.worst_rx < a.worst_rx then b.worst_rx else a.worst_rx

mutual
/-- The statistics `walk_and_compute` returns, computed with the arithmetic of
the machine: `rnd` rounds the exact result of each addition, subtraction and
multiplication of doubles, each operation on its own (IEEE 754 arithmetic in
double precision, no fused multiply-add).  The statistics do not depend on what
the traversal writes, so the file, the arrays and the path buffer are left
out. -/
def walk_and_compute_fl (rnd : α → α) (log10 : α → α) :
    Node α → α → α → α → α → Int → SubtreeStats α
  | .mk n children, parent_tx_dbm, rxmin_dbm, acc_loss_db, acc_dist_km, down_flag =>
    let tx_dbm := if n.type = NodeType.NODE_OLT then n.olt_tx_dbm else parent_tx_dbm
    let my_rxmin := if n.type = NodeType.NODE_OLT then n.gpon_rxmin_dbm else rxmin_dbm
    let new_loss :=
      if n.type ≠ NodeType.NODE_OLT then rnd (acc_loss_db + node_link_loss_db_fl rnd log10 n)
      else acc_loss_db
    let new_dist := if n.type ≠ NodeType.NODE_OLT then rnd (acc_dist_km + n.len_km) else acc_dist_km
    let new_down : Int := if n.type ≠ NodeType.NODE_OLT ∧ n.faulty ≠ 0 then 1 else down_flag
    let here : SubtreeStats α := stats_init
    if n.type = NodeType.NODE_ONT then
      let rx_dbm := rnd (tx_dbm - new_loss)
      let ok : Int := if new_down ≠ 0 then 0 else if rx_dbm ≥ my_rxmin then 1 else 0
      let here := { here with ont_count := 1, sum_rx := rx_dbm, sum_loss := new_loss,
                              best_rx := rx_dbm, worst_rx := rx_dbm }
      if new_down ≠ 0 then { here with down_count := 1 }
      else if ok ≠ 0 then { here with ok_count := 1 }
      else { here with fail_count := 1 }
    else
      walk_children_fl rnd log10 children tx_dbm my_rxmin new_loss new_dist new_down here
/-- The loop `while (child)` of `walk_and_compute` with the arithmetic of the
machine. -/
def walk_children_fl (rnd : α → α) (log10 : α → α) :
    List (Node α) → α → α → α → α → Int → SubtreeStats α → SubtreeStats α
  | [], _, _, _, _, _, here => here
  | child :: rest, tx_dbm, my_rxmin, new_loss, new_dist, new_down, here =>
    walk_children_fl rnd log10 rest tx_dbm my_rxmin new_loss new_dist new_down
      (stats_merge_fl rnd here
        (walk_and_compute_fl rnd log10 child tx_dbm my_rxmin new_loss new_dist new_down))
end

/-- The values `walk_and_compute` computes at a node from the ones it was called
with, with the arithmetic of the machine. -/
def Inherited.enter_fl (rnd : α → α) (log10 : α → α) (c : Inherited α) (n : NodeFields α) :
    Inherited α where
  tx_dbm := if n.type = NodeType.NODE_OLT then n.olt_tx_dbm else c.tx_dbm
  my_rxmin := if n.type = NodeType.NODE_OLT then n.gpon_rxmin_dbm else c.my_rxmin
  new_loss :=
    if n.type ≠ NodeType.NODE_OLT then rnd (c.new_loss + node_link_loss_db_fl rnd log10 n)
    else c.new_loss
  new_dist := if n.type ≠ NodeType.NODE_OLT then rnd (c.new_dist + n.len_km) else c.new_dist
  new_down := if n.type ≠ NodeType.NODE_OLT ∧ n.faulty ≠ 0 then 1 else c.new_down

/-- The inherited values after descending along a sequence of nodes, with the
arithmetic of the machine. -/
def Inherited.along_fl (rnd : α → α) (log10 : α → α) (c : Inherited α) (p : List (Node α)) :
    Inherited α :=
  p.foldl (fun c n => c.enter_fl rnd log10 n.fields) c

/-- The single-count statistics returned at a terminal, from the values computed
at the terminal, the receive power being the rounded difference. -/
def leaf_stats_fl (rnd : α → α) (c : Inherited α) : SubtreeStats α where
  ont_count := 1
  ok_count := if c.new_down ≠ 0 then 0 else if rnd (c.tx_dbm - c.new_loss) ≥ c.my_rxmin then 1 else 0
  fail_count := if c.new_down ≠ 0 then 0 else if rnd (c.tx_dbm - c.new_loss) ≥ c.my_rxmin then 0 else 1
  down_count := if c.new_down ≠ 0 then 1 else 0
  sum_rx := rnd (c.tx_dbm - c.new_loss)
  sum_loss := c.new_loss
  best_rx := rnd (c.tx_dbm - c.new_loss)
  worst_rx := rnd (c.tx_dbm - c.new_loss)

/-- Two statistics with the same counts, the same `best_rx` and the same
`worst_rx`: they agree in everything except the two sums. -/
def agree_except_sums (a b : SubtreeStats α) : Prop :=
  a.ont_count = b.ont_count ∧ a.ok_count = b.ok_count ∧ a.fail_count = b.fail_count ∧
    a.down_count = b.down_count ∧ a.best_rx = b.best_rx ∧ a.worst_rx = b.worst_rx

/-- The statistics of one terminal that is OK with a receive power of 0 dBm and
the given loss. -/
def stats_with_loss (loss : ℚ) : SubtreeStats ℚ where
  ont_count := 1
  ok_count := 1
  fail_count := 0
  down_count := 0
  sum_rx := 0
  sum_loss := loss
  best_rx := 0
  worst_rx := 0

/-- A terminal with the given identifier at the end of a drop of the given
length: the line `ONT id=... len=...`. -/
def terminal_at_km (ont_id : Int) (len_km : ℚ) : Node ℚ :=
  .mk { node_new NodeType.NODE_ONT with ont_id := ont_id, len_km := len_km } []

/-- A head-end above three terminals at 1 km, 2 km and 3 km: the topology text
`OLT`, `  ONT len=1`, `  ONT len=2`, `  ONT len=3`. -/
def tree_three_terminals : Node ℚ :=
  .mk (node_new NodeType.NODE_OLT) [terminal_at_km 1 1, terminal_at_km 2 2, terminal_at_km 3 3]

/-- The same terminals in the order 2 km, 3 km, 1 km: the topology text `OLT`,
`  ONT id=2 len=2`, `  ONT id=3 len=3`, `  ONT id=1 len=1`. -/
def tree_three_terminals_rotated : Node ℚ :=
  .mk (node_new NodeType.NODE_OLT) [terminal_at_km 2 2, terminal_at_km 3 3, terminal_at_km 1 1]

end Model

/-! ## Auxiliary facts about lists -/

section Lists

theorem forall₂_and_mem_right {β γ : Type} {R : β → γ → Prop} {Q : γ → Prop} {l₁ : List β} {l₂ : List γ}
    (h : List.Forall₂ R l₁ l₂) (hq : ∀ b ∈ l₂, Q b) : List.Forall₂ (fun a b => R a b ∧ Q b) l₁ l₂ := by
  induction h with
  | nil => exact List.Forall₂.nil
  | cons hab _ ih =>
    exact List.Forall₂.cons ⟨hab, hq _ (by simp)⟩ (ih (fun b hb => hq b (by simp [hb])))

theorem forall₂_sum_eq {β γ : Type} {R : β → γ → Prop} {f : β → Int} {g : γ → Int}
    {l₁ : List β} {l₂ : List γ} (h : List.Forall₂ R l₁ l₂) (hfg : ∀ a b, R a b → f a = g b) :
    (l₁.map f).sum = (l₂.map g).sum := by
  induction h with
  | nil => simp
  | cons hab _ ih => simp [hfg _ _ hab, ih]

theorem forall₂_map_eq {β γ δ : Type} {R : β → γ → Prop} {f : β → δ} {g : γ → δ}
    {l₁ : List β} {l₂ : List γ} (h : List.Forall₂ R l₁ l₂) (hfg : ∀ a b, R a b → f a = g b) :
    l₁.map f = l₂.map g := by
  induction h with
  | nil => simp
  | cons hab _ ih => simp [hfg _ _ hab, ih]

theorem filter_length_eq_sum {β : Type} (q : β → Bool) (l : List β) :
    ((l.filter q).length : Int) = (l.map (fun b => if q b then (1 : Int) else 0)).sum := by
  induction l with
  | nil => simp
  | cons b l ih =>
    by_cases h : q b
    · simp [List.filter_cons, h, ih]; ring
    · simp [List.filter_cons, h, ih]

theorem SubtreeStats.ext_fields {α : Type} {a b : SubtreeStats α} (h1 : a.ont_count = b.ont_count)
    (h2 : a.ok_count = b.ok_count) (h3 : a.fail_count = b.fail_count)
    (h4 : a.down_count = b.down_count) (h5 : a.sum_rx = b.sum_rx) (h6 : a.sum_loss = b.sum_loss)
    (h7 : a.best_rx = b.best_rx) (h8 : a.worst_rx = b.worst_rx) : a = b := by
  cases a; cases b; simp_all

theorem forall₂_mem_left {β γ : Type} {R : β → γ → Prop} {l₁ : List β} {l₂ : List γ}
    (h : List.Forall₂ R l₁ l₂) : ∀ a ∈ l₁, ∃ b ∈ l₂, R a b := by
  induction h with
  | nil => intro a ha; simp at ha
  | cons hab _ ih =>
    intro a ha
    rcases List.mem_cons.1 ha with rfl | ha
    · exact ⟨_, List.mem_cons_self _ _, hab⟩
    · obtain ⟨b, hb, hr⟩ := ih a ha
      exact ⟨b, List.mem_cons_of_mem _ hb, hr⟩

theorem agree_refl (a : SubtreeStats α) : agree_except_sums a a := ⟨rfl, rfl, rfl, rfl, rfl, rfl⟩

theorem agree_symm {a b : SubtreeStats α} (h : agree_except_sums a b) : agree_except_sums b a :=
  ⟨h.1.symm, h.2.1.symm, h.2.2.1.symm, h.2.2.2.1.symm, h.2.2.2.2.1.symm, h.2.2.2.2.2.symm⟩

theorem agree_trans {a b c : SubtreeStats α} (h : agree_except_sums a b)
    (g : agree_except_sums b c) : agree_except_sums a c :=
  ⟨h.1.trans g.1, h.2.1.trans g.2.1, h.2.2.1.trans g.2.2.1, h.2.2.2.1.trans g.2.2.2.1,
    h.2.2.2.2.1.trans g.2.2.2.2.1, h.2.2.2.2.2.trans g.2.2.2.2.2⟩

end Lists

/-! ## Visited terminals and their root-to-terminal paths -/

section Paths

variable {α : Type}

theorem visited_paths_ont (n : NodeFields α) (cs : List (Node α)) (h : n.type = NodeType.NODE_ONT) :
    visited_paths (Node.mk n cs) = [[Node.mk n cs]] := by
  simp [visited_paths, h]

theorem visited_paths_inner (n : NodeFields α) (cs : List (Node α)) (h : n.type ≠ NodeType.NODE_ONT) :
    visited_paths (Node.mk n cs) =
      (visited_paths.visited_paths_children cs).map (fun p => Node.mk n cs :: p) := by
  simp [visited_paths, h]

theorem mem_visited_paths_children (ts : List (Node α)) (p : List (Node α)) :
    p ∈ visited_paths.visited_paths_children ts ↔ ∃ c ∈ ts, p ∈ visited_paths c := by
  induction ts with
  | nil => simp [visited_paths.visited_paths_children]
  | cons t ts ih => simp [visited_paths.visited_paths_children, ih]

theorem isDescent_ne_nil {t : Node α} {p : List (Node α)} (h : IsDescent t p) : p ≠ [] := by
  cases h <;> simp

/-- Every visited path is a downward chain from the node, ends in a terminal and
meets no terminal before its end. -/
theorem visited_paths_sound : ∀ (t : Node α) (p : List (Node α)), p ∈ visited_paths t →
    IsDescent t p ∧ (∃ e, p.getLast? = some e ∧ e.fields.type = NodeType.NODE_ONT) ∧
      ∀ n ∈ p.dropLast, n.fields.type ≠ NodeType.NODE_ONT
  | .mk n cs, p, hp => by
    by_cases h : n.type = NodeType.NODE_ONT
    · rw [visited_paths_ont n cs h] at hp
      simp only [List.mem_singleton] at hp
      subst hp
      exact ⟨IsDescent.single _, ⟨_, rfl, h⟩, by simp⟩
    · rw [visited_paths_inner n cs h] at hp
      simp only [List.mem_map] at hp
      obtain ⟨q, hq, rfl⟩ := hp
      obtain ⟨c, hc, hqc⟩ := (mem_visited_paths_children cs q).1 hq
      have _hlt : sizeOf c < sizeOf (Node.mk n cs) := by
        have := List.sizeOf_lt_of_mem hc
        simp only [Node.mk.sizeOf_spec]
        omega
      obtain ⟨h1, ⟨e, h2, h3⟩, h4⟩ := visited_paths_sound c q hqc
      have hne : q ≠ [] := isDescent_ne_nil h1
      refine ⟨IsDescent.step _ c q hc h1, ⟨e, ?_, h3⟩, ?_⟩
      · cases q with
        | nil => exact absurd rfl hne
        | cons a l => simpa using h2
      · cases q with
        | nil => exact absurd rfl hne
        | cons a l =>
          intro m hm
          simp only [List.dropLast_cons₂, List.mem_cons] at hm
          rcases hm with rfl | hm
          · exact h
          · exact h4 m hm
termination_by t => sizeOf t

/-- Every downward chain from the node that ends in a terminal and meets no
terminal before its end is a visited path. -/
theorem visited_paths_complete {t : Node α} {p : List (Node α)} (hd : IsDescent t p) :
    (∃ e, p.getLast? = some e ∧ e.fields.type = NodeType.NODE_ONT) →
    (∀ n ∈ p.dropLast, n.fields.type ≠ NodeType.NODE_ONT) → p ∈ visited_paths t := by
  induction hd with
  | single t =>
    rintro ⟨e, h1, h2⟩ _
    simp only [List.getLast?_singleton, Option.some.injEq] at h1
    subst h1
    cases t with
    | mk n cs => rw [visited_paths_ont n cs h2]; simp
  | step t c q hc hq ih =>
    rintro ⟨e, h1, h2⟩ h3
    have hne : q ≠ [] := isDescent_ne_nil hq
    cases q with
    | nil => exact absurd rfl hne
    | cons a l =>
      have ht : t.fields.type ≠ NodeType.NODE_ONT := h3 t (by simp)
      have hq2 : (a :: l) ∈ visited_paths c := by
        apply ih
        · exact ⟨e, by simpa using h1, h2⟩
        · intro m hm
          exact h3 m (by simp only [List.dropLast_cons₂, List.mem_cons]; exact Or.inr hm)
      cases t with
      | mk n cs =>
        rw [visited_paths_inner n cs ht]
        simp only [List.mem_map]
        exact ⟨a :: l, (mem_visited_paths_children cs _).2 ⟨c, hc, hq2⟩, rfl⟩

theorem isDescent_dropLast_not_ont {t : Node α} {p : List (Node α)} (hd : IsDescent t p) :
    (∀ q e, IsDescent t q → q.getLast? = some e → e.fields.type = NodeType.NODE_ONT → e.children = []) →
    ∀ n ∈ p.dropLast, n.fields.type ≠ NodeType.NODE_ONT := by
  induction hd with
  | single t => intro _ n hn; simp at hn
  | step t c q hc hq ih =>
    intro hleaf n hn
    have hne : q ≠ [] := isDescent_ne_nil hq
    cases q with
    | nil => exact absurd rfl hne
    | cons a l =>
      simp only [List.dropLast_cons₂, List.mem_cons] at hn
      rcases hn with rfl | hn
      · intro hont
        have := hleaf [n] n (IsDescent.single n) rfl hont
        rw [this] at hc
        simp at hc
      · refine ih ?_ n hn
        intro q' e hq' he hont
        have hne' : q' ≠ [] := isDescent_ne_nil hq'
        refine hleaf (t :: q') e (IsDescent.step t c q' hc hq') ?_ hont
        cases q' with
        | nil => exact absurd rfl hne'
        | cons b m => simpa using he

/-- In a tree whose terminals have no children, every downward chain from the
root to a terminal is a visited path: the traversal visits every terminal. -/
theorem visited_paths_all_terminals {t : Node α} {p : List (Node α)} (hd : IsDescent t p)
    (hleaf : ∀ q e, IsDescent t q → q.getLast? = some e → e.fields.type = NodeType.NODE_ONT →
      e.children = [])
    (hlast : ∃ e, p.getLast? = some e ∧ e.fields.type = NodeType.NODE_ONT) :
    p ∈ visited_paths t :=
  visited_paths_complete hd hlast (isDescent_dropLast_not_ont hd hleaf)

theorem visited_paths_head (t : Node α) (p : List (Node α)) (hp : p ∈ visited_paths t) :
    ∃ q, p = t :: q := by
  have h := (visited_paths_sound t p hp).1
  cases h with
  | single => exact ⟨[], rfl⟩
  | step _ c q _ _ => exact ⟨q, rfl⟩

theorem nearest_head_end_of_head (t : Node α) (q : List (Node α))
    (ht : t.fields.type = NodeType.NODE_OLT) : ∃ h, nearest_head_end (t :: q) = some h := by
  unfold nearest_head_end
  simp only [ht, decide_True, List.filter_cons_of_pos, List.getLast?_cons]
  exact ⟨_, rfl⟩

theorem splitter_paths_ont (n : NodeFields α) (cs : List (Node α)) (h : n.type = NodeType.NODE_ONT) :
    splitter_paths (Node.mk n cs) = [] := by
  simp [splitter_paths, h]

theorem splitter_paths_inner (n : NodeFields α) (cs : List (Node α)) (h : n.type ≠ NodeType.NODE_ONT) :
    splitter_paths (Node.mk n cs) =
      (splitter_paths.splitter_paths_children cs).map (fun p => Node.mk n cs :: p) ++
        (if n.type = NodeType.NODE_SPLITTER then [[Node.mk n cs]] else []) := by
  simp [splitter_paths, h]

/-- A subtree without any terminal has no visited path. -/
theorem visited_paths_eq_nil {t : Node α}
    (h : ∀ p e, IsDescent t p → p.getLast? = some e → e.fields.type ≠ NodeType.NODE_ONT) :
    visited_paths t = [] := by
  rw [List.eq_nil_iff_forall_not_mem]
  intro p hp
  obtain ⟨h1, ⟨e, h2, h3⟩, _⟩ := visited_paths_sound t p hp
  exact h p e h1 h2 h3

theorem mem_splitter_paths_children (ts : List (Node α)) (p : List (Node α)) :
    p ∈ splitter_paths.splitter_paths_children ts ↔ ∃ c ∈ ts, p ∈ splitter_paths c := by
  induction ts with
  | nil => simp [splitter_paths.splitter_paths_children]
  | cons t ts ih => simp [splitter_paths.splitter_paths_children, ih]

/-- Every splitter path is a downward chain from the node, ends in a splitter
and meets no terminal. -/
theorem splitter_paths_sound : ∀ (t : Node α) (p : List (Node α)), p ∈ splitter_paths t →
    IsDescent t p ∧ (∃ e, p.getLast? = some e ∧ e.fields.type = NodeType.NODE_SPLITTER) ∧
      ∀ n ∈ p, n.fields.type ≠ NodeType.NODE_ONT
  | .mk n cs, p, hp => by
    by_cases h : n.type = NodeType.NODE_ONT
    · rw [splitter_paths_ont n cs h] at hp
      simp at hp
    · rw [splitter_paths_inner n cs h] at hp
      rcases List.mem_append.1 hp with hp | hp
      · simp only [List.mem_map] at hp
        obtain ⟨q, hq, rfl⟩ := hp
        obtain ⟨c, hc, hqc⟩ := (mem_splitter_paths_children cs q).1 hq
        have _hlt : sizeOf c < sizeOf (Node.mk n cs) := by
          have := List.sizeOf_lt_of_mem hc
          simp only [Node.mk.sizeOf_spec]
          omega
        obtain ⟨h1, ⟨e, h2, h3⟩, h4⟩ := splitter_paths_sound c q hqc
        have hne : q ≠ [] := isDescent_ne_nil h1
        refine ⟨IsDescent.step _ c q hc h1, ⟨e, ?_, h3⟩, ?_⟩
        · cases q with
          | nil => exact absurd rfl hne
          | cons a l => simpa using h2
        · intro m hm
          rcases List.mem_cons.1 hm with rfl | hm
          · exact h
          · exact h4 m hm
      · by_cases hs : n.type = NodeType.NODE_SPLITTER
        · simp only [hs, if_true, List.mem_singleton] at hp
          subst hp
          refine ⟨IsDescent.single _, ⟨_, rfl, hs⟩, ?_⟩
          intro m hm
          simp only [List.mem_singleton] at hm
          subst hm
          exact h
        · simp [hs] at hp
termination_by t => sizeOf t

/-- Every downward chain from the node that ends in a splitter and meets no
terminal is a splitter path. -/
theorem splitter_paths_complete {t : Node α} {p : List (Node α)} (hd : IsDescent t p) :
    (∃ e, p.getLast? = some e ∧ e.fields.type = NodeType.NODE_SPLITTER) →
    (∀ n ∈ p, n.fields.type ≠ NodeType.NODE_ONT) → p ∈ splitter_paths t := by
  induction hd with
  | single t =>
    rintro ⟨e, h1, h2⟩ h3
    simp only [List.getLast?_singleton, Option.some.injEq] at h1
    subst h1
    cases t with
    | mk n cs =>
      have hn : n.type ≠ NodeType.NODE_ONT := h3 (Node.mk n cs) (by simp)
      rw [splitter_paths_inner n cs hn]
      have h2' : n.type = NodeType.NODE_SPLITTER := h2
      simp [h2']
  | step t c q hc hq ih =>
    rintro ⟨e, h1, h2⟩ h3
    have hne : q ≠ [] := isDescent_ne_nil hq
    cases q with
    | nil => exact absurd rfl hne
    | cons a l =>
      have ht : t.fields.type ≠ NodeType.NODE_ONT := h3 t (by simp)
      have hq2 : (a :: l) ∈ splitter_paths c := by
        apply ih
        · exact ⟨e, by simpa using h1, h2⟩
        · intro m hm
          exact h3 m (List.mem_cons_of_mem _ hm)
      cases t with
      | mk n cs =>
        rw [splitter_paths_inner n cs ht]
        apply List.mem_append_left
        simp only [List.mem_map]
        exact ⟨a :: l, (mem_splitter_paths_children cs _).2 ⟨c, hc, hq2⟩, rfl⟩

theorem mem_tree_nodes_self (t : Node α) : t ∈ tree_nodes t := by
  cases t with
  | mk n cs => simp [tree_nodes]

theorem mem_tree_nodes_children {m c : Node α} : ∀ {cs : List (Node α)}, c ∈ cs → m ∈ tree_nodes c →
    m ∈ tree_nodes.tree_nodes_children cs
  | [], hc, _ => by simp at hc
  | d :: ds, hc, hm => by
    simp only [tree_nodes.tree_nodes_children, List.mem_append]
    rcases List.mem_cons.1 hc with rfl | hc
    · exact Or.inl hm
    · exact Or.inr (mem_tree_nodes_children hc hm)

theorem mem_tree_nodes_of_child {m c t : Node α} (hc : c ∈ t.children) (hm : m ∈ tree_nodes c) :
    m ∈ tree_nodes t := by
  cases t with
  | mk n cs =>
    simp only [tree_nodes, List.mem_cons]
    exact Or.inr (mem_tree_nodes_children hc hm)

/-- Every node of a downward chain from a node is a node of its tree. -/
theorem isDescent_mem_tree_nodes {t : Node α} {p : List (Node α)} (hd : IsDescent t p) :
    ∀ m ∈ p, m ∈ tree_nodes t := by
  induction hd with
  | single t =>
    intro m hm
    rw [List.mem_singleton] at hm
    subst hm
    exact mem_tree_nodes_self _
  | step t c p hc _ ih =>
    intro m hm
    rcases List.mem_cons.1 hm with rfl | hm
    · exact mem_tree_nodes_self _
    · exact mem_tree_nodes_of_child hc (ih m hm)

theorem nearest_head_end_of_no_other (t : Node α) (q : List (Node α))
    (ht : t.fields.type = NodeType.NODE_OLT) (hq : ∀ m ∈ q, m.fields.type ≠ NodeType.NODE_OLT) :
    nearest_head_end (t :: q) = some t := by
  unfold nearest_head_end
  have : q.filter (fun n => decide (n.fields.type = NodeType.NODE_OLT)) = [] := by
    rw [List.filter_eq_nil_iff]
    intro m hm
    simpa using hq m hm
  simp [ht, this]

end Paths

/-! ## The path buffer -/

section PathBuffer

variable {α : Type}

theorem path_append_take (x : List Char) (cap : Nat) (part : List Char) :
    path_append (x.take (cap - 1)) cap part = (path_extend x part).take (cap - 1) := by
  unfold path_append path_extend
  by_cases hx : x = []
  · subst hx
    simp
  · by_cases hm : cap - 1 = 0
    · simp [hm]
    · have hs : List.take (cap - 1) x ≠ [] := by
        cases x with
        | nil => exact absurd rfl hx
        | cons a l =>
          obtain ⟨k, hk⟩ := Nat.exists_eq_succ_of_ne_zero hm
          rw [hk]; simp
      simp only [hs, hx, ne_eq, not_false_eq_true, if_true]
      by_cases hl : cap - 1 ≤ x.length
      · have h1 : (List.take (cap - 1) x).length = cap - 1 := by simp [hl]
        have h0 : cap - (cap - 1) - 1 = 0 := by omega
        simp only [h1, h0, List.take_zero, List.append_nil, List.length_append, List.length_nil,
          Nat.add_zero]
        rw [List.take_append_of_le_length hl]
      · have hl2 : x.length < cap - 1 := by omega
        rw [List.take_of_length_le (l := x) (by omega)]
        have h1 : List.take (cap - x.length - 1) "/".toList = ['/'] :=
          List.take_of_length_le (by simp; omega)
        rw [h1, List.take_append_eq_append_take, List.take_of_length_le (l := x) (by omega)]
        obtain ⟨k, hk⟩ : ∃ k, cap - 1 - x.length = k + 1 := ⟨cap - 1 - x.length - 1, by omega⟩
        have hk2 : cap - (x ++ ['/']).length - 1 = k := by
          simp only [List.length_append, List.length_singleton]; omega
        rw [hk, hk2, List.take_succ_cons]
        simp

theorem foldl_path_extend_of_ne_nil (ls : List (List Char)) : ∀ acc : List Char, acc ≠ [] →
    ls.foldl path_extend acc = acc ++ (ls.map (fun l => '/' :: l)).flatten := by
  induction ls with
  | nil => intro acc _; simp
  | cons l ls ih =>
    intro acc h
    simp only [List.foldl_cons, List.map_cons, List.flatten_cons]
    rw [ih _ (by simp [path_extend, h])]
    simp [path_extend, h]

theorem intercalate_slash_cons (l : List Char) (ls : List (List Char)) :
    "/".toList.intercalate (l :: ls) = l ++ (ls.map (fun y => '/' :: y)).flatten := by
  induction ls generalizing l with
  | nil => simp [List.intercalate]
  | cons m ls ih =>
    have := ih m
    simp only [List.intercalate, List.intersperse_cons_cons, List.flatten_cons, List.map_cons] at this ⊢
    rw [this]
    simp

theorem foldl_path_extend_nil (ls : List (List Char)) (h : ∀ l ∈ ls, l ≠ []) :
    ls.foldl path_extend [] = "/".toList.intercalate ls := by
  cases ls with
  | nil => simp [List.intercalate]
  | cons l ls =>
    simp only [List.foldl_cons]
    have h1 : path_extend [] l = l := by simp [path_extend]
    rw [h1, foldl_path_extend_of_ne_nil ls l (h l (by simp)), intercalate_slash_cons]

theorem int_toString_length (i : Int) (h1 : -2147483648 ≤ i) (h2 : i ≤ 2147483647) :
    (toString i).length ≤ 11 := by
  cases i with
  | ofNat m =>
    show (Nat.repr m).length ≤ 11
    have : m < 10 ^ 10 := by
      have : (m : Int) ≤ 2147483647 := h2
      omega
    exact le_trans (Nat.repr_length m 10 (by norm_num) this) (by norm_num)
  | negSucc m =>
    show ("-" ++ Nat.repr (m + 1)).length ≤ 11
    have : m + 1 < 10 ^ 10 := by
      have : -2147483648 ≤ Int.negSucc m := h1
      rw [Int.negSucc_eq] at this
      omega
    have := Nat.repr_length (m + 1) 10 (by norm_num) this
    simp only [String.length_append]
    have h : "-".length = 1 := rfl
    omega

theorem node_label_ne_nil (n : NodeFields α) : node_label n ≠ [] := by
  unfold node_label
  cases n.type <;> simp [String.toList]

/-- The label built with `snprintf` is the whole label: 128 bytes are enough for
a name of at most 63 characters and 32-bit integers. -/
theorem node_part_eq_label (n : NodeFields α) (h : n.fits) : node_part n = node_label n := by
  obtain ⟨h1, h2, h3, h4, h5⟩ := h
  have hr := int_toString_length n.splitter_ratio h2 h3
  have hi := int_toString_length n.ont_id h4 h5
  have hr2 : (toString n.splitter_ratio).toList.length ≤ 11 := hr
  have hi2 : (toString n.ont_id).toList.length ≤ 11 := hi
  unfold node_part node_label
  cases n.type with
  | NODE_OLT => rfl
  | NODE_SPLITTER =>
    simp only
    split_ifs
    · apply List.take_of_length_le
      simp only [List.length_append]
      have : "(1:".toList.length = 3 := rfl
      have : ")".toList.length = 1 := rfl
      omega
    · apply List.take_of_length_le
      simp only [List.length_append]
      have : "S(1:".toList.length = 4 := rfl
      have : "S".toList.length = 1 := rfl
      have : "(1:".toList.length = 3 := rfl
      have : ")".toList.length = 1 := rfl
      omega
  | NODE_ONT =>
    simp only
    apply List.take_of_length_le
    simp only [List.length_append]
    have : "ONT#".toList.length = 4 := rfl
    omega

theorem node_part_ne_nil (n : NodeFields α) : node_part n ≠ [] := by
  unfold node_part
  cases n.type with
  | NODE_OLT => simp [String.toList]
  | NODE_SPLITTER =>
    simp only
    split_ifs with h
    · cases hn : n.name with
      | nil => exact absurd hn h
      | cons a l => simp
    · simp [String.toList]
  | NODE_ONT => simp [String.toList]

theorem path_enter_take (cap : Nat) (x : List Char) (n : NodeFields α) :
    path_enter cap (x.take (cap - 1)) n = (path_extend x (node_part n)).take (cap - 1) := by
  unfold path_enter
  rw [if_pos (node_part_ne_nil n), path_append_take]

end PathBuffer

/-! ## Algebra of `stats_merge` -/

section Merge

variable {α : Type} [LinearOrderedField α]

theorem stats_merge_best_rx (a b : SubtreeStats α) :
    (stats_merge a b).best_rx = max a.best_rx b.best_rx := by
  simp only [stats_merge, gt_iff_lt]
  split_ifs with h
  · exact (max_eq_right h.le).symm
  · exact (max_eq_left (not_lt.1 h)).symm

theorem stats_merge_worst_rx (a b : SubtreeStats α) :
    (stats_merge a b).worst_rx = min a.worst_rx b.worst_rx := by
  simp only [stats_merge]
  split_ifs with h
  · exact (min_eq_right h.le).symm
  · exact (min_eq_left (not_lt.1 h)).symm

theorem stats_merge_comm (a b : SubtreeStats α) : stats_merge a b = stats_merge b a := by
  apply SubtreeStats.ext_fields
  · simp [stats_merge, add_comm]
  · simp [stats_merge, add_comm]
  · simp [stats_merge, add_comm]
  · simp [stats_merge, add_comm]
  · simp [stats_merge, add_comm]
  · simp [stats_merge, add_comm]
  · rw [stats_merge_best_rx, stats_merge_best_rx, max_comm]
  · rw [stats_merge_worst_rx, stats_merge_worst_rx, min_comm]

theorem stats_merge_assoc (a b c : SubtreeStats α) :
    stats_merge (stats_merge a b) c = stats_merge a (stats_merge b c) := by
  apply SubtreeStats.ext_fields
  · simp [stats_merge, add_assoc]
  · simp [stats_merge, add_assoc]
  · simp [stats_merge, add_assoc]
  · simp [stats_merge, add_assoc]
  · simp [stats_merge, add_assoc]
  · simp [stats_merge, add_assoc]
  · simp only [stats_merge_best_rx, max_assoc]
  · simp only [stats_merge_worst_rx, min_assoc]

theorem stats_merge_right_comm (a b c : SubtreeStats α) :
    stats_merge (stats_merge a b) c = stats_merge (stats_merge a c) b := by
  rw [stats_merge_assoc, stats_merge_comm b c, ← stats_merge_assoc]

/-- Statistics whose extremes are not beyond the sentinels of `stats_init`. -/
theorem stats_merge_init_right (a : SubtreeStats α) (h1 : -1000000000 ≤ a.best_rx)
    (h2 : a.worst_rx ≤ 1000000000) : stats_merge a stats_init = a := by
  apply SubtreeStats.ext_fields
  · simp [stats_merge, stats_init]
  · simp [stats_merge, stats_init]
  · simp [stats_merge, stats_init]
  · simp [stats_merge, stats_init]
  · simp [stats_merge, stats_init]
  · simp [stats_merge, stats_init]
  · rw [stats_merge_best_rx]; exact max_eq_left h1
  · rw [stats_merge_worst_rx]; exact min_eq_left h2

theorem foldl_stats_merge_assoc (l : List (SubtreeStats α)) : ∀ a b : SubtreeStats α,
    l.foldl stats_merge (stats_merge a b) = stats_merge a (l.foldl stats_merge b) := by
  induction l with
  | nil => intro a b; rfl
  | cons x l ih => intro a b; simp only [List.foldl_cons]; rw [stats_merge_assoc, ih]

theorem stats_merge_foldl_init (l : List (SubtreeStats α)) (a : SubtreeStats α)
    (h1 : -1000000000 ≤ a.best_rx) (h2 : a.worst_rx ≤ 1000000000) :
    stats_merge a (l.foldl stats_merge stats_init) = l.foldl stats_merge a := by
  rw [← foldl_stats_merge_assoc, stats_merge_init_right a h1 h2]

theorem foldl_stats_merge_best_ge (l : List (SubtreeStats α)) : ∀ a : SubtreeStats α,
    a.best_rx ≤ (l.foldl stats_merge a).best_rx := by
  induction l with
  | nil => intro a; exact le_rfl
  | cons x l ih =>
    intro a
    simp only [List.foldl_cons]
    refine le_trans ?_ (ih _)
    rw [stats_merge_best_rx]; exact le_max_left _ _

theorem foldl_stats_merge_worst_le (l : List (SubtreeStats α)) : ∀ a : SubtreeStats α,
    (l.foldl stats_merge a).worst_rx ≤ a.worst_rx := by
  induction l with
  | nil => intro a; exact le_rfl
  | cons x l ih =>
    intro a
    simp only [List.foldl_cons]
    refine le_trans (ih _) ?_
    rw [stats_merge_worst_rx]; exact min_le_left _ _

theorem foldl_stats_merge_best_mem (l : List (SubtreeStats α)) : ∀ a : SubtreeStats α,
    ∀ x ∈ l, x.best_rx ≤ (l.foldl stats_merge a).best_rx := by
  induction l with
  | nil => intro a x hx; simp at hx
  | cons y l ih =>
    intro a x hx
    simp only [List.foldl_cons]
    rcases List.mem_cons.1 hx with rfl | hx
    · refine le_trans ?_ (foldl_stats_merge_best_ge l _)
      rw [stats_merge_best_rx]; exact le_max_right _ _
    · exact ih _ x hx

theorem foldl_stats_merge_worst_mem (l : List (SubtreeStats α)) : ∀ a : SubtreeStats α,
    ∀ x ∈ l, (l.foldl stats_merge a).worst_rx ≤ x.worst_rx := by
  induction l with
  | nil => intro a x hx; simp at hx
  | cons y l ih =>
    intro a x hx
    simp only [List.foldl_cons]
    rcases List.mem_cons.1 hx with rfl | hx
    · refine le_trans (foldl_stats_merge_worst_le l _) ?_
      rw [stats_merge_worst_rx]; exact min_le_right _ _
    · exact ih _ x hx

theorem foldl_stats_merge_best_attained (l : List (SubtreeStats α)) : ∀ a : SubtreeStats α,
    (l.foldl stats_merge a).best_rx = a.best_rx ∨ ∃ x ∈ l, (l.foldl stats_merge a).best_rx = x.best_rx := by
  induction l with
  | nil => intro a; exact Or.inl rfl
  | cons y l ih =>
    intro a
    simp only [List.foldl_cons]
    rcases ih (stats_merge a y) with h | ⟨x, hx, h⟩
    · rw [h, stats_merge_best_rx]
      rcases max_choice a.best_rx y.best_rx with hm | hm
      · exact Or.inl hm
      · exact Or.inr ⟨y, by simp, hm⟩
    · exact Or.inr ⟨x, by simp [hx], h⟩

theorem foldl_stats_merge_worst_attained (l : List (SubtreeStats α)) : ∀ a : SubtreeStats α,
    (l.foldl stats_merge a).worst_rx = a.worst_rx ∨
      ∃ x ∈ l, (l.foldl stats_merge a).worst_rx = x.worst_rx := by
  induction l with
  | nil => intro a; exact Or.inl rfl
  | cons y l ih =>
    intro a
    simp only [List.foldl_cons]
    rcases ih (stats_merge a y) with h | ⟨x, hx, h⟩
    · rw [h, stats_merge_worst_rx]
      rcases min_choice a.worst_rx y.worst_rx with hm | hm
      · exact Or.inl hm
      · exact Or.inr ⟨y, by simp, hm⟩
    · exact Or.inr ⟨x, by simp [hx], h⟩

theorem foldl_stats_merge_counts (l : List (SubtreeStats α)) : ∀ a : SubtreeStats α,
    (l.foldl stats_merge a).ont_count = a.ont_count + (l.map (fun s => s.ont_count)).sum ∧
    (l.foldl stats_merge a).ok_count = a.ok_count + (l.map (fun s => s.ok_count)).sum ∧
    (l.foldl stats_merge a).fail_count = a.fail_count + (l.map (fun s => s.fail_count)).sum ∧
    (l.foldl stats_merge a).down_count = a.down_count + (l.map (fun s => s.down_count)).sum := by
  induction l with
  | nil => intro a; simp
  | cons x l ih =>
    intro a
    obtain ⟨h1, h2, h3, h4⟩ := ih (stats_merge a x)
    simp only [List.foldl_cons, List.map_cons, List.sum_cons]
    refine ⟨?_, ?_, ?_, ?_⟩
    · rw [h1]; simp [stats_merge, add_assoc]
    · rw [h2]; simp [stats_merge, add_assoc]
    · rw [h3]; simp [stats_merge, add_assoc]
    · rw [h4]; simp [stats_merge, add_assoc]

theorem foldl_stats_merge_sums (l : List (SubtreeStats α)) : ∀ a : SubtreeStats α,
    (l.foldl stats_merge a).sum_rx = a.sum_rx + (l.map (fun s => s.sum_rx)).sum ∧
    (l.foldl stats_merge a).sum_loss = a.sum_loss + (l.map (fun s => s.sum_loss)).sum := by
  induction l with
  | nil => intro a; simp
  | cons x l ih =>
    intro a
    obtain ⟨h1, h2⟩ := ih (stats_merge a x)
    simp only [List.foldl_cons, List.map_cons, List.sum_cons]
    refine ⟨?_, ?_⟩
    · rw [h1]; simp [stats_merge, add_assoc]
    · rw [h2]; simp [stats_merge, add_assoc]

end Merge

/-! ## The traversal, one node at a time -/

section Unfold

variable {α : Type} [LinearOrderedField α]

theorem walk_ont (log10 : α → α) (cap : Nat) (n : NodeFields α) (cs : List (Node α))
    (c : Inherited α) (st : SimState α) (h : n.type = NodeType.NODE_ONT) :
    walk_and_compute log10 cap (.mk n cs) c.tx_dbm c.my_rxmin c.new_loss c.new_dist c.new_down st =
      (leaf_stats (c.enter log10 n),
       { ont_results :=
           if st.ont_results.length < MAX_ONT then
             st.ont_results ++
               [{ ont_id := n.ont_id, rx_dbm := (c.enter log10 n).tx_dbm - (c.enter log10 n).new_loss,
                  margin_db := (c.enter log10 n).tx_dbm - (c.enter log10 n).new_loss - (c.enter log10 n).my_rxmin,
                  path := (path_enter cap st.path n).take 511 }]
           else st.ont_results,
         ont_csv := st.ont_csv ++ [leaf_row (c.enter log10 n) n.ont_id (path_enter cap st.path n)],
         splitters := st.splitters,
         path := (st.path.take 511).take (cap - 1) }) := by
  rw [walk_and_compute]
  simp only [h, if_true]
  by_cases hd : (c.enter log10 n).new_down = 0 <;>
  by_cases hr : (c.enter log10 n).my_rxmin ≤ (c.enter log10 n).tx_dbm - (c.enter log10 n).new_loss <;>
  simp [leaf_stats, leaf_row, Inherited.enter, path_enter, stats_init, h] at hd hr ⊢ <;>
  simp [hd, hr, not_le.mpr]

theorem walk_inner (log10 : α → α) (cap : Nat) (n : NodeFields α) (cs : List (Node α))
    (c : Inherited α) (st : SimState α) (h : n.type ≠ NodeType.NODE_ONT) :
    walk_and_compute log10 cap (.mk n cs) c.tx_dbm c.my_rxmin c.new_loss c.new_dist c.new_down st =
      ((walk_children log10 cap cs (c.enter log10 n).tx_dbm (c.enter log10 n).my_rxmin
          (c.enter log10 n).new_loss (c.enter log10 n).new_dist (c.enter log10 n).new_down
          stats_init { st with path := path_enter cap st.path n }).1,
       { (walk_children log10 cap cs (c.enter log10 n).tx_dbm (c.enter log10 n).my_rxmin
          (c.enter log10 n).new_loss (c.enter log10 n).new_dist (c.enter log10 n).new_down
          stats_init { st with path := path_enter cap st.path n }).2 with
         splitters :=
           if n.type = NodeType.NODE_SPLITTER then
             (walk_children log10 cap cs (c.enter log10 n).tx_dbm (c.enter log10 n).my_rxmin
               (c.enter log10 n).new_loss (c.enter log10 n).new_dist (c.enter log10 n).new_down
               stats_init { st with path := path_enter cap st.path n }).2.splitters ++
             [splitter_record n
               (walk_children log10 cap cs (c.enter log10 n).tx_dbm (c.enter log10 n).my_rxmin
                 (c.enter log10 n).new_loss (c.enter log10 n).new_dist (c.enter log10 n).new_down
                 stats_init { st with path := path_enter cap st.path n }).1]
           else
             (walk_children log10 cap cs (c.enter log10 n).tx_dbm (c.enter log10 n).my_rxmin
               (c.enter log10 n).new_loss (c.enter log10 n).new_dist (c.enter log10 n).new_down
               stats_init { st with path := path_enter cap st.path n }).2.splitters,
         path := (st.path.take 511).take (cap - 1) }) := by
  rw [walk_and_compute]
  simp only [h, if_false]
  rfl

theorem walk_children_nil (log10 : α → α) (cap : Nat) (c : Inherited α) (here : SubtreeStats α)
    (st : SimState α) :
    walk_children log10 cap [] c.tx_dbm c.my_rxmin c.new_loss c.new_dist c.new_down here st = (here, st) := by
  rw [walk_children]

theorem walk_children_cons (log10 : α → α) (cap : Nat) (t : Node α) (ts : List (Node α))
    (c : Inherited α) (here : SubtreeStats α) (st : SimState α) :
    walk_children log10 cap (t :: ts) c.tx_dbm c.my_rxmin c.new_loss c.new_dist c.new_down here st =
      walk_children log10 cap ts c.tx_dbm c.my_rxmin c.new_loss c.new_dist c.new_down
        (stats_merge here
          (walk_and_compute log10 cap t c.tx_dbm c.my_rxmin c.new_loss c.new_dist c.new_down st).1)
        (walk_and_compute log10 cap t c.tx_dbm c.my_rxmin c.new_loss c.new_dist c.new_down st).2 := by
  rw [walk_children]

/-- The path buffer after a call: the copy `old_path` of at most 511 characters,
copied back into the buffer of `cap` bytes. -/
theorem walk_path (log10 : α → α) (cap : Nat) (t : Node α) (c : Inherited α) (st : SimState α) :
    (walk_and_compute log10 cap t c.tx_dbm c.my_rxmin c.new_loss c.new_dist c.new_down st).2.path =
      (st.path.take 511).take (cap - 1) := by
  cases t with
  | mk n cs =>
    by_cases h : n.type = NodeType.NODE_ONT
    · rw [walk_ont log10 cap n cs c st h]
    · rw [walk_inner log10 cap n cs c st h]

end Unfold

/-! ## The lines written to `ont_results.csv` -/

section Rows

variable {α : Type} [LinearOrderedField α]

theorem along_cons (log10 : α → α) (c : Inherited α) (n : Node α) (p : List (Node α)) :
    c.along log10 (n :: p) = (c.enter log10 n.fields).along log10 p := rfl

theorem along_nil (log10 : α → α) (c : Inherited α) : c.along log10 [] = c := rfl

theorem row_matches_cons (log10 : α → α) (c : Inherited α) (n : Node α) (r : OntCsvRow α)
    (p : List (Node α)) (h : row_matches log10 (c.enter log10 n.fields) r p) :
    row_matches log10 c r (n :: p) := by
  obtain ⟨e, s, h1, h2⟩ := h
  refine ⟨e, s, ?_, ?_⟩
  · cases p with
    | nil => simp at h1
    | cons a l => simpa using h1
  · rw [along_cons]; exact h2

mutual
theorem walk_rows (log10 : α → α) (cap : Nat) : ∀ (t : Node α) (c : Inherited α) (st : SimState α),
    ∃ rows, (walk_and_compute log10 cap t c.tx_dbm c.my_rxmin c.new_loss c.new_dist c.new_down st).2.ont_csv
        = st.ont_csv ++ rows ∧
      List.Forall₂ (row_matches log10 c) rows (visited_paths t)
  | .mk n cs, c, st => by
    by_cases h : n.type = NodeType.NODE_ONT
    · rw [walk_ont log10 cap n cs c st h]
      refine ⟨[leaf_row (c.enter log10 n) n.ont_id (path_enter cap st.path n)], rfl, ?_⟩
      simp only [visited_paths, h, if_true]
      exact List.Forall₂.cons ⟨Node.mk n cs, _, rfl, rfl⟩ List.Forall₂.nil
    · rw [walk_inner log10 cap n cs c st h]
      obtain ⟨rows, h1, h2⟩ := walk_children_rows log10 cap cs (c.enter log10 n) stats_init
        { st with path := path_enter cap st.path n }
      refine ⟨rows, h1, ?_⟩
      simp only [visited_paths, h, if_false]
      rw [List.forall₂_map_right_iff]
      exact h2.imp (fun r p hrp => row_matches_cons log10 c (Node.mk n cs) r p hrp)
theorem walk_children_rows (log10 : α → α) (cap : Nat) :
    ∀ (ts : List (Node α)) (c : Inherited α) (here : SubtreeStats α) (st : SimState α),
    ∃ rows, (walk_children log10 cap ts c.tx_dbm c.my_rxmin c.new_loss c.new_dist c.new_down here st).2.ont_csv
        = st.ont_csv ++ rows ∧
      List.Forall₂ (row_matches log10 c) rows (visited_paths.visited_paths_children ts)
  | [], c, here, st => by
    rw [walk_children_nil]
    exact ⟨[], by simp, by simp [visited_paths.visited_paths_children]⟩
  | t :: ts, c, here, st => by
    rw [walk_children_cons]
    obtain ⟨rows1, h1, h2⟩ := walk_rows log10 cap t c st
    obtain ⟨rows2, h3, h4⟩ := walk_children_rows log10 cap ts c
      (stats_merge here
        (walk_and_compute log10 cap t c.tx_dbm c.my_rxmin c.new_loss c.new_dist c.new_down st).1)
      (walk_and_compute log10 cap t c.tx_dbm c.my_rxmin c.new_loss c.new_dist c.new_down st).2
    refine ⟨rows1 ++ rows2, ?_, ?_⟩
    · rw [h3, h1, List.append_assoc]
    · simp only [visited_paths.visited_paths_children]
      exact List.rel_append h2 h4
end

/-- The lines written by a call are the lines after the ones already there. -/
theorem walk_rows_drop (log10 : α → α) (cap : Nat) (t : Node α) (c : Inherited α) (st : SimState α) :
    List.Forall₂ (row_matches log10 c)
      ((walk_and_compute log10 cap t c.tx_dbm c.my_rxmin c.new_loss c.new_dist c.new_down st).2.ont_csv.drop
        st.ont_csv.length)
      (visited_paths t) := by
  obtain ⟨rows, h1, h2⟩ := walk_rows log10 cap t c st
  rw [h1, List.drop_left]
  exact h2

/-- The loss accumulated along a sequence of nodes is the loss at its start plus
the link losses of the nodes that are not head-ends. -/
theorem along_new_loss (log10 : α → α) (p : List (Node α)) : ∀ c : Inherited α,
    (c.along log10 p).new_loss = c.new_loss +
      ((p.filter (fun n => n.fields.type ≠ NodeType.NODE_OLT)).map
        (fun n => node_link_loss_db log10 n.fields)).sum := by
  induction p with
  | nil => intro c; simp [along_nil]
  | cons n p ih =>
    intro c
    rw [along_cons, ih]
    by_cases h : n.fields.type = NodeType.NODE_OLT
    · simp [Inherited.enter, h]
    · simp [Inherited.enter, h, add_assoc]

/-- The distance accumulated along a sequence of nodes is the distance at its
start plus the link lengths of the nodes that are not head-ends. -/
theorem along_new_dist (log10 : α → α) (p : List (Node α)) : ∀ c : Inherited α,
    (c.along log10 p).new_dist = c.new_dist +
      ((p.filter (fun n => n.fields.type ≠ NodeType.NODE_OLT)).map (fun n => n.fields.len_km)).sum := by
  induction p with
  | nil => intro c; simp [along_nil]
  | cons n p ih =>
    intro c
    rw [along_cons, ih]
    by_cases h : n.fields.type = NodeType.NODE_OLT
    · simp [Inherited.enter, h]
    · simp [Inherited.enter, h, add_assoc]

theorem along_tx_dbm (log10 : α → α) (p : List (Node α)) : ∀ c : Inherited α,
    (c.along log10 p).tx_dbm = ((nearest_head_end p).map (fun h => h.fields.olt_tx_dbm)).getD c.tx_dbm := by
  induction p with
  | nil => intro c; simp [along_nil, nearest_head_end]
  | cons n p ih =>
    intro c
    rw [along_cons, ih]
    unfold nearest_head_end
    by_cases h : n.fields.type = NodeType.NODE_OLT
    · simp only [h, decide_True, List.filter_cons_of_pos, List.getLast?_cons]
      cases (List.filter (fun n => decide (n.fields.type = NodeType.NODE_OLT)) p).getLast? <;>
        simp [Inherited.enter, h]
    · simp [Inherited.enter, h]

theorem along_my_rxmin (log10 : α → α) (p : List (Node α)) : ∀ c : Inherited α,
    (c.along log10 p).my_rxmin =
      ((nearest_head_end p).map (fun h => h.fields.gpon_rxmin_dbm)).getD c.my_rxmin := by
  induction p with
  | nil => intro c; simp [along_nil, nearest_head_end]
  | cons n p ih =>
    intro c
    rw [along_cons, ih]
    unfold nearest_head_end
    by_cases h : n.fields.type = NodeType.NODE_OLT
    · simp only [h, decide_True, List.filter_cons_of_pos, List.getLast?_cons]
      cases (List.filter (fun n => decide (n.fields.type = NodeType.NODE_OLT)) p).getLast? <;>
        simp [Inherited.enter, h]
    · simp [Inherited.enter, h]

theorem along_new_down_sticky (log10 : α → α) (p : List (Node α)) : ∀ c : Inherited α,
    c.new_down ≠ 0 → (c.along log10 p).new_down ≠ 0 := by
  induction p with
  | nil => intro c h; exact h
  | cons n p ih =>
    intro c h
    rw [along_cons]
    apply ih
    simp only [Inherited.enter]
    split_ifs
    · exact one_ne_zero
    · exact h

theorem along_new_down_of_faulty (log10 : α → α) (p : List (Node α)) : ∀ c : Inherited α,
    (∃ n ∈ p, n.fields.type ≠ NodeType.NODE_OLT ∧ n.fields.faulty ≠ 0) →
    (c.along log10 p).new_down ≠ 0 := by
  induction p with
  | nil => intro c h; simp at h
  | cons n p ih =>
    intro c h
    rw [along_cons]
    obtain ⟨m, hm, hm2⟩ := h
    rcases List.mem_cons.1 hm with rfl | hm
    · apply along_new_down_sticky
      simp [Inherited.enter, hm2]
    · exact ih _ ⟨m, hm, hm2⟩

theorem along_new_down_of_clear (log10 : α → α) (p : List (Node α)) : ∀ c : Inherited α,
    c.new_down = 0 → (∀ n ∈ p, n.fields.type = NodeType.NODE_OLT ∨ n.fields.faulty = 0) →
    (c.along log10 p).new_down = 0 := by
  induction p with
  | nil => intro c h _; exact h
  | cons n p ih =>
    intro c h hp
    rw [along_cons]
    apply ih
    · have := hp n (by simp)
      simp only [Inherited.enter]
      rw [if_neg]
      · exact h
      · rintro ⟨h1, h2⟩
        rcases this with h3 | h3
        · exact h1 h3
        · exact h2 h3
    · intro m hm
      exact hp m (by simp [hm])

/-- With a logarithm that is not negative on ratios above 1, the loss of a
splitter is not negative. -/
theorem splitter_loss_db_nonneg (log10 : α → α) (hlog : ∀ r : Int, 1 < r → 0 ≤ log10 (r : α))
    (ratio : Int) : 0 ≤ splitter_loss_db log10 ratio := by
  unfold splitter_loss_db SPLITTER_INS_DB
  split_ifs with h
  · exact le_rfl
  · have := hlog ratio (by omega)
    linarith

/-- With non-negative length, connectors, splices and extra loss, the link loss
of a node is not negative. -/
theorem node_link_loss_db_nonneg (log10 : α → α) (hlog : ∀ r : Int, 1 < r → 0 ≤ log10 (r : α))
    (n : NodeFields α) (h1 : 0 ≤ n.len_km) (h2 : 0 ≤ n.connectors) (h3 : 0 ≤ n.splices)
    (h4 : 0 ≤ n.extra_loss_db) : 0 ≤ node_link_loss_db log10 n := by
  have hs := splitter_loss_db_nonneg log10 hlog n.splitter_ratio
  have hc : (0 : α) ≤ (n.connectors : α) := by exact_mod_cast h2
  have hp : (0 : α) ≤ (n.splices : α) := by exact_mod_cast h3
  have e1 : 0 ≤ n.len_km * (35 / 100 : α) := mul_nonneg h1 (by norm_num)
  have e2 : 0 ≤ (n.connectors : α) * (50 / 100 : α) := mul_nonneg hc (by norm_num)
  have e3 : 0 ≤ (n.splices : α) * (10 / 100 : α) := mul_nonneg hp (by norm_num)
  unfold node_link_loss_db ATTEN_DB_PER_KM CONN_LOSS_DB SPLICE_LOSS_DB
  simp only [zero_add]
  split_ifs <;> linarith

/-- Entering a node never lowers the accumulated loss when the link loss of the
node is not negative. -/
theorem enter_new_loss_ge (log10 : α → α) (c : Inherited α) (n : NodeFields α)
    (h : n.type ≠ NodeType.NODE_OLT → 0 ≤ node_link_loss_db log10 n) :
    c.new_loss ≤ (c.enter log10 n).new_loss := by
  unfold Inherited.enter
  simp only
  split_ifs with ht
  · have := h ht
    linarith
  · exact le_rfl

theorem along_append (log10 : α → α) (c : Inherited α) (p q : List (Node α)) :
    c.along log10 (p ++ q) = (c.along log10 p).along log10 q := by
  simp [Inherited.along, List.foldl_append]

/-- Along a sequence of nodes with non-negative link losses the accumulated loss
does not decrease. -/
theorem along_new_loss_ge (log10 : α → α) (p : List (Node α)) : ∀ c : Inherited α,
    (∀ n ∈ p, n.fields.type ≠ NodeType.NODE_OLT → 0 ≤ node_link_loss_db log10 n.fields) →
    c.new_loss ≤ (c.along log10 p).new_loss := by
  induction p with
  | nil => intro c _; exact le_rfl
  | cons n p ih =>
    intro c h
    rw [along_cons]
    exact le_trans (enter_new_loss_ge log10 c n.fields (h n (by simp)))
      (ih _ (fun m hm => h m (by simp [hm])))

end Rows

/-! ## The statistics returned by the traversal -/

section Stats

variable {α : Type} [LinearOrderedField α]

mutual
theorem walk_stats (log10 : α → α) (cap : Nat) : ∀ (t : Node α) (c : Inherited α) (st : SimState α),
    (walk_and_compute log10 cap t c.tx_dbm c.my_rxmin c.new_loss c.new_dist c.new_down st).1 =
      if t.fields.type = NodeType.NODE_ONT then leaf_stats (c.enter log10 t.fields)
      else ((visited_paths t).map (fun p => leaf_stats (c.along log10 p))).foldl stats_merge stats_init
  | .mk n cs, c, st => by
    by_cases h : n.type = NodeType.NODE_ONT
    · rw [walk_ont log10 cap n cs c st h]
      simp [Node.fields, h]
    · rw [walk_inner log10 cap n cs c st h]
      simp only [Node.fields, h, if_false]
      rw [walk_children_stats log10 cap cs (c.enter log10 n) stats_init _
        (by simp [stats_init]) (by simp [stats_init])]
      rw [visited_paths_inner n cs h, List.map_map]
      rfl
theorem walk_children_stats (log10 : α → α) (cap : Nat) :
    ∀ (ts : List (Node α)) (c : Inherited α) (here : SubtreeStats α) (st : SimState α),
    -1000000000 ≤ here.best_rx → here.worst_rx ≤ 1000000000 →
    (walk_children log10 cap ts c.tx_dbm c.my_rxmin c.new_loss c.new_dist c.new_down here st).1 =
      ((visited_paths.visited_paths_children ts).map (fun p => leaf_stats (c.along log10 p))).foldl
        stats_merge here
  | [], c, here, st, _, _ => by
    rw [walk_children_nil]
    simp [visited_paths.visited_paths_children]
  | t :: ts, c, here, st, h1, h2 => by
    rw [walk_children_cons]
    have hb : -1000000000 ≤ (stats_merge here
        (walk_and_compute log10 cap t c.tx_dbm c.my_rxmin c.new_loss c.new_dist c.new_down st).1).best_rx := by
      rw [stats_merge_best_rx]; exact le_trans h1 (le_max_left _ _)
    have hw : (stats_merge here
        (walk_and_compute log10 cap t c.tx_dbm c.my_rxmin c.new_loss c.new_dist c.new_down st).1).worst_rx
        ≤ 1000000000 := by
      rw [stats_merge_worst_rx]; exact le_trans (min_le_left _ _) h2
    rw [walk_children_stats log10 cap ts c _ _ hb hw, walk_stats log10 cap t c st]
    simp only [visited_paths.visited_paths_children, List.map_append, List.foldl_append]
    congr 1
    cases t with
    | mk n cs =>
      by_cases h : n.type = NodeType.NODE_ONT
      · simp [Node.fields, h, visited_paths_ont n cs h, Inherited.along]
      · simp only [Node.fields, h, if_false]
        exact stats_merge_foldl_init _ here h1 h2
end

/-- The four counters returned by a call are the sums of the counters of the
single-count statistics of the visited terminals. -/
theorem walk_counts (log10 : α → α) (cap : Nat) (t : Node α) (c : Inherited α) (st : SimState α) :
    (walk_and_compute log10 cap t c.tx_dbm c.my_rxmin c.new_loss c.new_dist c.new_down st).1.ont_count
      = ((visited_paths t).map (fun p => (leaf_stats (c.along log10 p)).ont_count)).sum ∧
    (walk_and_compute log10 cap t c.tx_dbm c.my_rxmin c.new_loss c.new_dist c.new_down st).1.ok_count
      = ((visited_paths t).map (fun p => (leaf_stats (c.along log10 p)).ok_count)).sum ∧
    (walk_and_compute log10 cap t c.tx_dbm c.my_rxmin c.new_loss c.new_dist c.new_down st).1.fail_count
      = ((visited_paths t).map (fun p => (leaf_stats (c.along log10 p)).fail_count)).sum ∧
    (walk_and_compute log10 cap t c.tx_dbm c.my_rxmin c.new_loss c.new_dist c.new_down st).1.down_count
      = ((visited_paths t).map (fun p => (leaf_stats (c.along log10 p)).down_count)).sum := by
  rw [walk_stats]
  cases t with
  | mk n cs =>
    by_cases h : n.type = NodeType.NODE_ONT
    · simp [Node.fields, h, visited_paths_ont n cs h, Inherited.along]
    · simp only [Node.fields, h, if_false]
      obtain ⟨h1, h2, h3, h4⟩ := foldl_stats_merge_counts
        ((visited_paths (Node.mk n cs)).map (fun p => leaf_stats (c.along log10 p))) stats_init
      rw [h1, h2, h3, h4]
      simp [stats_init, List.map_map, Function.comp_def]

theorem leaf_row_status (c : Inherited α) (ont_id : Int) (s : List Char) :
    (if (leaf_row c ont_id s).status = "DOWN" then (1 : Int) else 0) = (leaf_stats c).down_count ∧
    (if (leaf_row c ont_id s).status = "OK" then (1 : Int) else 0) = (leaf_stats c).ok_count ∧
    (if (leaf_row c ont_id s).status = "FAIL" then (1 : Int) else 0) = (leaf_stats c).fail_count := by
  by_cases hd : c.new_down = 0 <;> by_cases hr : c.my_rxmin ≤ c.tx_dbm - c.new_loss <;>
    simp [leaf_row, leaf_stats, hd, hr]

/-- The counters returned by a call count the lines it wrote, by status. -/
theorem walk_counts_by_status (log10 : α → α) (cap : Nat) (t : Node α) (c : Inherited α)
    (st : SimState α) :
    (walk_and_compute log10 cap t c.tx_dbm c.my_rxmin c.new_loss c.new_dist c.new_down st).1.ont_count
      = (((walk_and_compute log10 cap t c.tx_dbm c.my_rxmin c.new_loss c.new_dist c.new_down
          st).2.ont_csv.drop st.ont_csv.length).length : Int) ∧
    (walk_and_compute log10 cap t c.tx_dbm c.my_rxmin c.new_loss c.new_dist c.new_down st).1.ok_count
      = ((((walk_and_compute log10 cap t c.tx_dbm c.my_rxmin c.new_loss c.new_dist c.new_down
          st).2.ont_csv.drop st.ont_csv.length).filter (fun r => r.status = "OK")).length : Int) ∧
    (walk_and_compute log10 cap t c.tx_dbm c.my_rxmin c.new_loss c.new_dist c.new_down st).1.fail_count
      = ((((walk_and_compute log10 cap t c.tx_dbm c.my_rxmin c.new_loss c.new_dist c.new_down
          st).2.ont_csv.drop st.ont_csv.length).filter (fun r => r.status = "FAIL")).length : Int) ∧
    (walk_and_compute log10 cap t c.tx_dbm c.my_rxmin c.new_loss c.new_dist c.new_down st).1.down_count
      = ((((walk_and_compute log10 cap t c.tx_dbm c.my_rxmin c.new_loss c.new_dist c.new_down
          st).2.ont_csv.drop st.ont_csv.length).filter (fun r => r.status = "DOWN")).length : Int) := by
  obtain ⟨h1, h2, h3, h4⟩ := walk_counts log10 cap t c st
  have hr := walk_rows_drop log10 cap t c st
  rw [h1, h2, h3, h4, filter_length_eq_sum, filter_length_eq_sum, filter_length_eq_sum]
  refine ⟨?_, ?_, ?_, ?_⟩
  · rw [hr.length_eq]
    simp [leaf_stats]
  · refine (forall₂_sum_eq hr ?_).symm
    rintro r p ⟨e, s, _, rfl⟩
    simpa using (leaf_row_status (c.along log10 p) e.fields.ont_id s).2.1
  · refine (forall₂_sum_eq hr ?_).symm
    rintro r p ⟨e, s, _, rfl⟩
    simpa using (leaf_row_status (c.along log10 p) e.fields.ont_id s).2.2
  · refine (forall₂_sum_eq hr ?_).symm
    rintro r p ⟨e, s, _, rfl⟩
    simpa using (leaf_row_status (c.along log10 p) e.fields.ont_id s).1

theorem single_stats_leaf_row (c : Inherited α) (ont_id : Int) (s : List Char) :
    single_stats (leaf_row c ont_id s) = leaf_stats c := by
  by_cases hd : c.new_down = 0 <;> by_cases hr : c.my_rxmin ≤ c.tx_dbm - c.new_loss <;>
    simp [single_stats, leaf_row, leaf_stats, hd, hr]

/-- The statistics returned by a call do not depend on the state. -/
theorem walk_stats_state (log10 : α → α) (cap cap' : Nat) (t : Node α) (c : Inherited α)
    (st st' : SimState α) :
    (walk_and_compute log10 cap t c.tx_dbm c.my_rxmin c.new_loss c.new_dist c.new_down st).1 =
      (walk_and_compute log10 cap' t c.tx_dbm c.my_rxmin c.new_loss c.new_dist c.new_down st').1 := by
  rw [walk_stats, walk_stats]

/-- The loop over the children folds `stats_merge` over the statistics of the
children. -/
theorem walk_children_fold (log10 : α → α) (cap : Nat) (c : Inherited α) :
    ∀ (ts : List (Node α)) (here : SubtreeStats α) (st : SimState α),
    (walk_children log10 cap ts c.tx_dbm c.my_rxmin c.new_loss c.new_dist c.new_down here st).1 =
      (ts.map (fun t =>
        (walk_and_compute log10 cap t c.tx_dbm c.my_rxmin c.new_loss c.new_dist c.new_down
          state_init).1)).foldl stats_merge here := by
  intro ts
  induction ts with
  | nil => intro here st; rw [walk_children_nil]; rfl
  | cons t ts ih =>
    intro here st
    rw [walk_children_cons, ih]
    simp only [List.map_cons, List.foldl_cons]
    rw [walk_stats_state log10 cap cap t c st state_init]

/-- Reordering the children of nodes does not change the statistics returned. -/
theorem walk_stats_reorder (log10 : α → α) (cap : Nat) {t t' : Node α} (h : Reorder t t') :
    ∀ (c : Inherited α) (st st' : SimState α),
    (walk_and_compute log10 cap t c.tx_dbm c.my_rxmin c.new_loss c.new_dist c.new_down st).1 =
      (walk_and_compute log10 cap t' c.tx_dbm c.my_rxmin c.new_loss c.new_dist c.new_down st').1 := by
  induction h with
  | same t => intro c st st'; exact walk_stats_state log10 cap cap t c st st'
  | perm n cs cs' hp =>
    intro c st st'
    by_cases h : n.type = NodeType.NODE_ONT
    · rw [walk_ont log10 cap n cs c st h, walk_ont log10 cap n cs' c st' h]
    · rw [walk_inner log10 cap n cs c st h, walk_inner log10 cap n cs' c st' h]
      simp only
      rw [walk_children_fold, walk_children_fold]
      exact List.Perm.foldl_eq' (hp.map _) (fun x _ y _ z => stats_merge_right_comm z x y) _
  | child n before a a' after _ ih =>
    intro c st st'
    by_cases h : n.type = NodeType.NODE_ONT
    · rw [walk_ont log10 cap n _ c st h, walk_ont log10 cap n _ c st' h]
    · rw [walk_inner log10 cap n _ c st h, walk_inner log10 cap n _ c st' h]
      simp only
      rw [walk_children_fold, walk_children_fold]
      simp only [List.map_append, List.map_cons]
      rw [ih (c.enter log10 n) state_init state_init]
  | trans t₁ t₂ t₃ _ _ ih₁ ih₂ =>
    intro c st st'
    rw [ih₁ c st st, ih₂ c st st']

/-- The statistics returned at a node that is not a terminal, from the lines
written by the call. -/
theorem walk_stats_rows (log10 : α → α) (cap : Nat) (t : Node α) (c : Inherited α) (st : SimState α)
    (ht : t.fields.type ≠ NodeType.NODE_ONT) :
    (walk_and_compute log10 cap t c.tx_dbm c.my_rxmin c.new_loss c.new_dist c.new_down st).1 =
      (((walk_and_compute log10 cap t c.tx_dbm c.my_rxmin c.new_loss c.new_dist c.new_down
        st).2.ont_csv.drop st.ont_csv.length).map single_stats).foldl stats_merge stats_init := by
  have h := walk_rows_drop log10 cap t c st
  have hs := walk_stats log10 cap t c st
  simp only [ht, if_false] at hs
  rw [hs]
  congr 1
  refine (forall₂_map_eq h ?_).symm
  rintro r p ⟨e, s, _, rfl⟩
  exact single_stats_leaf_row _ _ _

/-- The statistics returned at a terminal are the single-count statistics of the
one line written by the call. -/
theorem walk_stats_rows_ont (log10 : α → α) (cap : Nat) (t : Node α) (c : Inherited α)
    (st : SimState α) (ht : t.fields.type = NodeType.NODE_ONT) :
    ∃ r, (walk_and_compute log10 cap t c.tx_dbm c.my_rxmin c.new_loss c.new_dist c.new_down
        st).2.ont_csv.drop st.ont_csv.length = [r] ∧
      (walk_and_compute log10 cap t c.tx_dbm c.my_rxmin c.new_loss c.new_dist c.new_down st).1 =
        single_stats r := by
  cases t with
  | mk n cs =>
    rw [walk_ont log10 cap n cs c st ht]
    exact ⟨leaf_row (c.enter log10 n) n.ont_id (path_enter cap st.path n), by simp,
      (single_stats_leaf_row _ _ _).symm⟩

/-- The sums returned by a call are the sums of the receive powers and of the
losses of the lines it wrote. -/
theorem walk_sums (log10 : α → α) (cap : Nat) (t : Node α) (c : Inherited α) (st : SimState α) :
    (walk_and_compute log10 cap t c.tx_dbm c.my_rxmin c.new_loss c.new_dist c.new_down st).1.sum_rx =
      (((walk_and_compute log10 cap t c.tx_dbm c.my_rxmin c.new_loss c.new_dist c.new_down
        st).2.ont_csv.drop st.ont_csv.length).map (fun r => r.rx_dbm)).sum ∧
    (walk_and_compute log10 cap t c.tx_dbm c.my_rxmin c.new_loss c.new_dist c.new_down st).1.sum_loss =
      (((walk_and_compute log10 cap t c.tx_dbm c.my_rxmin c.new_loss c.new_dist c.new_down
        st).2.ont_csv.drop st.ont_csv.length).map (fun r => r.total_loss_db)).sum := by
  by_cases ht : t.fields.type = NodeType.NODE_ONT
  · obtain ⟨r, hr, hs⟩ := walk_stats_rows_ont log10 cap t c st ht
    rw [hr, hs]
    simp [single_stats]
  · have hs := walk_stats_rows log10 cap t c st ht
    obtain ⟨h1, h2⟩ := foldl_stats_merge_sums
      (((walk_and_compute log10 cap t c.tx_dbm c.my_rxmin c.new_loss c.new_dist c.new_down
        st).2.ont_csv.drop st.ont_csv.length).map single_stats) (stats_init : SubtreeStats α)
    rw [hs]
    constructor
    · rw [h1]; simp [stats_init, single_stats, List.map_map, Function.comp_def]
    · rw [h2]; simp [stats_init, single_stats, List.map_map, Function.comp_def]

/-- The counters of the single-count statistics of a terminal: exactly one of
ok, fail and down is 1, the others are 0. -/
theorem leaf_stats_counts (c : Inherited α) :
    (leaf_stats c).ok_count + (leaf_stats c).fail_count + (leaf_stats c).down_count = 1 ∧
    0 ≤ (leaf_stats c).ok_count ∧ 0 ≤ (leaf_stats c).fail_count ∧ 0 ≤ (leaf_stats c).down_count := by
  by_cases hd : c.new_down = 0 <;> by_cases hr : c.my_rxmin ≤ c.tx_dbm - c.new_loss <;>
    simp [leaf_stats, hd, hr]

/-- The counters a call returns add up: ok, fail and down are not negative and
their sum is the count, which is the number of visited terminals. -/
theorem walk_count_invariant (log10 : α → α) (cap : Nat) (t : Node α) (c : Inherited α)
    (st : SimState α) :
    (walk_and_compute log10 cap t c.tx_dbm c.my_rxmin c.new_loss c.new_dist c.new_down st).1.ont_count
      = ((visited_paths t).length : Int) ∧
    (walk_and_compute log10 cap t c.tx_dbm c.my_rxmin c.new_loss c.new_dist c.new_down st).1.ok_count +
      (walk_and_compute log10 cap t c.tx_dbm c.my_rxmin c.new_loss c.new_dist c.new_down st).1.fail_count +
      (walk_and_compute log10 cap t c.tx_dbm c.my_rxmin c.new_loss c.new_dist c.new_down st).1.down_count =
      (walk_and_compute log10 cap t c.tx_dbm c.my_rxmin c.new_loss c.new_dist c.new_down st).1.ont_count ∧
    0 ≤ (walk_and_compute log10 cap t c.tx_dbm c.my_rxmin c.new_loss c.new_dist c.new_down st).1.ok_count ∧
    0 ≤ (walk_and_compute log10 cap t c.tx_dbm c.my_rxmin c.new_loss c.new_dist c.new_down st).1.fail_count ∧
    0 ≤ (walk_and_compute log10 cap t c.tx_dbm c.my_rxmin c.new_loss c.new_dist c.new_down st).1.down_count := by
  obtain ⟨h1, h2, h3, h4⟩ := walk_counts log10 cap t c st
  rw [h1, h2, h3, h4]
  refine ⟨by simp [leaf_stats], ?_, ?_, ?_, ?_⟩
  · rw [← List.sum_map_add, ← List.sum_map_add]
    congr 1
    apply List.map_congr_left
    intro p _
    rw [(leaf_stats_counts (c.along log10 p)).1]
    simp [leaf_stats]
  · apply List.sum_nonneg
    intro x hx
    obtain ⟨p, _, rfl⟩ := List.mem_map.1 hx
    exact (leaf_stats_counts _).2.1
  · apply List.sum_nonneg
    intro x hx
    obtain ⟨p, _, rfl⟩ := List.mem_map.1 hx
    exact (leaf_stats_counts _).2.2.1
  · apply List.sum_nonneg
    intro x hx
    obtain ⟨p, _, rfl⟩ := List.mem_map.1 hx
    exact (leaf_stats_counts _).2.2.2

end Stats

/-! ## The path strings written by the traversal -/

section RowPaths

variable {α : Type} [LinearOrderedField α]

mutual
theorem walk_row_paths (log10 : α → α) (cap : Nat) (hcap : cap ≤ 512) :
    ∀ (t : Node α) (c : Inherited α) (st : SimState α) (x : List Char), st.path = x.take (cap - 1) →
    ∃ rows, (walk_and_compute log10 cap t c.tx_dbm c.my_rxmin c.new_loss c.new_dist c.new_down st).2.ont_csv
        = st.ont_csv ++ rows ∧
      List.Forall₂
        (fun (r : OntCsvRow α) (p : List (Node α)) =>
          r.path = ((p.map (fun n => node_part n.fields)).foldl path_extend x).take (cap - 1))
        rows (visited_paths t)
  | .mk n cs, c, st, x, hx => by
    by_cases h : n.type = NodeType.NODE_ONT
    · rw [walk_ont log10 cap n cs c st h]
      refine ⟨[leaf_row (c.enter log10 n) n.ont_id (path_enter cap st.path n)], rfl, ?_⟩
      rw [visited_paths_ont n cs h]
      refine List.Forall₂.cons ?_ List.Forall₂.nil
      simp only [leaf_row, List.map_cons, List.map_nil, List.foldl_cons, List.foldl_nil, Node.fields]
      rw [hx, path_enter_take]
    · rw [walk_inner log10 cap n cs c st h]
      obtain ⟨rows, h1, h2⟩ := walk_children_row_paths log10 cap hcap cs (c.enter log10 n) stats_init
        { st with path := path_enter cap st.path n } (path_extend x (node_part n))
        (by simp only [hx, path_enter_take])
      refine ⟨rows, h1, ?_⟩
      rw [visited_paths_inner n cs h, List.forall₂_map_right_iff]
      exact h2.imp (fun r p hrp => by simpa [Node.fields] using hrp)
theorem walk_children_row_paths (log10 : α → α) (cap : Nat) (hcap : cap ≤ 512) :
    ∀ (ts : List (Node α)) (c : Inherited α) (here : SubtreeStats α) (st : SimState α) (x : List Char),
    st.path = x.take (cap - 1) →
    ∃ rows, (walk_children log10 cap ts c.tx_dbm c.my_rxmin c.new_loss c.new_dist c.new_down here st).2.ont_csv
        = st.ont_csv ++ rows ∧
      List.Forall₂
        (fun (r : OntCsvRow α) (p : List (Node α)) =>
          r.path = ((p.map (fun n => node_part n.fields)).foldl path_extend x).take (cap - 1))
        rows (visited_paths.visited_paths_children ts)
  | [], c, here, st, x, _ => by
    rw [walk_children_nil]
    exact ⟨[], by simp, by simp [visited_paths.visited_paths_children]⟩
  | t :: ts, c, here, st, x, hx => by
    rw [walk_children_cons]
    obtain ⟨rows1, h1, h2⟩ := walk_row_paths log10 cap hcap t c st x hx
    have hp : (walk_and_compute log10 cap t c.tx_dbm c.my_rxmin c.new_loss c.new_dist c.new_down st).2.path
        = x.take (cap - 1) := by
      rw [walk_path, hx, List.take_of_length_le (l := List.take (cap - 1) x)
        (by rw [List.length_take]; omega), List.take_take, min_self]
    obtain ⟨rows2, h3, h4⟩ := walk_children_row_paths log10 cap hcap ts c
      (stats_merge here
        (walk_and_compute log10 cap t c.tx_dbm c.my_rxmin c.new_loss c.new_dist c.new_down st).1)
      (walk_and_compute log10 cap t c.tx_dbm c.my_rxmin c.new_loss c.new_dist c.new_down st).2 x hp
    refine ⟨rows1 ++ rows2, ?_, ?_⟩
    · rw [h3, h1, List.append_assoc]
    · simp only [visited_paths.visited_paths_children]
      exact List.rel_append h2 h4
end

/-- From an empty path, the path string written for a terminal is the beginning
of the labels of its root-to-terminal path joined by `/`, as much as the buffer
holds. -/
theorem walk_row_paths_drop (log10 : α → α) (cap : Nat) (hcap : cap ≤ 512) (t : Node α)
    (c : Inherited α) (st : SimState α) (hst : st.path = []) :
    List.Forall₂
      (fun (r : OntCsvRow α) (p : List (Node α)) =>
        r.path = ("/".toList.intercalate (p.map (fun n => node_part n.fields))).take (cap - 1))
      ((walk_and_compute log10 cap t c.tx_dbm c.my_rxmin c.new_loss c.new_dist c.new_down st).2.ont_csv.drop
        st.ont_csv.length)
      (visited_paths t) := by
  obtain ⟨rows, h1, h2⟩ := walk_row_paths log10 cap hcap t c st [] (by simp [hst])
  rw [h1, List.drop_left]
  refine h2.imp ?_
  intro r p hrp
  rw [hrp, foldl_path_extend_nil]
  intro l hl
  obtain ⟨n, _, rfl⟩ := List.mem_map.1 hl
  exact node_part_ne_nil _

end RowPaths

/-! ## The splitter records pushed by the traversal -/

section Records

variable {α : Type} [LinearOrderedField α]

theorem record_matches_cons (log10 : α → α) (c : Inherited α) (n : Node α) (r : SplitterRecord α)
    (p : List (Node α)) (h : record_matches log10 (c.enter log10 n.fields) r p) :
    record_matches log10 c r (n :: p) := by
  obtain ⟨s, h1, h2⟩ := h
  cases p with
  | nil => simp at h1
  | cons a l =>
    refine ⟨s, by simpa using h1, ?_⟩
    rw [h2]
    simp only [List.dropLast_cons₂, along_cons]

theorem walk_inner_stats (log10 : α → α) (cap : Nat) (n : NodeFields α) (cs : List (Node α))
    (c : Inherited α) (st : SimState α) (h : n.type ≠ NodeType.NODE_ONT) :
    (walk_children log10 cap cs (c.enter log10 n).tx_dbm (c.enter log10 n).my_rxmin
        (c.enter log10 n).new_loss (c.enter log10 n).new_dist (c.enter log10 n).new_down
        stats_init { st with path := path_enter cap st.path n }).1 =
      (walk_and_compute log10 512 (Node.mk n cs) c.tx_dbm c.my_rxmin c.new_loss c.new_dist c.new_down
        state_init).1 := by
  rw [← walk_stats_state log10 cap 512 (Node.mk n cs) c st state_init, walk_inner log10 cap n cs c st h]

mutual
theorem walk_splitters (log10 : α → α) (cap : Nat) : ∀ (t : Node α) (c : Inherited α) (st : SimState α),
    ∃ recs, (walk_and_compute log10 cap t c.tx_dbm c.my_rxmin c.new_loss c.new_dist c.new_down st).2.splitters
        = st.splitters ++ recs ∧
      List.Forall₂ (record_matches log10 c) recs (splitter_paths t)
  | .mk n cs, c, st => by
    by_cases h : n.type = NodeType.NODE_ONT
    · rw [walk_ont log10 cap n cs c st h, splitter_paths_ont n cs h]
      exact ⟨[], by simp, List.Forall₂.nil⟩
    · obtain ⟨recs, h1, h2⟩ := walk_children_splitters log10 cap cs (c.enter log10 n) stats_init
        { st with path := path_enter cap st.path n }
      have h2' : List.Forall₂ (record_matches log10 c) recs
          ((splitter_paths.splitter_paths_children cs).map (fun p => Node.mk n cs :: p)) := by
        rw [List.forall₂_map_right_iff]
        exact h2.imp (fun r p hrp => record_matches_cons log10 c (Node.mk n cs) r p hrp)
      rw [walk_inner log10 cap n cs c st h, splitter_paths_inner n cs h]
      simp only
      by_cases hs : n.type = NodeType.NODE_SPLITTER
      · simp only [hs, if_true]
        refine ⟨recs ++ [splitter_record n
          (walk_and_compute log10 512 (Node.mk n cs) c.tx_dbm c.my_rxmin c.new_loss c.new_dist c.new_down
            state_init).1], ?_, ?_⟩
        · rw [h1, walk_inner_stats log10 cap n cs c st h, List.append_assoc]
        · exact List.rel_append h2' (List.Forall₂.cons ⟨Node.mk n cs, rfl, rfl⟩ List.Forall₂.nil)
      · simp only [hs, if_false, List.append_nil]
        exact ⟨recs, h1, h2'⟩
theorem walk_children_splitters (log10 : α → α) (cap : Nat) :
    ∀ (ts : List (Node α)) (c : Inherited α) (here : SubtreeStats α) (st : SimState α),
    ∃ recs, (walk_children log10 cap ts c.tx_dbm c.my_rxmin c.new_loss c.new_dist c.new_down here
        st).2.splitters = st.splitters ++ recs ∧
      List.Forall₂ (record_matches log10 c) recs (splitter_paths.splitter_paths_children ts)
  | [], c, here, st => by
    rw [walk_children_nil]
    exact ⟨[], by simp, by simp [splitter_paths.splitter_paths_children]⟩
  | t :: ts, c, here, st => by
    rw [walk_children_cons]
    obtain ⟨recs1, h1, h2⟩ := walk_splitters log10 cap t c st
    obtain ⟨recs2, h3, h4⟩ := walk_children_splitters log10 cap ts c
      (stats_merge here
        (walk_and_compute log10 cap t c.tx_dbm c.my_rxmin c.new_loss c.new_dist c.new_down st).1)
      (walk_and_compute log10 cap t c.tx_dbm c.my_rxmin c.new_loss c.new_dist c.new_down st).2
    refine ⟨recs1 ++ recs2, ?_, ?_⟩
    · rw [h3, h1, List.append_assoc]
    · simp only [splitter_paths.splitter_paths_children]
      exact List.rel_append h2 h4
end

/-- The records pushed by a call are the records after the ones already there. -/
theorem walk_splitters_drop (log10 : α → α) (cap : Nat) (t : Node α) (c : Inherited α)
    (st : SimState α) :
    List.Forall₂ (record_matches log10 c)
      ((walk_and_compute log10 cap t c.tx_dbm c.my_rxmin c.new_loss c.new_dist c.new_down st).2.splitters.drop
        st.splitters.length)
      (splitter_paths t) := by
  obtain ⟨recs, h1, h2⟩ := walk_splitters log10 cap t c st
  rw [h1, List.drop_left]
  exact h2

/-- The call at a splitter pushes the records of the splitters beneath it and
then its own record, built from the statistics it returns. -/
theorem walk_splitter_node (log10 : α → α) (cap : Nat) (n : NodeFields α) (cs : List (Node α))
    (c : Inherited α) (st : SimState α) (hs : n.type = NodeType.NODE_SPLITTER) :
    ∃ below, (walk_and_compute log10 cap (Node.mk n cs) c.tx_dbm c.my_rxmin c.new_loss c.new_dist
        c.new_down st).2.splitters =
        st.splitters ++ below ++
          [splitter_record n (walk_and_compute log10 cap (Node.mk n cs) c.tx_dbm c.my_rxmin c.new_loss
            c.new_dist c.new_down st).1] ∧
      List.Forall₂ (record_matches log10 (c.enter log10 n)) below
        (splitter_paths.splitter_paths_children cs) := by
  have h : n.type ≠ NodeType.NODE_ONT := by rw [hs]; decide
  obtain ⟨recs, h1, h2⟩ := walk_children_splitters log10 cap cs (c.enter log10 n) stats_init
    { st with path := path_enter cap st.path n }
  refine ⟨recs, ?_, h2⟩
  rw [walk_inner log10 cap n cs c st h]
  simp only [hs, if_true]
  rw [h1]

/-- The statistics returned for a subtree without visited terminals are those of
`stats_init`. -/
theorem walk_stats_of_no_terminal (log10 : α → α) (cap : Nat) (t : Node α) (c : Inherited α)
    (st : SimState α) (ht : t.fields.type ≠ NodeType.NODE_ONT) (h : visited_paths t = []) :
    (walk_and_compute log10 cap t c.tx_dbm c.my_rxmin c.new_loss c.new_dist c.new_down st).1 =
      stats_init := by
  rw [walk_stats, if_neg ht, h]
  rfl

/-- The call on a head-end depends on its fields only through its transmit
power and threshold. -/
theorem walk_head_end (log10 : α → α) (cap : Nat) (n m : NodeFields α) (cs : List (Node α))
    (c : Inherited α) (st : SimState α) (hn : n.type = NodeType.NODE_OLT)
    (hm : m.type = NodeType.NODE_OLT) (htx : m.olt_tx_dbm = n.olt_tx_dbm)
    (hrx : m.gpon_rxmin_dbm = n.gpon_rxmin_dbm) :
    walk_and_compute log10 cap (.mk m cs) c.tx_dbm c.my_rxmin c.new_loss c.new_dist c.new_down st =
      walk_and_compute log10 cap (.mk n cs) c.tx_dbm c.my_rxmin c.new_loss c.new_dist c.new_down st := by
  have h1 : n.type ≠ NodeType.NODE_ONT := by rw [hn]; decide
  have h2 : m.type ≠ NodeType.NODE_ONT := by rw [hm]; decide
  have he : c.enter log10 m = c.enter log10 n := by
    simp [Inherited.enter, hn, hm, htx, hrx]
  have hp : path_enter cap st.path m = path_enter cap st.path n := by
    simp [path_enter, node_part, hn, hm]
  rw [walk_inner log10 cap n cs c st h1, walk_inner log10 cap m cs c st h2, he, hp]
  simp [hn, hm]

/-- The call on a head-end passes the loss and distance it was called with on to
its children. -/
theorem walk_head_end_children (log10 : α → α) (cap : Nat) (n : NodeFields α) (cs : List (Node α))
    (c : Inherited α) (st : SimState α) (hn : n.type = NodeType.NODE_OLT) :
    walk_and_compute log10 cap (.mk n cs) c.tx_dbm c.my_rxmin c.new_loss c.new_dist c.new_down st =
      ((walk_children log10 cap cs n.olt_tx_dbm n.gpon_rxmin_dbm c.new_loss c.new_dist c.new_down
          stats_init { st with path := path_enter cap st.path n }).1,
       { (walk_children log10 cap cs n.olt_tx_dbm n.gpon_rxmin_dbm c.new_loss c.new_dist c.new_down
          stats_init { st with path := path_enter cap st.path n }).2 with
         path := (st.path.take 511).take (cap - 1) }) := by
  have h1 : n.type ≠ NodeType.NODE_ONT := by rw [hn]; decide
  rw [walk_inner log10 cap n cs c st h1]
  simp [Inherited.enter, hn]

end Records

/-! ## The results stored in `ont_results` -/

section Results

variable {α : Type} [LinearOrderedField α]

theorem take_append_take {β : Type} (m : Nat) (a x y : List β) :
    a ++ List.take (m - a.length) x ++
        List.take (m - (a ++ List.take (m - a.length) x).length) y =
      a ++ List.take (m - a.length) (x ++ y) := by
  rw [List.append_assoc, List.take_append_eq_append_take]
  congr 2
  simp only [List.length_append, List.length_take]
  by_cases h : m - a.length ≤ x.length
  · rw [min_eq_left h]
    have h1 : m - (a.length + (m - a.length)) = 0 := by omega
    have h2 : m - a.length - x.length = 0 := by omega
    rw [h1, h2]
  · rw [min_eq_right (by omega)]
    congr 1
    omega

mutual
theorem walk_results (log10 : α → α) (cap : Nat) : ∀ (t : Node α) (c : Inherited α) (st : SimState α),
    ∃ rows, (walk_and_compute log10 cap t c.tx_dbm c.my_rxmin c.new_loss c.new_dist c.new_down st).2.ont_csv
        = st.ont_csv ++ rows ∧
      (walk_and_compute log10 cap t c.tx_dbm c.my_rxmin c.new_loss c.new_dist c.new_down st).2.ont_results
        = st.ont_results ++ (rows.map row_result).take (MAX_ONT - st.ont_results.length)
  | .mk n cs, c, st => by
    by_cases h : n.type = NodeType.NODE_ONT
    · rw [walk_ont log10 cap n cs c st h]
      refine ⟨[leaf_row (c.enter log10 n) n.ont_id (path_enter cap st.path n)], rfl, ?_⟩
      simp only [List.map_cons, List.map_nil]
      by_cases hl : st.ont_results.length < MAX_ONT
      · obtain ⟨k, hk⟩ : ∃ k, MAX_ONT - st.ont_results.length = k + 1 :=
          ⟨MAX_ONT - st.ont_results.length - 1, by omega⟩
        rw [if_pos hl, hk]
        simp [row_result, leaf_row]
      · rw [if_neg hl]
        have h0 : MAX_ONT - st.ont_results.length = 0 := by omega
        rw [h0]; simp
    · rw [walk_inner log10 cap n cs c st h]
      exact walk_children_results log10 cap cs (c.enter log10 n) stats_init
        { st with path := path_enter cap st.path n }
theorem walk_children_results (log10 : α → α) (cap : Nat) :
    ∀ (ts : List (Node α)) (c : Inherited α) (here : SubtreeStats α) (st : SimState α),
    ∃ rows, (walk_children log10 cap ts c.tx_dbm c.my_rxmin c.new_loss c.new_dist c.new_down here
        st).2.ont_csv = st.ont_csv ++ rows ∧
      (walk_children log10 cap ts c.tx_dbm c.my_rxmin c.new_loss c.new_dist c.new_down here
        st).2.ont_results = st.ont_results ++ (rows.map row_result).take (MAX_ONT - st.ont_results.length)
  | [], c, here, st => by
    rw [walk_children_nil]
    exact ⟨[], by simp, by simp⟩
  | t :: ts, c, here, st => by
    rw [walk_children_cons]
    obtain ⟨rows1, h1, h2⟩ := walk_results log10 cap t c st
    obtain ⟨rows2, h3, h4⟩ := walk_children_results log10 cap ts c
      (stats_merge here
        (walk_and_compute log10 cap t c.tx_dbm c.my_rxmin c.new_loss c.new_dist c.new_down st).1)
      (walk_and_compute log10 cap t c.tx_dbm c.my_rxmin c.new_loss c.new_dist c.new_down st).2
    refine ⟨rows1 ++ rows2, ?_, ?_⟩
    · rw [h3, h1, List.append_assoc]
    · rw [h4, h2, List.map_append, take_append_take]
end

/-- The results stored by a call are those of the first lines it writes, as many
as the room left in `ont_results` allows. -/
theorem walk_results_drop (log10 : α → α) (cap : Nat) (t : Node α) (c : Inherited α)
    (st : SimState α) :
    (walk_and_compute log10 cap t c.tx_dbm c.my_rxmin c.new_loss c.new_dist c.new_down st).2.ont_results
      = st.ont_results ++
        (((walk_and_compute log10 cap t c.tx_dbm c.my_rxmin c.new_loss c.new_dist c.new_down
          st).2.ont_csv.drop st.ont_csv.length).take (MAX_ONT - st.ont_results.length)).map row_result := by
  obtain ⟨rows, h1, h2⟩ := walk_results log10 cap t c st
  rw [h2, h1, List.drop_left, List.map_take]

/-- In the run of `main`, one line is written per visited terminal. -/
theorem main_walk_rows_length (log10 : α → α) (root : Node α) :
    (main_walk log10 root).2.ont_csv.length = (visited_paths root).length := by
  have h := (walk_rows_drop log10 512 root
    ⟨root.fields.olt_tx_dbm, root.fields.gpon_rxmin_dbm, 0, 0, 0⟩ state_init).length_eq
  simpa [main_walk, state_init] using h

/-- In the run of `main`, the results stored are those of the first `MAX_ONT`
lines. -/
theorem main_walk_results (log10 : α → α) (root : Node α) :
    (main_walk log10 root).2.ont_results =
      ((main_walk log10 root).2.ont_csv.take MAX_ONT).map row_result := by
  have h := walk_results_drop log10 512 root
    ⟨root.fields.olt_tx_dbm, root.fields.gpon_rxmin_dbm, 0, 0, 0⟩ state_init
  simpa [main_walk, state_init] using h

theorem main_walk_results_length (log10 : α → α) (root : Node α) :
    (main_walk log10 root).2.ont_results.length = min MAX_ONT (visited_paths root).length := by
  rw [main_walk_results, List.length_map, List.length_take, main_walk_rows_length]

end Results

/-! ## Sorting the results by margin -/

section Sorting

variable {α : Type} [LinearOrderedField α]

theorem cmp_margin_le_zero (x y : OntResult α) : cmp_margin x y ≤ 0 ↔ x.margin_db ≤ y.margin_db := by
  unfold cmp_margin
  by_cases h1 : x.margin_db < y.margin_db
  · simp [h1, h1.le]
  · by_cases h2 : x.margin_db > y.margin_db
    · simp [h1, h2]
    · simp [h1, h2, le_of_not_lt h2]

/-- Insertion sort with `cmp_margin` does what `qsort` promises. -/
theorem insertion_qsort_sorts : qsort_sorts (insertion_qsort : List (OntResult α) → List (OntResult α)) := by
  intro l
  haveI : IsTotal (OntResult α) (fun x y => cmp_margin x y ≤ 0) :=
    ⟨fun a b => by simp only [cmp_margin_le_zero]; exact le_total _ _⟩
  haveI : IsTrans (OntResult α) (fun x y => cmp_margin x y ≤ 0) :=
    ⟨fun a b c h1 h2 => by
      simp only [cmp_margin_le_zero] at h1 h2 ⊢; exact le_trans h1 h2⟩
  exact ⟨List.perm_insertionSort _ l, List.sorted_insertionSort _ l⟩

/-- The margins after the sort do not depend on the order before it. -/
theorem qsort_margins_eq (qsort : List (OntResult α) → List (OntResult α)) (h : qsort_sorts qsort)
    {l l' : List (OntResult α)} (hp : l.Perm l') :
    (qsort l).map (fun x => x.margin_db) = (qsort l').map (fun x => x.margin_db) := by
  obtain ⟨h1, h2⟩ := h l
  obtain ⟨h3, h4⟩ := h l'
  have s1 : ((qsort l).map (fun x => x.margin_db)).Sorted (fun a b : α => a ≤ b) :=
    List.pairwise_map.2 (h2.imp (fun {a b} hab => (cmp_margin_le_zero a b).1 hab))
  have s2 : ((qsort l').map (fun x => x.margin_db)).Sorted (fun a b : α => a ≤ b) :=
    List.pairwise_map.2 (h4.imp (fun {a b} hab => (cmp_margin_le_zero a b).1 hab))
  haveI : IsAntisymm α (fun a b : α => a ≤ b) := ⟨fun a b hab hba => le_antisymm hab hba⟩
  exact List.eq_of_perm_of_sorted (((h1.trans hp).trans h3.symm).map _) s1 s2

/-- With pairwise distinct margins the sorted array does not depend on the order
before the sort. -/
theorem qsort_eq_of_nodup (qsort : List (OntResult α) → List (OntResult α)) (h : qsort_sorts qsort)
    {l l' : List (OntResult α)} (hp : l.Perm l') (hn : (l.map (fun x => x.margin_db)).Nodup) :
    qsort l = qsort l' := by
  obtain ⟨h1, h2⟩ := h l
  obtain ⟨h3, h4⟩ := h l'
  haveI : IsAntisymm (OntResult α) (fun x y => x.margin_db < y.margin_db) :=
    ⟨fun a b hab hba => absurd hab (lt_asymm hba)⟩
  have key : ∀ m : List (OntResult α), m.Perm l → m.Pairwise (fun x y => cmp_margin x y ≤ 0) →
      m.Sorted (fun x y => x.margin_db < y.margin_db) := by
    intro m hm hs
    have hnm : (m.map (fun x => x.margin_db)).Nodup := (hm.map _).nodup_iff.2 hn
    have hne : m.Pairwise (fun x y => x.margin_db ≠ y.margin_db) := List.pairwise_map.1 hnm
    exact (hs.and hne).imp (fun {a b} hab => lt_of_le_of_ne ((cmp_margin_le_zero a b).1 hab.1) hab.2)
  exact List.eq_of_perm_of_sorted ((h1.trans hp).trans h3.symm) (key _ h1 h2)
    (key _ (h3.trans hp.symm) h4)

end Sorting

/-! ## The tree built by `read_topology` -/

section TreeNodes
variable {α : Type}

theorem tree_nodes_children_append (cs ds : List (Node α)) :
    tree_nodes.tree_nodes_children (cs ++ ds) =
      tree_nodes.tree_nodes_children cs ++ tree_nodes.tree_nodes_children ds := by
  induction cs with
  | nil => simp [tree_nodes.tree_nodes_children]
  | cons c cs ih => simp [tree_nodes.tree_nodes_children, ih]

theorem tree_nodes_fields (n : NodeFields α) (cs : List (Node α)) :
    (tree_nodes (Node.mk n cs)).map Node.fields =
      n :: (tree_nodes.tree_nodes_children cs).map Node.fields := by
  simp [tree_nodes, Node.fields]

theorem assign_ids_cons (a : Int) (n : NodeFields α) (ns : List (NodeFields α)) :
    assign_ids a (n :: ns) =
      if n.type = NodeType.NODE_ONT ∧ n.ont_id < 0 then { n with ont_id := a } :: assign_ids (a + 1) ns
      else n :: assign_ids a ns := by
  rw [assign_ids]

theorem number_terminal_counter (a : Int) (n : NodeFields α) :
    (number_terminal a n).2 =
      a + (([n].filter (fun n => n.type = NodeType.NODE_ONT ∧ n.ont_id < 0)).length : Nat) := by
  rw [number_terminal]
  by_cases h : n.type = NodeType.NODE_ONT ∧ n.ont_id < 0
  · rw [if_pos h, List.filter_cons_of_pos (by simpa using h)]; simp
  · rw [if_neg h, List.filter_cons_of_neg (by simpa using h)]; simp

/-- A node without children appended somewhere in the tree comes last in the
order of the lines, and the nodes before it keep their fields. -/
theorem add_child_at_fields (n : NodeFields α) : ∀ (k : Nat) (r r2 : Node α),
    add_child_at k (Node.mk n []) r = some r2 →
      (tree_nodes r2).map Node.fields = (tree_nodes r).map Node.fields ++ [n]
  | 0, .mk f cs, r2, h => by
    simp only [add_child_at, Option.some.injEq] at h
    subst h
    simp [tree_nodes_fields, tree_nodes_children_append, tree_nodes.tree_nodes_children, tree_nodes,
      Node.fields]
  | k + 1, .mk f cs, r2, h => by
    simp only [add_child_at] at h
    cases hl : cs.getLast? with
    | none => simp [hl] at h
    | some l =>
      simp only [hl, Option.map_eq_some'] at h
      obtain ⟨l2, h1, rfl⟩ := h
      have ih := add_child_at_fields n k l l2 h1
      have hcs : cs = cs.dropLast ++ [l] := by
        have hne : cs ≠ [] := by rintro rfl; simp at hl
        rw [List.getLast?_eq_getLast _ hne, Option.some.injEq] at hl
        rw [← hl, List.dropLast_append_getLast hne]
      rw [tree_nodes_fields, tree_nodes_fields, tree_nodes_children_append]
      nth_rewrite 2 [hcs]
      rw [tree_nodes_children_append]
      simp [tree_nodes.tree_nodes_children, ih]

theorem assign_ids_length : ∀ (l : List (NodeFields α)) (a : Int), (assign_ids a l).length = l.length
  | [], a => rfl
  | n :: ns, a => by
    rw [assign_ids_cons]
    split_ifs <;> simp [assign_ids_length ns]

theorem assign_ids_append : ∀ (l m : List (NodeFields α)) (a : Int),
    assign_ids a (l ++ m) =
      assign_ids a l ++
        assign_ids (a + ((l.filter (fun n => n.type = NodeType.NODE_ONT ∧ n.ont_id < 0)).length : Nat)) m
  | [], m, a => by simp [assign_ids]
  | n :: ns, m, a => by
    by_cases h : n.type = NodeType.NODE_ONT ∧ n.ont_id < 0
    · rw [List.cons_append, assign_ids_cons, assign_ids_cons, if_pos h, if_pos h,
        assign_ids_append ns m (a + 1), List.filter_cons_of_pos (by simpa using h), List.length_cons,
        List.cons_append]
      push_cast
      rw [add_assoc, add_comm (1 : Int)]
    · rw [List.cons_append, assign_ids_cons, assign_ids_cons, if_neg h, if_neg h,
        assign_ids_append ns m a, List.filter_cons_of_neg (by simpa using h), List.cons_append]

theorem number_terminal_fields (a : Int) (n : NodeFields α) :
    assign_ids a [n] = [(number_terminal a n).1] := by
  rw [assign_ids_cons, number_terminal]
  split_ifs <;> simp [assign_ids]

/-- When every terminal gets its identifier from the counter, the identifiers
are the values of the counter in a row. -/
theorem terminal_ids_assign_ids : ∀ (l : List (NodeFields α)) (a : Int),
    (∀ n ∈ l, n.type = NodeType.NODE_ONT → n.ont_id < 0) →
    terminal_ids (assign_ids a l) =
      (List.range (l.filter (fun n => n.type = NodeType.NODE_ONT)).length).map (fun (i : Nat) => a + (i : Int))
  | [], a, _ => by simp [assign_ids, terminal_ids]
  | n :: ns, a, h => by
    have hns : ∀ m ∈ ns, m.type = NodeType.NODE_ONT → m.ont_id < 0 :=
      fun m hm => h m (List.mem_cons_of_mem _ hm)
    by_cases ht : n.type = NodeType.NODE_ONT
    · have hlt := h n (List.mem_cons_self _ _) ht
      have ih := terminal_ids_assign_ids ns (a + 1) hns
      unfold terminal_ids at ih ⊢
      rw [assign_ids_cons, if_pos ⟨ht, hlt⟩, List.filter_cons_of_pos (by simpa using ht),
        List.filter_cons_of_pos (by simpa using ht), List.map_cons, ih, List.length_cons,
        List.range_succ_eq_map, List.map_cons, List.map_map]
      simp only [Nat.cast_zero, add_zero, List.cons.injEq, true_and]
      apply List.map_congr_left
      intro i _
      simp only [Function.comp, Nat.succ_eq_add_one, Nat.cast_add, Nat.cast_one]
      ring
    · have ih := terminal_ids_assign_ids ns a hns
      unfold terminal_ids at ih ⊢
      have hc : ¬ (n.type = NodeType.NODE_ONT ∧ n.ont_id < 0) := fun hh => ht hh.1
      rw [assign_ids_cons, if_neg hc, List.filter_cons_of_neg (by simpa using ht),
        List.filter_cons_of_neg (by simpa using ht), ih]

/-- After a node has been appended at the end of the chain of last children of
length `j`, a node can be appended at every depth up to `j + 1`. -/
theorem add_child_at_chain : ∀ (j : Nat) (leaf r r2 : Node α), add_child_at j leaf r = some r2 →
    ∀ k, k ≤ j + 1 → ∀ c, (add_child_at k c r2).isSome = true
  | 0, leaf, .mk f cs, r2, h, k, hk, c => by
    simp only [add_child_at, Option.some.injEq] at h
    subst h
    rcases Nat.le_one_iff_eq_zero_or_eq_one.1 hk with rfl | rfl
    · simp [add_child_at]
    · cases leaf with
      | mk g ds => simp [add_child_at]
  | j + 1, leaf, .mk f cs, r2, h, k, hk, c => by
    simp only [add_child_at] at h
    cases hl : cs.getLast? with
    | none => simp [hl] at h
    | some l =>
      simp only [hl, Option.map_eq_some'] at h
      obtain ⟨l2, h1, rfl⟩ := h
      cases k with
      | zero => simp [add_child_at]
      | succ k =>
        have ih := add_child_at_chain j leaf l l2 h1 k (by omega) c
        simp only [add_child_at, List.getLast?_append, List.getLast?_singleton, Option.or_some]
        obtain ⟨x, hx⟩ := Option.isSome_iff_exists.1 ih
        simp [hx]

theorem place_node_inv (P : List (NodeFields α)) (st st2 : TopoState α) (depth : Nat)
    (n0 : NodeFields α) (hinv : TopoInv P st) (h : place_node st depth n0 = some st2) :
    TopoInv (P ++ [n0]) st2 := by
  obtain ⟨hauto, hroot⟩ := hinv
  have hcount : (number_terminal st.auto_ont_id n0).2 =
      1 + (((P ++ [n0]).filter (fun n => n.type = NodeType.NODE_ONT ∧ n.ont_id < 0)).length : Nat) := by
    rw [number_terminal_counter, List.filter_append, List.length_append, hauto]
    push_cast; ring
  have hlast : assign_ids 1 (P ++ [n0]) = assign_ids 1 P ++ [(number_terminal st.auto_ont_id n0).1] := by
    rw [assign_ids_append, ← hauto, number_terminal_fields]
  unfold place_node at h
  simp only at h
  generalize number_terminal st.auto_ont_id n0 = x at h hcount hlast
  by_cases h0 : depth = 0
  · simp only [h0, if_true] at h
    split_ifs at h
    simp only [Option.some.injEq] at h
    subst h
    refine ⟨hcount, ?_⟩
    intro r hr
    simp only [Option.some.injEq] at hr
    subst hr
    refine ⟨P.length, ?_⟩
    rw [hlast, ← assign_ids_length P 1, List.drop_left]
    simp [tree_nodes, tree_nodes.tree_nodes_children, Node.fields]
  · simp only [h0, if_false] at h
    cases hr : st.root with
    | none =>
      simp only [hr] at h
      split_ifs at h
    | some r =>
      simp only [hr] at h
      split_ifs at h
      simp only [Option.map_eq_some'] at h
      obtain ⟨r2, hadd, rfl⟩ := h
      have hf := add_child_at_fields _ _ _ _ hadd
      obtain ⟨j, hj⟩ := hroot r hr
      refine ⟨hcount, ?_⟩
      intro r3 hr3
      simp only [Option.some.injEq] at hr3
      subst hr3
      refine ⟨j, ?_⟩
      have hjl : j ≤ (assign_ids 1 P).length := by
        by_contra hlt
        rw [List.drop_eq_nil_of_le (by omega)] at hj
        cases r with
        | mk f cs => simp [tree_nodes] at hj
      rw [hf, hj, hlast, List.drop_append_of_le_length hjl]

theorem place_node_chain (st st2 : TopoState α) (depth : Nat) (n0 : NodeFields α)
    (h : place_node st depth n0 = some st2) : TopoChain st2 := by
  unfold place_node at h
  simp only at h
  generalize number_terminal st.auto_ont_id n0 = x at h
  by_cases h0 : depth = 0
  · simp only [h0, if_true] at h
    split_ifs at h
    simp only [Option.some.injEq] at h
    subst h
    intro r hr k hk c
    simp only [Option.some.injEq] at hr
    subst hr
    simp only [Nat.le_zero] at hk
    subst hk
    simp [add_child_at]
  · simp only [h0, if_false] at h
    cases hr : st.root with
    | none =>
      simp only [hr] at h
      split_ifs at h
    | some r =>
      simp only [hr] at h
      split_ifs at h
      simp only [Option.map_eq_some'] at h
      obtain ⟨r2, hadd, rfl⟩ := h
      intro r3 hr3 k hk c
      simp only [Option.some.injEq] at hr3
      subst hr3
      exact add_child_at_chain _ _ _ _ hadd k (by simp only at hk; omega) c

end TreeNodes

/-! ## The loop of `read_topology` -/

section Topology
variable {α : Type} [LinearOrderedField α]

theorem read_line_inv (parse_int : List Char → Int) (parse_double : List Char → α)
    (P : List (NodeFields α)) (st st2 : TopoState α) (line : List Char) (hinv : TopoInv P st)
    (h : read_line parse_int parse_double st line = some st2) :
    TopoInv (P ++ parsed_nodes parse_int parse_double [line]) st2 := by
  unfold read_line at h
  simp only at h
  unfold parsed_nodes line_fields
  by_cases h1 : ltrim (rtrim line) = []
  · simp only [h1, if_true, Option.some.injEq] at h
    subst h
    simpa [h1] using hinv
  · by_cases h2 : (ltrim (rtrim line)).head? = some '#'
    · simp only [h1, h2, if_true, if_false, Option.some.injEq] at h
      subst h
      simpa [h1, h2] using hinv
    · simp only [h1, h2, if_false] at h
      split_ifs at h
      cases hp : parse_line parse_int parse_double (node_new NodeType.NODE_ONT)
          ((ltrim (rtrim line)).take 1023) with
      | none => simp [hp] at h
      | some n0 =>
        simp only [hp] at h
        have := place_node_inv P st st2 _ n0 hinv h
        simpa [h1, h2, hp] using this

theorem read_lines_inv (parse_int : List Char → Int) (parse_double : List Char → α) :
    ∀ (lines : List (List Char)) (P : List (NodeFields α)) (st st2 : TopoState α), TopoInv P st →
      read_lines parse_int parse_double st lines = some st2 →
      TopoInv (P ++ parsed_nodes parse_int parse_double lines) st2
  | [], P, st, st2, hinv, h => by
    simp only [read_lines, Option.some.injEq] at h
    subst h
    simpa [parsed_nodes] using hinv
  | line :: lines, P, st, st2, hinv, h => by
    simp only [read_lines] at h
    cases h1 : read_line parse_int parse_double st line with
    | none => simp [h1] at h
    | some st1 =>
      simp only [h1] at h
      have e : parsed_nodes parse_int parse_double (line :: lines) =
          parsed_nodes parse_int parse_double [line] ++ parsed_nodes parse_int parse_double lines := by
        unfold parsed_nodes
        rw [← List.filterMap_append, List.singleton_append]
      rw [e, ← List.append_assoc]
      exact read_lines_inv parse_int parse_double lines _ st1 st2
        (read_line_inv parse_int parse_double P st st1 line hinv h1) h

/-- The nodes of the tree `read_topology` returns are, in the order of their
lines, the last of the nodes of the file with their identifiers assigned. -/
theorem read_topology_nodes (parse_int : List Char → Int) (parse_double : List Char → α)
    (lines : List (List Char)) (root : Node α)
    (h : read_topology parse_int parse_double lines = some root) :
    ∃ j, (tree_nodes root).map Node.fields =
      (assign_ids 1 (parsed_nodes parse_int parse_double lines)).drop j := by
  unfold read_topology at h
  cases h1 : read_lines parse_int parse_double { root := none, depth := 0, auto_ont_id := 1 } lines with
  | none => simp [h1] at h
  | some st =>
    simp only [h1] at h
    have hinv := read_lines_inv parse_int parse_double lines [] _ st
      ⟨by simp, by intro r hr; simp at hr⟩ h1
    simpa using hinv.2 root h

/-- A final segment of a row of consecutive integers is such a row. -/
theorem suffix_consecutive : ∀ (m : Nat) (a : Int) (s : List Int),
    s <:+ (List.range m).map (fun (i : Nat) => a + (i : Int)) →
    ∃ (k : Int) (m2 : Nat), a ≤ k ∧ s = (List.range m2).map (fun (i : Nat) => k + (i : Int))
  | 0, a, s, h => by
    simp only [List.range_zero, List.map_nil, List.suffix_nil] at h
    exact ⟨a, 0, le_refl a, by simp [h]⟩
  | m + 1, a, s, h => by
    have e : (List.range (m + 1)).map (fun (i : Nat) => a + (i : Int)) =
        a :: (List.range m).map (fun (i : Nat) => (a + 1) + (i : Int)) := by
      rw [List.range_succ_eq_map, List.map_cons, List.map_map]
      simp only [Nat.cast_zero, add_zero, List.cons.injEq, true_and]
      apply List.map_congr_left
      intro i _
      simp only [Function.comp, Nat.succ_eq_add_one, Nat.cast_add, Nat.cast_one]
      ring
    rw [e, List.suffix_cons_iff] at h
    rcases h with h | h
    · exact ⟨a, m + 1, le_refl a, by rw [h, e]⟩
    · obtain ⟨k, m2, hk, hs⟩ := suffix_consecutive m (a + 1) s h
      exact ⟨k, m2, by omega, hs⟩

theorem consecutive_nodup (k : Int) (m : Nat) :
    ((List.range m).map (fun (i : Nat) => k + (i : Int))).Nodup := by
  apply List.Nodup.map _ (List.nodup_range m)
  intro i j hij
  simpa using hij

theorem read_lines_chain (parse_int : List Char → Int) (parse_double : List Char → α) :
    ∀ (lines : List (List Char)) (st st2 : TopoState α), TopoChain st →
      read_lines parse_int parse_double st lines = some st2 → TopoChain st2
  | [], st, st2, hc, h => by
    simp only [read_lines, Option.some.injEq] at h
    subst h
    exact hc
  | line :: lines, st, st2, hc, h => by
    simp only [read_lines] at h
    cases h1 : read_line parse_int parse_double st line with
    | none => simp [h1] at h
    | some st1 =>
      simp only [h1] at h
      refine read_lines_chain parse_int parse_double lines st1 st2 ?_ h
      unfold read_line at h1
      simp only at h1
      split_ifs at h1 with a1 a2 a3
      · simp only [Option.some.injEq] at h1; subst h1; exact hc
      · simp only [Option.some.injEq] at h1; subst h1; exact hc
      · cases hp : parse_line parse_int parse_double (node_new NodeType.NODE_ONT)
            ((ltrim (rtrim line)).take 1023) with
        | none => simp [hp] at h1
        | some n0 =>
          simp only [hp] at h1
          exact place_node_chain st st1 _ n0 h1

/-- In a state the loop reaches, `place_node` gives no result only where the
program stops with an error or its behaviour is undefined: the node is placed
when the counter is below `INT_MAX`, a node at depth 0 is a head-end, and a node
at a depth from 1 to 63 has a parent on the stack. -/
theorem place_node_isSome (parse_int : List Char → Int) (parse_double : List Char → α)
    (lines : List (List Char)) (st : TopoState α) (depth : Nat) (n0 : NodeFields α)
    (h : read_lines parse_int parse_double { root := none, depth := 0, auto_ont_id := 1 } lines = some st)
    (hauto : st.auto_ont_id < INT_MAX)
    (h0 : depth = 0 → n0.type = NodeType.NODE_OLT)
    (h1 : depth ≠ 0 → depth < 64 ∧ st.root ≠ none ∧ depth - 1 ≤ st.depth) :
    (place_node st depth n0).isSome = true := by
  have hc : TopoChain st := read_lines_chain parse_int parse_double lines _ st
    (by intro r hr; simp at hr) h
  unfold place_node
  have hov : ¬ (n0.type = NodeType.NODE_ONT ∧ n0.ont_id < 0 ∧ st.auto_ont_id ≥ INT_MAX) := by
    rintro ⟨_, _, h3⟩; omega
  rw [if_neg hov]
  simp only
  by_cases hd : depth = 0
  · have ht := h0 hd
    have hn : (number_terminal st.auto_ont_id n0).1.type = NodeType.NODE_OLT := by
      unfold number_terminal
      split_ifs with hh
      · rw [hh.1] at ht; cases ht
      · exact ht
    simp [hd, hn]
  · obtain ⟨h64, hroot, hpar⟩ := h1 hd
    cases hr : st.root with
    | none => exact absurd hr hroot
    | some r =>
      have hs := hc r hr (depth - 1) hpar (Node.mk (number_terminal st.auto_ont_id n0).1 [])
      obtain ⟨x, hx⟩ := Option.isSome_iff_exists.1 hs
      simp [hd, hx, not_le.2 h64, not_lt.2 hpar]

end Topology

/-! ## The statistics with the arithmetic of the machine -/

section Rounding

variable {α : Type} [LinearOrderedField α]

theorem stats_merge_fl_id (a b : SubtreeStats α) : stats_merge_fl id a b = stats_merge a b := rfl

theorem node_link_loss_db_fl_id (log10 : α → α) (n : NodeFields α) :
    node_link_loss_db_fl id log10 n = node_link_loss_db log10 n := rfl

theorem enter_fl_id (log10 : α → α) (c : Inherited α) (n : NodeFields α) :
    c.enter_fl id log10 n = c.enter log10 n := rfl

theorem along_fl_id (log10 : α → α) (c : Inherited α) (p : List (Node α)) :
    c.along_fl id log10 p = c.along log10 p := rfl

theorem leaf_stats_fl_id (c : Inherited α) : leaf_stats_fl id c = leaf_stats c := rfl

theorem along_fl_cons (rnd log10 : α → α) (c : Inherited α) (n : Node α) (p : List (Node α)) :
    c.along_fl rnd log10 (n :: p) = (c.enter_fl rnd log10 n.fields).along_fl rnd log10 p := rfl

theorem walk_fl_ont (rnd log10 : α → α) (n : NodeFields α) (cs : List (Node α)) (c : Inherited α)
    (h : n.type = NodeType.NODE_ONT) :
    walk_and_compute_fl rnd log10 (.mk n cs) c.tx_dbm c.my_rxmin c.new_loss c.new_dist c.new_down =
      leaf_stats_fl rnd (c.enter_fl rnd log10 n) := by
  rw [walk_and_compute_fl]
  simp only [h, if_true]
  by_cases hd : (c.enter_fl rnd log10 n).new_down = 0 <;>
  by_cases hr : (c.enter_fl rnd log10 n).my_rxmin ≤
      rnd ((c.enter_fl rnd log10 n).tx_dbm - (c.enter_fl rnd log10 n).new_loss) <;>
  simp [leaf_stats_fl, Inherited.enter_fl, stats_init, h] at hd hr ⊢ <;>
  simp [hd, hr, not_le.mpr]

theorem walk_fl_inner (rnd log10 : α → α) (n : NodeFields α) (cs : List (Node α)) (c : Inherited α)
    (h : n.type ≠ NodeType.NODE_ONT) :
    walk_and_compute_fl rnd log10 (.mk n cs) c.tx_dbm c.my_rxmin c.new_loss c.new_dist c.new_down =
      walk_children_fl rnd log10 cs (c.enter_fl rnd log10 n).tx_dbm (c.enter_fl rnd log10 n).my_rxmin
        (c.enter_fl rnd log10 n).new_loss (c.enter_fl rnd log10 n).new_dist
        (c.enter_fl rnd log10 n).new_down stats_init := by
  rw [walk_and_compute_fl]
  simp only [h, if_false]
  rfl

theorem walk_children_fl_nil (rnd log10 : α → α) (c : Inherited α) (here : SubtreeStats α) :
    walk_children_fl rnd log10 [] c.tx_dbm c.my_rxmin c.new_loss c.new_dist c.new_down here = here := by
  rw [walk_children_fl]

theorem walk_children_fl_cons (rnd log10 : α → α) (t : Node α) (ts : List (Node α))
    (c : Inherited α) (here : SubtreeStats α) :
    walk_children_fl rnd log10 (t :: ts) c.tx_dbm c.my_rxmin c.new_loss c.new_dist c.new_down here =
      walk_children_fl rnd log10 ts c.tx_dbm c.my_rxmin c.new_loss c.new_dist c.new_down
        (stats_merge_fl rnd here
          (walk_and_compute_fl rnd log10 t c.tx_dbm c.my_rxmin c.new_loss c.new_dist c.new_down)) := by
  rw [walk_children_fl]

/-- The loop over the children folds the merge of the machine over the
statistics of the children. -/
theorem walk_children_fl_fold (rnd log10 : α → α) (c : Inherited α) :
    ∀ (ts : List (Node α)) (here : SubtreeStats α),
    walk_children_fl rnd log10 ts c.tx_dbm c.my_rxmin c.new_loss c.new_dist c.new_down here =
      (ts.map (fun t =>
        walk_and_compute_fl rnd log10 t c.tx_dbm c.my_rxmin c.new_loss c.new_dist c.new_down)).foldl
        (stats_merge_fl rnd) here := by
  intro ts
  induction ts with
  | nil => intro here; rw [walk_children_fl_nil]; rfl
  | cons t ts ih =>
    intro here
    rw [walk_children_fl_cons, ih]
    rfl

mutual
/-- With exact arithmetic the statistics are the ones of `walk_and_compute`. -/
theorem walk_fl_id (log10 : α → α) (cap : Nat) : ∀ (t : Node α) (c : Inherited α) (st : SimState α),
    walk_and_compute_fl id log10 t c.tx_dbm c.my_rxmin c.new_loss c.new_dist c.new_down =
      (walk_and_compute log10 cap t c.tx_dbm c.my_rxmin c.new_loss c.new_dist c.new_down st).1
  | .mk n cs, c, st => by
    by_cases h : n.type = NodeType.NODE_ONT
    · rw [walk_ont log10 cap n cs c st h, walk_fl_ont id log10 n cs c h]
      rfl
    · rw [walk_inner log10 cap n cs c st h, walk_fl_inner id log10 n cs c h]
      exact walk_children_fl_id log10 cap cs (c.enter log10 n) stats_init _
theorem walk_children_fl_id (log10 : α → α) (cap : Nat) :
    ∀ (ts : List (Node α)) (c : Inherited α) (here : SubtreeStats α) (st : SimState α),
    walk_children_fl id log10 ts c.tx_dbm c.my_rxmin c.new_loss c.new_dist c.new_down here =
      (walk_children log10 cap ts c.tx_dbm c.my_rxmin c.new_loss c.new_dist c.new_down here st).1
  | [], c, here, st => by
    rw [walk_children_nil, walk_children_fl_nil]
  | t :: ts, c, here, st => by
    rw [walk_children_cons, walk_children_fl_cons, walk_fl_id log10 cap t c st, stats_merge_fl_id]
    exact walk_children_fl_id log10 cap ts c _ _
end

/-- The merge respects agreement except in the sums, whatever the roundings. -/
theorem agree_merge (rnd rnd2 : α → α) {a a2 b b2 : SubtreeStats α} (ha : agree_except_sums a a2)
    (hb : agree_except_sums b b2) :
    agree_except_sums (stats_merge_fl rnd a b) (stats_merge_fl rnd2 a2 b2) := by
  obtain ⟨a1, a2', a3, a4, a5, a6⟩ := ha
  obtain ⟨b1, b2', b3, b4, b5, b6⟩ := hb
  simp only [agree_except_sums, stats_merge_fl, a1, a2', a3, a4, a5, a6, b1, b2', b3, b4, b5, b6,
    and_self]

theorem agree_foldl (rnd rnd2 : α → α) {l l2 : List (SubtreeStats α)}
    (h : List.Forall₂ agree_except_sums l l2) : ∀ {a a2 : SubtreeStats α}, agree_except_sums a a2 →
      agree_except_sums (l.foldl (stats_merge_fl rnd) a) (l2.foldl (stats_merge_fl rnd2) a2) := by
  induction h with
  | nil => intro a a2 ha; exact ha
  | cons hx _ ih => intro a a2 ha; exact ih (agree_merge rnd rnd2 ha hx)

theorem agree_foldl_exact (rnd : α → α) (l : List (SubtreeStats α)) (a : SubtreeStats α) :
    agree_except_sums (l.foldl (stats_merge_fl rnd) a) (l.foldl stats_merge a) :=
  agree_foldl rnd id (List.forall₂_same.2 (fun x _ => agree_refl x)) (agree_refl a)

mutual
/-- Except in the sums, the statistics computed with the arithmetic of the
machine are the exact merge of the single-count statistics of the visited
terminals. -/
theorem walk_fl_stats (rnd log10 : α → α) : ∀ (t : Node α) (c : Inherited α),
    agree_except_sums
      (walk_and_compute_fl rnd log10 t c.tx_dbm c.my_rxmin c.new_loss c.new_dist c.new_down)
      (if t.fields.type = NodeType.NODE_ONT then leaf_stats_fl rnd (c.enter_fl rnd log10 t.fields)
       else ((visited_paths t).map (fun p => leaf_stats_fl rnd (c.along_fl rnd log10 p))).foldl
         stats_merge stats_init)
  | .mk n cs, c => by
    by_cases h : n.type = NodeType.NODE_ONT
    · rw [walk_fl_ont rnd log10 n cs c h]
      simp only [Node.fields, h, if_true]
      exact agree_refl _
    · rw [walk_fl_inner rnd log10 n cs c h]
      simp only [Node.fields, h, if_false]
      have hc := walk_children_fl_stats rnd log10 cs (c.enter_fl rnd log10 n) stats_init stats_init
        (agree_refl _) (by simp [stats_init]) (by simp [stats_init])
      rw [visited_paths_inner n cs h, List.map_map]
      exact hc
theorem walk_children_fl_stats (rnd log10 : α → α) :
    ∀ (ts : List (Node α)) (c : Inherited α) (here here2 : SubtreeStats α),
    agree_except_sums here here2 → -1000000000 ≤ here2.best_rx → here2.worst_rx ≤ 1000000000 →
    agree_except_sums
      (walk_children_fl rnd log10 ts c.tx_dbm c.my_rxmin c.new_loss c.new_dist c.new_down here)
      (((visited_paths.visited_paths_children ts).map
        (fun p => leaf_stats_fl rnd (c.along_fl rnd log10 p))).foldl stats_merge here2)
  | [], c, here, here2, ha, _, _ => by
    rw [walk_children_fl_nil]
    simpa [visited_paths.visited_paths_children] using ha
  | t :: ts, c, here, here2, ha, h1, h2 => by
    rw [walk_children_fl_cons]
    simp only [visited_paths.visited_paths_children, List.map_append, List.foldl_append]
    have ht := walk_fl_stats rnd log10 t c
    have hstep : agree_except_sums
        (stats_merge_fl rnd here
          (walk_and_compute_fl rnd log10 t c.tx_dbm c.my_rxmin c.new_loss c.new_dist c.new_down))
        (((visited_paths t).map (fun p => leaf_stats_fl rnd (c.along_fl rnd log10 p))).foldl
          stats_merge here2) := by
      cases t with
      | mk n cs =>
        by_cases h : n.type = NodeType.NODE_ONT
        · simp only [Node.fields, h, if_true] at ht
          rw [visited_paths_ont n cs h]
          simp only [List.map_cons, List.map_nil, List.foldl_cons, List.foldl_nil]
          exact agree_merge rnd id ha ht
        · simp only [Node.fields, h, if_false] at ht
          rw [← stats_merge_foldl_init _ here2 h1 h2]
          exact agree_merge rnd id ha ht
    exact walk_children_fl_stats rnd log10 ts c _ _ hstep
      (le_trans h1 (foldl_stats_merge_best_ge _ _)) (le_trans (foldl_stats_merge_worst_le _ _) h2)
end

/-- Reordering the children of nodes changes the statistics computed with the
arithmetic of the machine at most in the two sums. -/
theorem walk_fl_reorder (rnd log10 : α → α) {t t2 : Node α} (h : Reorder t t2) :
    ∀ c : Inherited α, agree_except_sums
      (walk_and_compute_fl rnd log10 t c.tx_dbm c.my_rxmin c.new_loss c.new_dist c.new_down)
      (walk_and_compute_fl rnd log10 t2 c.tx_dbm c.my_rxmin c.new_loss c.new_dist c.new_down) := by
  induction h with
  | same t => intro c; exact agree_refl _
  | perm n cs cs2 hp =>
    intro c
    by_cases h : n.type = NodeType.NODE_ONT
    · rw [walk_fl_ont rnd log10 n cs c h, walk_fl_ont rnd log10 n cs2 c h]
      exact agree_refl _
    · rw [walk_fl_inner rnd log10 n cs c h, walk_fl_inner rnd log10 n cs2 c h,
        walk_children_fl_fold, walk_children_fl_fold]
      refine agree_trans (agree_foldl_exact rnd _ _) (agree_trans ?_ (agree_symm (agree_foldl_exact rnd _ _)))
      rw [List.Perm.foldl_eq' (hp.map _) (fun x _ y _ z => stats_merge_right_comm z x y) _]
      exact agree_refl _
  | child n before a a2 after _ ih =>
    intro c
    by_cases h : n.type = NodeType.NODE_ONT
    · rw [walk_fl_ont rnd log10 n _ c h, walk_fl_ont rnd log10 n _ c h]
      exact agree_refl _
    · rw [walk_fl_inner rnd log10 n _ c h, walk_fl_inner rnd log10 n _ c h,
        walk_children_fl_fold, walk_children_fl_fold]
      refine agree_foldl rnd rnd ?_ (agree_refl _)
      simp only [List.map_append, List.map_cons]
      refine List.rel_append (List.forall₂_same.2 (fun x _ => agree_refl x)) ?_
      exact List.Forall₂.cons (ih _) (List.forall₂_same.2 (fun x _ => agree_refl x))
  | trans t₁ t₂ t₃ _ _ ih₁ ih₂ =>
    intro c
    exact agree_trans (ih₁ c) (ih₂ c)

theorem along_fl_append (rnd log10 : α → α) (c : Inherited α) (p q : List (Node α)) :
    c.along_fl rnd log10 (p ++ q) = (c.along_fl rnd log10 p).along_fl rnd log10 q := by
  simp [Inherited.along_fl, List.foldl_append]

/-- The single-count statistics of a visited terminal are what the call on the
terminal returns, made with the values inherited along the path down to its
parent. -/
theorem walk_fl_at_terminal (rnd log10 : α → α) (root : Node α) (c : Inherited α)
    (p : List (Node α)) (hp : p ∈ visited_paths root) :
    ∃ e, p.getLast? = some e ∧ e.fields.type = NodeType.NODE_ONT ∧
      walk_and_compute_fl rnd log10 e (c.along_fl rnd log10 p.dropLast).tx_dbm
          (c.along_fl rnd log10 p.dropLast).my_rxmin (c.along_fl rnd log10 p.dropLast).new_loss
          (c.along_fl rnd log10 p.dropLast).new_dist (c.along_fl rnd log10 p.dropLast).new_down =
        leaf_stats_fl rnd (c.along_fl rnd log10 p) := by
  obtain ⟨_, ⟨e, he, het⟩, _⟩ := visited_paths_sound root p hp
  refine ⟨e, he, het, ?_⟩
  have hne : p ≠ [] := by rintro rfl; simp at he
  have hpe : p = p.dropLast ++ [e] := by
    rw [List.getLast?_eq_getLast _ hne, Option.some.injEq] at he
    rw [← he, List.dropLast_append_getLast hne]
  cases e with
  | mk n cs =>
    have hlast : c.along_fl rnd log10 p = (c.along_fl rnd log10 p.dropLast).enter_fl rnd log10 n := by
      conv_lhs => rw [hpe]
      rw [along_fl_append]
      rfl
    rw [walk_fl_ont rnd log10 n cs _ het, hlast]

end Rounding

/-! ## Runs on concrete trees -/

section Runs

theorem logb_ten_eight_lt_one : Real.logb 10 8 < 1 := by
  have h : Real.logb 10 8 < Real.logb 10 10 :=
    Real.logb_lt_logb (by norm_num) (by norm_num) (by norm_num)
  rwa [Real.logb_self_eq_one (by norm_num)] at h

theorem scenario_faulty_splitter_rows :
    (main_walk (Real.logb 10) (tree_faulty_splitter : Node ℝ)).2.ont_csv =
      [{ ont_id := 1, total_dist_km := 3,
         total_loss_db := 2 * (35 / 100) + 50 / 100 + (10 * Real.logb 10 8 + 1) + 5 + (35 / 100 + 50 / 100 + 10 / 100),
         rx_dbm := 3 - (2 * (35 / 100) + 50 / 100 + (10 * Real.logb 10 8 + 1) + 5 + (35 / 100 + 50 / 100 + 10 / 100)),
         margin_db := 3 - (2 * (35 / 100) + 50 / 100 + (10 * Real.logb 10 8 + 1) + 5 + (35 / 100 + 50 / 100 + 10 / 100)) - (-27),
         status := "DOWN", path := "OLT/S(1:8)/ONT#1".toList }] := by
  simp [main_walk, tree_faulty_splitter, walk_and_compute, walk_children, node_new, state_init,
      node_link_loss_db, Node.fields, node_part, path_append, splitter_loss_db,
      ATTEN_DB_PER_KM, CONN_LOSS_DB, SPLICE_LOSS_DB, SPLITTER_INS_DB]
  exact ⟨by norm_num, by decide⟩

theorem two_splitters_rows :
    (walk_and_compute (fun _ => 0) 512 tree_two_splitters 3 (-27) 0 0 0 state_init).2.ont_csv =
      [{ ont_id := 1, total_dist_km := 3, total_loss_db := 205 / 100, rx_dbm := 95 / 100,
         margin_db := 2795 / 100, status := "OK", path := "OLT/A(1:8)/ONT#1".toList },
       { ont_id := 2, total_dist_km := 4, total_loss_db := 240 / 100, rx_dbm := 60 / 100,
         margin_db := 2760 / 100, status := "OK", path := "OLT/B(1:4)/ONT#2".toList }] := by
  decide!

/-- The real base-10 logarithm of 8 lies between 0.903 and 0.904. -/
theorem logb_ten_eight_bounds : (903 / 1000 : ℝ) < Real.logb 10 8 ∧ Real.logb 10 8 < 904 / 1000 := by
  have h10 : 0 < Real.log 10 := Real.log_pos (by norm_num)
  have h1 : (903 : ℝ) * Real.log 10 < 1000 * Real.log 8 := by
    have h := Real.log_lt_log (by positivity : (0 : ℝ) < 10 ^ 903)
      (by norm_num : (10 : ℝ) ^ 903 < 8 ^ 1000)
    rw [Real.log_pow, Real.log_pow] at h
    norm_num at h
    exact h
  have h2 : (1000 : ℝ) * Real.log 8 < 904 * Real.log 10 := by
    have h := Real.log_lt_log (by positivity : (0 : ℝ) < 8 ^ 1000)
      (by norm_num : (8 : ℝ) ^ 1000 < 10 ^ 904)
    rw [Real.log_pow, Real.log_pow] at h
    norm_num at h
    exact h
  unfold Real.logb
  constructor
  · rw [lt_div_iff₀ h10]; linarith
  · rw [div_lt_iff₀ h10]; linarith

/-- The real base-10 logarithm of 8 lies between 1929/2136 and 438/485, that is
between 0.9030898 and 0.9030928. -/
theorem logb_ten_eight_tight :
    (1929 / 2136 : ℝ) < Real.logb 10 8 ∧ Real.logb 10 8 < 438 / 485 := by
  have h10 : 0 < Real.log 10 := Real.log_pos (by norm_num)
  have h1 : (1929 : ℝ) * Real.log 10 < 2136 * Real.log 8 := by
    have h := Real.log_lt_log (by positivity : (0 : ℝ) < 10 ^ 1929)
      (by norm_num : (10 : ℝ) ^ 1929 < 8 ^ 2136)
    rw [Real.log_pow, Real.log_pow] at h
    norm_num at h
    exact h
  have h2 : (485 : ℝ) * Real.log 8 < 438 * Real.log 10 := by
    have h := Real.log_lt_log (by positivity : (0 : ℝ) < 8 ^ 485)
      (by norm_num : (8 : ℝ) ^ 485 < 10 ^ 438)
    rw [Real.log_pow, Real.log_pow] at h
    norm_num at h
    exact h
  unfold Real.logb
  constructor
  · rw [lt_div_iff₀ h10]; linarith
  · rw [div_lt_iff₀ h10]; linarith

theorem scenario_rows :
    (main_walk (Real.logb 10) (tree_scenario : Node ℝ)).2.ont_csv =
      [{ ont_id := 1, total_dist_km := 3,
         total_loss_db := 2 * (35 / 100) + 50 / 100 + (10 * Real.logb 10 8 + 1) + (35 / 100 + 50 / 100 + 10 / 100),
         rx_dbm := 3 - (2 * (35 / 100) + 50 / 100 + (10 * Real.logb 10 8 + 1) + (35 / 100 + 50 / 100 + 10 / 100)),
         margin_db := 3 - (2 * (35 / 100) + 50 / 100 + (10 * Real.logb 10 8 + 1) + (35 / 100 + 50 / 100 + 10 / 100)) - (-27),
         status := "OK", path := "OLT/S(1:8)/ONT#1".toList }] := by
  have hb := logb_ten_eight_lt_one
  have hle : (2 : ℝ) * (35 / 100) + 50 / 100 + (10 * Real.logb 10 8 + 1) + (35 / 100 + 50 / 100 + 10 / 100)
      ≤ 3 + 27 := by linarith
  simp [main_walk, tree_scenario, walk_and_compute, walk_children, node_new, state_init,
      node_link_loss_db, Node.fields, node_part, path_append, splitter_loss_db,
      ATTEN_DB_PER_KM, CONN_LOSS_DB, SPLICE_LOSS_DB, SPLITTER_INS_DB]
  exact ⟨by norm_num, hle, by decide⟩

/-- The real base-10 logarithm is not negative on the ratios above 1. -/
theorem real_log10_nonneg : ∀ r : Int, 1 < r → 0 ≤ Real.logb 10 (r : ℝ) := by
  intro r hr
  apply Real.logb_nonneg (by norm_num)
  have : (1 : ℝ) < (r : ℝ) := by exact_mod_cast hr
  exact this.le

end Runs

/-! ## Claims -/

section Claims

variable {α : Type} [LinearOrderedField α]

/-- C1: for every tree and every terminal visited by `walk_and_compute` started
at the root with accumulated loss 0 and distance 0 (in particular for a
head-end root with no head-end below it), the total loss written for the
terminal is the sum of `node_link_loss_db` over the nodes of its
root-to-terminal path that are not head-ends, the terminal included, and the
total distance written is the sum of `len_km` over the same nodes.  The lines
written by the call are paired with the visited paths in visiting order. -/
theorem c1_loss_and_distance_are_path_sums (log10 : α → α) (path_cap : Nat) (root : Node α)
    (parent_tx_dbm rxmin_dbm : α) (down_flag : Int) (st : SimState α) :
    List.Forall₂
      (fun (r : OntCsvRow α) (p : List (Node α)) =>
        r.total_loss_db =
            ((p.filter (fun n => n.fields.type ≠ NodeType.NODE_OLT)).map
              (fun n => node_link_loss_db log10 n.fields)).sum ∧
          r.total_dist_km =
            ((p.filter (fun n => n.fields.type ≠ NodeType.NODE_OLT)).map (fun n => n.fields.len_km)).sum)
      ((walk_and_compute log10 path_cap root parent_tx_dbm rxmin_dbm 0 0 down_flag st).2.ont_csv.drop
        st.ont_csv.length)
      (visited_paths root) := by
  have h := walk_rows_drop log10 path_cap root ⟨parent_tx_dbm, rxmin_dbm, 0, 0, down_flag⟩ st
  refine h.imp ?_
  rintro r p ⟨e, s, _, rfl⟩
  constructor
  · simp [leaf_row, along_new_loss]
  · simp [leaf_row, along_new_dist]

/-- C2 (counterexample): with a second head-end between the root and the
terminal, the receive power written for the terminal is 5 - 0 = 5 dBm and the
margin 5 - (-20) = 25 dB, not the 3 dBm and 30 dB that the transmit power and
threshold of the root head-end give. -/
theorem c2_counterexample_nested_head_end :
    tree_nested_head_end.fields.type = NodeType.NODE_OLT ∧
    (main_walk (fun _ => 0) tree_nested_head_end).2.ont_csv.map
        (fun r => (r.rx_dbm, r.total_loss_db, r.margin_db)) = [(5, 0, 25)] ∧
    ¬ (∀ r ∈ (main_walk (fun _ => 0) tree_nested_head_end).2.ont_csv,
        r.rx_dbm = tree_nested_head_end.fields.olt_tx_dbm - r.total_loss_db ∧
        r.margin_db = r.rx_dbm - tree_nested_head_end.fields.gpon_rxmin_dbm) := by
  have h : (main_walk (fun _ => 0) tree_nested_head_end).2.ont_csv =
      [{ ont_id := 1, total_dist_km := 0, total_loss_db := 0, rx_dbm := 5, margin_db := 25,
         status := "OK", path := "OLT/OLT/ONT#1".toList }] := by
    simp [main_walk, tree_nested_head_end, walk_and_compute, walk_children, node_new, state_init,
      node_link_loss_db, Node.fields, node_part, path_append]
    norm_num
    decide
  rw [h]
  refine ⟨rfl, rfl, ?_⟩
  intro H
  have h5 := (H _ (List.mem_singleton.2 rfl)).1
  norm_num [tree_nested_head_end, Node.fields, node_new] at h5

/-- C2 (amended): for every tree whose root is a head-end and every terminal
visited by `walk_and_compute` from the root, the receive power written is
exactly the transmit power minus the accumulated loss, and the margin exactly
the receive power minus the threshold, where transmit power and threshold are
`olt_tx_dbm` and `gpon_rxmin_dbm` of the last head-end on the root-to-terminal
path (the root when no head-end lies below it) and the accumulated loss is the
loss at the start plus the link losses of the nodes of the path that are not
head-ends, the terminal included. -/
theorem c2_rx_and_margin_from_nearest_head_end (log10 : α → α) (path_cap : Nat) (root : Node α)
    (parent_tx_dbm rxmin_dbm acc_loss_db acc_dist_km : α) (down_flag : Int) (st : SimState α)
    (hroot : root.fields.type = NodeType.NODE_OLT) :
    List.Forall₂
      (fun (r : OntCsvRow α) (p : List (Node α)) =>
        ∃ h, nearest_head_end p = some h ∧
          r.rx_dbm = h.fields.olt_tx_dbm - r.total_loss_db ∧
          r.margin_db = r.rx_dbm - h.fields.gpon_rxmin_dbm ∧
          r.total_loss_db = acc_loss_db +
            ((p.filter (fun n => n.fields.type ≠ NodeType.NODE_OLT)).map
              (fun n => node_link_loss_db log10 n.fields)).sum)
      ((walk_and_compute log10 path_cap root parent_tx_dbm rxmin_dbm acc_loss_db acc_dist_km down_flag
        st).2.ont_csv.drop st.ont_csv.length)
      (visited_paths root) := by
  have h := walk_rows_drop log10 path_cap root
    ⟨parent_tx_dbm, rxmin_dbm, acc_loss_db, acc_dist_km, down_flag⟩ st
  refine (forall₂_and_mem_right h (visited_paths_head root)).imp ?_
  rintro r p ⟨⟨e, s, _, rfl⟩, q, rfl⟩
  obtain ⟨h, hh⟩ := nearest_head_end_of_head root q hroot
  refine ⟨h, hh, ?_, ?_, ?_⟩
  · simp [leaf_row, along_tx_dbm, hh]
  · simp [leaf_row, along_tx_dbm, along_my_rxmin, hh]
  · simp [leaf_row, along_new_loss]

/-- C2 (witness): the amended statement at the tree with a nested head-end. -/
theorem c2_rx_and_margin_from_nearest_head_end_witness :
    tree_nested_head_end.fields.type = NodeType.NODE_OLT ∧
    List.Forall₂
      (fun (r : OntCsvRow ℚ) (p : List (Node ℚ)) =>
        ∃ h, nearest_head_end p = some h ∧
          r.rx_dbm = h.fields.olt_tx_dbm - r.total_loss_db ∧
          r.margin_db = r.rx_dbm - h.fields.gpon_rxmin_dbm ∧
          r.total_loss_db = 0 +
            ((p.filter (fun n => n.fields.type ≠ NodeType.NODE_OLT)).map
              (fun n => node_link_loss_db (fun _ => 0) n.fields)).sum)
      ((walk_and_compute (fun _ => 0) 512 tree_nested_head_end 3 (-27) 0 0 0
        state_init).2.ont_csv.drop (state_init : SimState ℚ).ont_csv.length)
      (visited_paths tree_nested_head_end) :=
  ⟨rfl, c2_rx_and_margin_from_nearest_head_end (fun _ => 0) 512 tree_nested_head_end 3 (-27) 0 0 0
    state_init rfl⟩

/-- C3 (counterexample): a head-end with the fault flag set lies on the path of
the terminal, yet the terminal is written with status OK and counted in
`ok_count`, not in `down_count`. -/
theorem c3_counterexample_faulty_head_end :
    tree_faulty_head_end.fields.faulty ≠ 0 ∧
    (main_walk (fun _ => 0) tree_faulty_head_end).2.ont_csv =
      [{ ont_id := 1, total_dist_km := 0, total_loss_db := 0, rx_dbm := 3, margin_db := 30,
         status := "OK", path := "OLT/ONT#1".toList }] ∧
    (main_walk (fun _ => 0) tree_faulty_head_end).1.down_count = 0 ∧
    (main_walk (fun _ => 0) tree_faulty_head_end).1.ok_count = 1 := by
  refine ⟨by decide, ?_, ?_, ?_⟩
  · simp [main_walk, tree_faulty_head_end, walk_and_compute, walk_children, node_new, state_init,
      node_link_loss_db, Node.fields, node_part, path_append]
    norm_num
    decide
  · simp [main_walk, tree_faulty_head_end, walk_and_compute, walk_children, node_new, state_init,
      node_link_loss_db, Node.fields, stats_merge, stats_init]
    norm_num
  · simp [main_walk, tree_faulty_head_end, walk_and_compute, walk_children, node_new, state_init,
      node_link_loss_db, Node.fields, stats_merge, stats_init]
    norm_num

/-- C3 (amended): for every tree and every terminal the traversal visits, if a
node of its root-to-terminal path that is not a head-end (an ancestor, or the
terminal itself) has the fault flag set, the status written for the terminal
is DOWN, whatever its margin; and the counters returned by the call count the
written lines by status, so that a DOWN terminal is counted in `down_count`
and not in `ok_count` or `fail_count`.  In the scenario head-end (3 dBm,
-27 dBm), faulty splitter (ratio 8, 2 km, 1 connector, 5 dB extra), terminal
(1 km, 1 connector, 1 splice), with the real base-10 logarithm, the terminal is
DOWN with a positive margin and is the one terminal in `down_count`. -/
theorem c3_faulty_path_is_down :
    (∀ (α : Type) [LinearOrderedField α] (log10 : α → α) (path_cap : Nat) (root : Node α)
        (parent_tx_dbm rxmin_dbm acc_loss_db acc_dist_km : α) (down_flag : Int) (st : SimState α),
      List.Forall₂
        (fun (r : OntCsvRow α) (p : List (Node α)) =>
          (∃ n ∈ p, n.fields.type ≠ NodeType.NODE_OLT ∧ n.fields.faulty ≠ 0) → r.status = "DOWN")
        ((walk_and_compute log10 path_cap root parent_tx_dbm rxmin_dbm acc_loss_db acc_dist_km down_flag
          st).2.ont_csv.drop st.ont_csv.length)
        (visited_paths root) ∧
      (walk_and_compute log10 path_cap root parent_tx_dbm rxmin_dbm acc_loss_db acc_dist_km down_flag
          st).1.down_count =
        ((((walk_and_compute log10 path_cap root parent_tx_dbm rxmin_dbm acc_loss_db acc_dist_km down_flag
          st).2.ont_csv.drop st.ont_csv.length).filter (fun r => r.status = "DOWN")).length : Int) ∧
      (walk_and_compute log10 path_cap root parent_tx_dbm rxmin_dbm acc_loss_db acc_dist_km down_flag
          st).1.ok_count =
        ((((walk_and_compute log10 path_cap root parent_tx_dbm rxmin_dbm acc_loss_db acc_dist_km down_flag
          st).2.ont_csv.drop st.ont_csv.length).filter (fun r => r.status = "OK")).length : Int) ∧
      (walk_and_compute log10 path_cap root parent_tx_dbm rxmin_dbm acc_loss_db acc_dist_km down_flag
          st).1.fail_count =
        ((((walk_and_compute log10 path_cap root parent_tx_dbm rxmin_dbm acc_loss_db acc_dist_km down_flag
          st).2.ont_csv.drop st.ont_csv.length).filter (fun r => r.status = "FAIL")).length : Int)) ∧
    ((main_walk (Real.logb 10) (tree_faulty_splitter : Node ℝ)).2.ont_csv.map (fun r => r.status)
        = ["DOWN"] ∧
      (∀ r ∈ (main_walk (Real.logb 10) (tree_faulty_splitter : Node ℝ)).2.ont_csv, 0 < r.margin_db) ∧
      (main_walk (Real.logb 10) (tree_faulty_splitter : Node ℝ)).1.down_count = 1 ∧
      (main_walk (Real.logb 10) (tree_faulty_splitter : Node ℝ)).1.ok_count = 0 ∧
      (main_walk (Real.logb 10) (tree_faulty_splitter : Node ℝ)).1.fail_count = 0) := by
  constructor
  · intro α _ log10 path_cap root parent_tx_dbm rxmin_dbm acc_loss_db acc_dist_km down_flag st
    have hc := walk_counts_by_status log10 path_cap root
      ⟨parent_tx_dbm, rxmin_dbm, acc_loss_db, acc_dist_km, down_flag⟩ st
    refine ⟨?_, hc.2.2.2, hc.2.1, hc.2.2.1⟩
    have h := walk_rows_drop log10 path_cap root
      ⟨parent_tx_dbm, rxmin_dbm, acc_loss_db, acc_dist_km, down_flag⟩ st
    refine h.imp ?_
    rintro r p ⟨e, s, _, rfl⟩ hf
    simp [leaf_row, along_new_down_of_faulty log10 p _ hf]
  · have hc := walk_counts_by_status (Real.logb 10) 512 (tree_faulty_splitter : Node ℝ)
      ⟨(tree_faulty_splitter : Node ℝ).fields.olt_tx_dbm,
        (tree_faulty_splitter : Node ℝ).fields.gpon_rxmin_dbm, 0, 0, 0⟩ state_init
    have hrows := scenario_faulty_splitter_rows
    simp only [main_walk] at hrows ⊢
    simp only [hrows] at hc
    rw [hrows]
    refine ⟨rfl, ?_, ?_, ?_, ?_⟩
    · intro r hr
      rw [List.mem_singleton] at hr
      subst hr
      have := logb_ten_eight_lt_one
      show (0 : ℝ) < 3 - (2 * (35 / 100) + 50 / 100 + (10 * Real.logb 10 8 + 1) + 5
        + (35 / 100 + 50 / 100 + 10 / 100)) - (-27)
      linarith
    · rw [hc.2.2.2]; simp [state_init]
    · rw [hc.2.1]; simp [state_init]
    · rw [hc.2.2.1]; simp [state_init]

/-- C3 (witness): the general part of the amended statement at the scenario
with the faulty splitter, whose only root-to-terminal path holds a faulty node
that is not a head-end. -/
theorem c3_faulty_path_is_down_witness :
    (∀ p ∈ visited_paths (tree_faulty_splitter : Node ℚ),
      ∃ n ∈ p, n.fields.type ≠ NodeType.NODE_OLT ∧ n.fields.faulty ≠ 0) ∧
    List.Forall₂
      (fun (r : OntCsvRow ℚ) (p : List (Node ℚ)) =>
        (∃ n ∈ p, n.fields.type ≠ NodeType.NODE_OLT ∧ n.fields.faulty ≠ 0) → r.status = "DOWN")
      ((walk_and_compute (fun _ => 0) 512 (tree_faulty_splitter : Node ℚ) 3 (-27) 0 0 0
        state_init).2.ont_csv.drop (state_init : SimState ℚ).ont_csv.length)
      (visited_paths (tree_faulty_splitter : Node ℚ)) :=
  ⟨by decide!,
    (c3_faulty_path_is_down.1 ℚ (fun _ => 0) 512 tree_faulty_splitter 3 (-27) 0 0 0 state_init).1⟩

/-- C4: for every tree and every terminal the traversal visits, when no node of
the root-to-terminal path (ancestor or the terminal itself) has the fault flag
set and the traversal starts with the down flag clear, the status written is OK
if and only if the receive power is at least the threshold (that of the last
head-end on the path, or the one passed to the call when the path has none),
and FAIL otherwise, never DOWN; and the counters returned by the call count the
written lines by status, so that the terminal is counted in `ok_count` in the
first case and in `fail_count` in the second, never in `down_count`. -/
theorem c4_clear_path_is_ok_or_fail (log10 : α → α) (path_cap : Nat) (root : Node α)
    (parent_tx_dbm rxmin_dbm acc_loss_db acc_dist_km : α) (st : SimState α) :
    List.Forall₂
      (fun (r : OntCsvRow α) (p : List (Node α)) =>
        (∀ n ∈ p, n.fields.faulty = 0) →
          (r.status = "OK" ↔
            r.rx_dbm ≥ ((nearest_head_end p).map (fun h => h.fields.gpon_rxmin_dbm)).getD rxmin_dbm) ∧
          (r.status = "FAIL" ↔
            ¬ r.rx_dbm ≥ ((nearest_head_end p).map (fun h => h.fields.gpon_rxmin_dbm)).getD rxmin_dbm) ∧
          r.status ≠ "DOWN")
      ((walk_and_compute log10 path_cap root parent_tx_dbm rxmin_dbm acc_loss_db acc_dist_km 0
        st).2.ont_csv.drop st.ont_csv.length)
      (visited_paths root) ∧
    (walk_and_compute log10 path_cap root parent_tx_dbm rxmin_dbm acc_loss_db acc_dist_km 0
        st).1.ok_count =
      ((((walk_and_compute log10 path_cap root parent_tx_dbm rxmin_dbm acc_loss_db acc_dist_km 0
        st).2.ont_csv.drop st.ont_csv.length).filter (fun r => r.status = "OK")).length : Int) ∧
    (walk_and_compute log10 path_cap root parent_tx_dbm rxmin_dbm acc_loss_db acc_dist_km 0
        st).1.fail_count =
      ((((walk_and_compute log10 path_cap root parent_tx_dbm rxmin_dbm acc_loss_db acc_dist_km 0
        st).2.ont_csv.drop st.ont_csv.length).filter (fun r => r.status = "FAIL")).length : Int) ∧
    (walk_and_compute log10 path_cap root parent_tx_dbm rxmin_dbm acc_loss_db acc_dist_km 0
        st).1.down_count =
      ((((walk_and_compute log10 path_cap root parent_tx_dbm rxmin_dbm acc_loss_db acc_dist_km 0
        st).2.ont_csv.drop st.ont_csv.length).filter (fun r => r.status = "DOWN")).length : Int) := by
  have hc := walk_counts_by_status log10 path_cap root
    ⟨parent_tx_dbm, rxmin_dbm, acc_loss_db, acc_dist_km, 0⟩ st
  refine ⟨?_, hc.2.1, hc.2.2.1, hc.2.2.2⟩
  have h := walk_rows_drop log10 path_cap root
    ⟨parent_tx_dbm, rxmin_dbm, acc_loss_db, acc_dist_km, 0⟩ st
  refine h.imp ?_
  rintro r p ⟨e, s, _, rfl⟩ hf
  have hd : (Inherited.along log10 ⟨parent_tx_dbm, rxmin_dbm, acc_loss_db, acc_dist_km, 0⟩ p).new_down
      = 0 := along_new_down_of_clear log10 p _ rfl (fun n hn => Or.inr (hf n hn))
  have hm := along_my_rxmin log10 p ⟨parent_tx_dbm, rxmin_dbm, acc_loss_db, acc_dist_km, 0⟩
  simp only at hm
  rw [← hm]
  by_cases hr : (Inherited.along log10 ⟨parent_tx_dbm, rxmin_dbm, acc_loss_db, acc_dist_km, 0⟩ p).my_rxmin
      ≤ (Inherited.along log10 ⟨parent_tx_dbm, rxmin_dbm, acc_loss_db, acc_dist_km, 0⟩ p).tx_dbm
        - (Inherited.along log10 ⟨parent_tx_dbm, rxmin_dbm, acc_loss_db, acc_dist_km, 0⟩ p).new_loss
  · simp [leaf_row, hd, hr]
  · simp [leaf_row, hd, hr]

/-- C4 (witness): the statement at the tree with two sibling splitters, none of
whose nodes has the fault flag set. -/
theorem c4_clear_path_is_ok_or_fail_witness :
    (∀ p ∈ visited_paths tree_two_splitters, ∀ n ∈ p, n.fields.faulty = 0) ∧
    List.Forall₂
      (fun (r : OntCsvRow ℚ) (p : List (Node ℚ)) =>
        (∀ n ∈ p, n.fields.faulty = 0) →
          (r.status = "OK" ↔
            r.rx_dbm ≥ ((nearest_head_end p).map (fun h => h.fields.gpon_rxmin_dbm)).getD (-27)) ∧
          (r.status = "FAIL" ↔
            ¬ r.rx_dbm ≥ ((nearest_head_end p).map (fun h => h.fields.gpon_rxmin_dbm)).getD (-27)) ∧
          r.status ≠ "DOWN")
      ((walk_and_compute (fun _ => 0) 512 tree_two_splitters 3 (-27) 0 0 0
        state_init).2.ont_csv.drop (state_init : SimState ℚ).ont_csv.length)
      (visited_paths tree_two_splitters) :=
  ⟨by decide!,
    (c4_clear_path_is_ok_or_fail (fun _ => 0) 512 tree_two_splitters 3 (-27) 0 0 state_init).1⟩

/-- C5 (counterexample): with the additions of doubles, the head-end above the
terminals at 1 km, 2 km, 3 km returns `sum_rx` = 6.8999999999999995
(7768709357214105 / 2^50), and with the same terminals in the order 2 km, 3 km,
1 km it returns `sum_rx` = 6.9 (3884354678607053 / 2^49): the statistics are not
the same for every reordering of the children. -/
theorem c5_counterexample_sum_depends_on_order :
    Reorder tree_three_terminals tree_three_terminals_rotated ∧
    (walk_and_compute_fl round_double (fun _ => 0) tree_three_terminals 3 (-27) 0 0 0).sum_rx =
      7768709357214105 / 1125899906842624 ∧
    (walk_and_compute_fl round_double (fun _ => 0) tree_three_terminals_rotated 3 (-27) 0 0 0).sum_rx =
      3884354678607053 / 562949953421312 ∧
    walk_and_compute_fl round_double (fun _ => 0) tree_three_terminals_rotated 3 (-27) 0 0 0 ≠
      walk_and_compute_fl round_double (fun _ => 0) tree_three_terminals 3 (-27) 0 0 0 := by
  refine ⟨?_, by decide!, by decide!, by decide!⟩
  exact Reorder.perm _ _ _
    (@List.perm_append_comm (Node ℚ) [terminal_at_km 1 1] [terminal_at_km 2 2, terminal_at_km 3 3])

/-- C5 (amended): for every tree (a root that is not a terminal) and every
rounding `rnd` of the operations on doubles, the statistics returned by
`walk_and_compute` at the root are the merge, by `stats_merge` from
`stats_init`, of the statistics returned for the children in visiting order,
and at a terminal the single-count statistics of the terminal.  Their counts,
`best_rx` and `worst_rx` are those of the merge of the single-count statistics
of all terminals the traversal visits, and are the same for every tree obtained
by reordering the children of any nodes.  With exact arithmetic (`rnd` the
identity) the whole statistics, the two sums included, are that merge, are the
statistics of the exact model, and are the same for every reordering. -/
theorem c5_whole_network_stats_up_to_rounding (rnd log10 : α → α) (path_cap : Nat) (root : Node α)
    (parent_tx_dbm rxmin_dbm acc_loss_db acc_dist_km : α) (down_flag : Int) (st : SimState α)
    (hroot : root.fields.type ≠ NodeType.NODE_ONT) :
    walk_and_compute_fl rnd log10 root parent_tx_dbm rxmin_dbm acc_loss_db acc_dist_km down_flag =
      (root.children.map (fun t => walk_and_compute_fl rnd log10 t
        ((Inherited.mk parent_tx_dbm rxmin_dbm acc_loss_db acc_dist_km down_flag).enter_fl rnd log10
          root.fields).tx_dbm
        ((Inherited.mk parent_tx_dbm rxmin_dbm acc_loss_db acc_dist_km down_flag).enter_fl rnd log10
          root.fields).my_rxmin
        ((Inherited.mk parent_tx_dbm rxmin_dbm acc_loss_db acc_dist_km down_flag).enter_fl rnd log10
          root.fields).new_loss
        ((Inherited.mk parent_tx_dbm rxmin_dbm acc_loss_db acc_dist_km down_flag).enter_fl rnd log10
          root.fields).new_dist
        ((Inherited.mk parent_tx_dbm rxmin_dbm acc_loss_db acc_dist_km down_flag).enter_fl rnd log10
          root.fields).new_down)).foldl (stats_merge_fl rnd) stats_init ∧
    (∀ p ∈ visited_paths root, ∃ e, p.getLast? = some e ∧ e.fields.type = NodeType.NODE_ONT ∧
      walk_and_compute_fl rnd log10 e
          ((Inherited.mk parent_tx_dbm rxmin_dbm acc_loss_db acc_dist_km down_flag).along_fl rnd log10
            p.dropLast).tx_dbm
          ((Inherited.mk parent_tx_dbm rxmin_dbm acc_loss_db acc_dist_km down_flag).along_fl rnd log10
            p.dropLast).my_rxmin
          ((Inherited.mk parent_tx_dbm rxmin_dbm acc_loss_db acc_dist_km down_flag).along_fl rnd log10
            p.dropLast).new_loss
          ((Inherited.mk parent_tx_dbm rxmin_dbm acc_loss_db acc_dist_km down_flag).along_fl rnd log10
            p.dropLast).new_dist
          ((Inherited.mk parent_tx_dbm rxmin_dbm acc_loss_db acc_dist_km down_flag).along_fl rnd log10
            p.dropLast).new_down =
        leaf_stats_fl rnd
          ((Inherited.mk parent_tx_dbm rxmin_dbm acc_loss_db acc_dist_km down_flag).along_fl rnd log10
            p)) ∧
    agree_except_sums
      (walk_and_compute_fl rnd log10 root parent_tx_dbm rxmin_dbm acc_loss_db acc_dist_km down_flag)
      (((visited_paths root).map (fun p => leaf_stats_fl rnd
        ((Inherited.mk parent_tx_dbm rxmin_dbm acc_loss_db acc_dist_km down_flag).along_fl rnd log10
          p))).foldl stats_merge stats_init) ∧
    (∀ root2 : Node α, Reorder root root2 →
      agree_except_sums
        (walk_and_compute_fl rnd log10 root2 parent_tx_dbm rxmin_dbm acc_loss_db acc_dist_km down_flag)
        (walk_and_compute_fl rnd log10 root parent_tx_dbm rxmin_dbm acc_loss_db acc_dist_km down_flag)) ∧
    ((∀ x, rnd x = x) →
      walk_and_compute_fl rnd log10 root parent_tx_dbm rxmin_dbm acc_loss_db acc_dist_km down_flag =
        ((visited_paths root).map (fun p => leaf_stats_fl rnd
          ((Inherited.mk parent_tx_dbm rxmin_dbm acc_loss_db acc_dist_km down_flag).along_fl rnd log10
            p))).foldl stats_merge stats_init ∧
      walk_and_compute_fl rnd log10 root parent_tx_dbm rxmin_dbm acc_loss_db acc_dist_km down_flag =
        (walk_and_compute log10 path_cap root parent_tx_dbm rxmin_dbm acc_loss_db acc_dist_km down_flag
          st).1 ∧
      ∀ root2 : Node α, Reorder root root2 →
        walk_and_compute_fl rnd log10 root2 parent_tx_dbm rxmin_dbm acc_loss_db acc_dist_km down_flag =
          walk_and_compute_fl rnd log10 root parent_tx_dbm rxmin_dbm acc_loss_db acc_dist_km
            down_flag) := by
  have hs := walk_fl_stats rnd log10 root
    ⟨parent_tx_dbm, rxmin_dbm, acc_loss_db, acc_dist_km, down_flag⟩
  simp only [hroot, if_false] at hs
  refine ⟨?_, ?_, hs, ?_, ?_⟩
  · cases root with
    | mk n cs =>
      rw [walk_fl_inner rnd log10 n cs ⟨parent_tx_dbm, rxmin_dbm, acc_loss_db, acc_dist_km, down_flag⟩
        hroot, walk_children_fl_fold]
      rfl
  · intro p hp
    exact walk_fl_at_terminal rnd log10 root _ p hp
  · intro root2 hre
    exact agree_symm (walk_fl_reorder rnd log10 hre
      ⟨parent_tx_dbm, rxmin_dbm, acc_loss_db, acc_dist_km, down_flag⟩)
  · intro hexact
    have hid : rnd = id := funext hexact
    subst hid
    have hw := walk_fl_id log10 path_cap root
      ⟨parent_tx_dbm, rxmin_dbm, acc_loss_db, acc_dist_km, down_flag⟩
    simp only at hw
    refine ⟨?_, hw st, ?_⟩
    · rw [hw st]
      have h := walk_stats log10 path_cap root
        ⟨parent_tx_dbm, rxmin_dbm, acc_loss_db, acc_dist_km, down_flag⟩ st
      simp only [hroot, if_false] at h
      exact h
    · intro root2 hre
      have hw2 := walk_fl_id log10 path_cap root2
        ⟨parent_tx_dbm, rxmin_dbm, acc_loss_db, acc_dist_km, down_flag⟩ st
      simp only at hw2
      rw [hw st, hw2]
      exact (walk_stats_reorder log10 path_cap hre
        ⟨parent_tx_dbm, rxmin_dbm, acc_loss_db, acc_dist_km, down_flag⟩ st st).symm

/-- C5 (witness): the amended statement at the head-end above the terminals at
1 km, 2 km, 3 km, with the rounding of doubles: the counts, `best_rx` and
`worst_rx` are those of the merge of the three single-count statistics, and the
same with the terminals in the order 2 km, 3 km, 1 km. -/
theorem c5_whole_network_stats_up_to_rounding_witness :
    tree_three_terminals.fields.type ≠ NodeType.NODE_ONT ∧
    agree_except_sums
      (walk_and_compute_fl round_double (fun _ => 0) tree_three_terminals 3 (-27) 0 0 0)
      (((visited_paths tree_three_terminals).map (fun p => leaf_stats_fl round_double
        ((Inherited.mk 3 (-27) 0 0 0).along_fl round_double (fun _ => 0) p))).foldl
          stats_merge stats_init) ∧
    agree_except_sums
      (walk_and_compute_fl round_double (fun _ => 0) tree_three_terminals_rotated 3 (-27) 0 0 0)
      (walk_and_compute_fl round_double (fun _ => 0) tree_three_terminals 3 (-27) 0 0 0) :=
  have h := c5_whole_network_stats_up_to_rounding round_double (fun _ => 0) 512
    tree_three_terminals 3 (-27) 0 0 0 state_init (by decide)
  ⟨by decide, h.2.2.1,
    h.2.2.2.1 tree_three_terminals_rotated (Reorder.perm _ _ _
      (@List.perm_append_comm (Node ℚ) [terminal_at_km 1 1] [terminal_at_km 2 2, terminal_at_km 3 3]))⟩

/-- C6 (counterexample): with the additions of doubles, for three statistics
with the losses 0.1, 0.2 and 0.3 dB, merging the first two and then the third
gives `sum_loss` = 0.6000000000000001 (1351079888211149 / 2^51), merging the
first with the merge of the other two gives 0.6 (5404319552844595 / 2^53):
`stats_merge` is not associative. -/
theorem c6_counterexample_sums_not_associative :
    (stats_merge_fl round_double
      (stats_merge_fl round_double (stats_with_loss (round_double (1 / 10)))
        (stats_with_loss (round_double (2 / 10))))
      (stats_with_loss (round_double (3 / 10)))).sum_loss = 1351079888211149 / 2251799813685248 ∧
    (stats_merge_fl round_double (stats_with_loss (round_double (1 / 10)))
      (stats_merge_fl round_double (stats_with_loss (round_double (2 / 10)))
        (stats_with_loss (round_double (3 / 10))))).sum_loss = 5404319552844595 / 9007199254740992 ∧
    stats_merge_fl round_double
      (stats_merge_fl round_double (stats_with_loss (round_double (1 / 10)))
        (stats_with_loss (round_double (2 / 10))))
      (stats_with_loss (round_double (3 / 10))) ≠
    stats_merge_fl round_double (stats_with_loss (round_double (1 / 10)))
      (stats_merge_fl round_double (stats_with_loss (round_double (2 / 10)))
        (stats_with_loss (round_double (3 / 10)))) := by
  refine ⟨by decide!, by decide!, by decide!⟩

/-- C6 (amended): `stats_merge`, as a binary operation on `SubtreeStats` with the
additions of the machine (`rnd` rounds each sum of doubles), adds the counts,
adds and rounds the sums, takes the maximum of `best_rx` and the minimum of
`worst_rx`.  It is commutative.  It is associative in the counts, `best_rx` and
`worst_rx`, and in the two sums whenever the additions of the two inner merges
are exact; with exact arithmetic it is the associative and commutative
`stats_merge` of the exact model. -/
theorem c6_stats_merge_comm_assoc_up_to_rounding (rnd : α → α) (a b c : SubtreeStats α) :
    stats_merge_fl rnd a b = stats_merge_fl rnd b a ∧
    agree_except_sums (stats_merge_fl rnd (stats_merge_fl rnd a b) c)
      (stats_merge_fl rnd a (stats_merge_fl rnd b c)) ∧
    (rnd (a.sum_rx + b.sum_rx) = a.sum_rx + b.sum_rx →
      rnd (b.sum_rx + c.sum_rx) = b.sum_rx + c.sum_rx →
      rnd (a.sum_loss + b.sum_loss) = a.sum_loss + b.sum_loss →
      rnd (b.sum_loss + c.sum_loss) = b.sum_loss + c.sum_loss →
      stats_merge_fl rnd (stats_merge_fl rnd a b) c = stats_merge_fl rnd a (stats_merge_fl rnd b c)) ∧
    stats_merge_fl rnd a b =
      { ont_count := a.ont_count + b.ont_count,
        ok_count := a.ok_count + b.ok_count,
        fail_count := a.fail_count + b.fail_count,
        down_count := a.down_count + b.down_count,
        sum_rx := rnd (a.sum_rx + b.sum_rx),
        sum_loss := rnd (a.sum_loss + b.sum_loss),
        best_rx := max a.best_rx b.best_rx,
        worst_rx := min a.worst_rx b.worst_rx } ∧
    (stats_merge_fl id a b = stats_merge a b ∧
      stats_merge (stats_merge a b) c = stats_merge a (stats_merge b c)) := by
  have hbest : ∀ x y : SubtreeStats α, (stats_merge_fl rnd x y).best_rx = max x.best_rx y.best_rx :=
    fun x y => stats_merge_best_rx x y
  have hworst : ∀ x y : SubtreeStats α, (stats_merge_fl rnd x y).worst_rx = min x.worst_rx y.worst_rx :=
    fun x y => stats_merge_worst_rx x y
  have hagree : agree_except_sums (stats_merge_fl rnd (stats_merge_fl rnd a b) c)
      (stats_merge_fl rnd a (stats_merge_fl rnd b c)) := by
    have h1 : agree_except_sums (stats_merge_fl rnd (stats_merge_fl rnd a b) c)
        (stats_merge (stats_merge a b) c) :=
      agree_merge rnd id (agree_merge rnd id (agree_refl a) (agree_refl b)) (agree_refl c)
    have h2 : agree_except_sums (stats_merge_fl rnd a (stats_merge_fl rnd b c))
        (stats_merge a (stats_merge b c)) :=
      agree_merge rnd id (agree_refl a) (agree_merge rnd id (agree_refl b) (agree_refl c))
    rw [stats_merge_assoc] at h1
    exact agree_trans h1 (agree_symm h2)
  refine ⟨?_, hagree, ?_, ?_, rfl, stats_merge_assoc a b c⟩
  · apply SubtreeStats.ext_fields
    · simp [stats_merge_fl, add_comm]
    · simp [stats_merge_fl, add_comm]
    · simp [stats_merge_fl, add_comm]
    · simp [stats_merge_fl, add_comm]
    · simp [stats_merge_fl, add_comm]
    · simp [stats_merge_fl, add_comm]
    · rw [hbest, hbest, max_comm]
    · rw [hworst, hworst, min_comm]
  · intro e1 e2 e3 e4
    obtain ⟨g1, g2, g3, g4, g5, g6⟩ := hagree
    apply SubtreeStats.ext_fields
    · exact g1
    · exact g2
    · exact g3
    · exact g4
    · simp only [stats_merge_fl, e1, e2, add_assoc]
    · simp only [stats_merge_fl, e3, e4, add_assoc]
    · exact g5
    · exact g6
  · apply SubtreeStats.ext_fields
    · rfl
    · rfl
    · rfl
    · rfl
    · rfl
    · rfl
    · exact hbest a b
    · exact hworst a b

/-- C7 (counterexample): for the terminal 10^10 km below the head-end, the
statistics returned by the traversal of the terminal have count 1 and
`best_rx = 3 - 3500000000`, merging them into `stats_init` gives
`best_rx = -1000000000` instead, and the whole-network `best_rx` is the
sentinel -1000000000, not the receive power of the only terminal. -/
theorem c7_counterexample_sentinel_wins :
    (walk_and_compute (fun _ => 0) 512
        (.mk { node_new NodeType.NODE_ONT with ont_id := 1, len_km := 10000000000 } [] : Node ℚ)
        3 (-27) 0 0 0 state_init).1.ont_count = 1 ∧
    stats_merge stats_init
      (walk_and_compute (fun _ => 0) 512
        (.mk { node_new NodeType.NODE_ONT with ont_id := 1, len_km := 10000000000 } [] : Node ℚ)
        3 (-27) 0 0 0 state_init).1 ≠
      (walk_and_compute (fun _ => 0) 512
        (.mk { node_new NodeType.NODE_ONT with ont_id := 1, len_km := 10000000000 } [] : Node ℚ)
        3 (-27) 0 0 0 state_init).1 ∧
    (main_walk (fun _ => 0) tree_far_terminal).1.ont_count = 1 ∧
    (main_walk (fun _ => 0) tree_far_terminal).2.ont_csv.map (fun r => r.rx_dbm) = [3 - 3500000000] ∧
    (main_walk (fun _ => 0) tree_far_terminal).1.best_rx = -1000000000 := by
  have hleaf : (walk_and_compute (fun _ => 0) 512
        (.mk { node_new NodeType.NODE_ONT with ont_id := 1, len_km := 10000000000 } [] : Node ℚ)
        3 (-27) 0 0 0 state_init).1 =
      { ont_count := 1, ok_count := 0, fail_count := 1, down_count := 0, sum_rx := 3 - 3500000000,
        sum_loss := 3500000000, best_rx := 3 - 3500000000, worst_rx := 3 - 3500000000 } := by
    simp [walk_and_compute, node_new, state_init, stats_init, node_link_loss_db,
      ATTEN_DB_PER_KM, CONN_LOSS_DB, SPLICE_LOSS_DB]
    norm_num
  have hall : main_walk (fun _ => 0) tree_far_terminal =
      ({ ont_count := 1, ok_count := 0, fail_count := 1, down_count := 0, sum_rx := 3 - 3500000000,
         sum_loss := 3500000000, best_rx := -1000000000, worst_rx := 3 - 3500000000 },
       { ont_results := [{ ont_id := 1, rx_dbm := 3 - 3500000000, margin_db := 3 - 3500000000 - (-27),
                           path := "OLT/ONT#1".toList }],
         ont_csv := [{ ont_id := 1, total_dist_km := 10000000000, total_loss_db := 3500000000,
                       rx_dbm := 3 - 3500000000, margin_db := 3 - 3500000000 - (-27), status := "FAIL",
                       path := "OLT/ONT#1".toList }],
         splitters := [], path := [] }) := by
    simp [main_walk, tree_far_terminal, walk_and_compute, walk_children, node_new, state_init,
      stats_init, stats_merge, node_link_loss_db, Node.fields, node_part, path_append, MAX_ONT,
      ATTEN_DB_PER_KM, CONN_LOSS_DB, SPLICE_LOSS_DB]
    norm_num
    decide
  rw [hleaf, hall]
  refine ⟨rfl, ?_, rfl, rfl, rfl⟩
  intro h
  have h2 := congrArg SubtreeStats.best_rx h
  simp only [stats_merge, stats_init] at h2
  norm_num at h2

/-- C7 (amended): for the statistics `s` returned by the traversal of any tree
(any node, any inherited values) all of whose visited terminals have a receive
power between -1000000000 and 1000000000, merging `s` into `stats_init` yields
exactly `s`; and when the tree has at least one visited terminal, `best_rx` of
`s` is the maximum and `worst_rx` the minimum of the receive powers of the
terminals. -/
theorem c7_sentinels_neutral_within_range (log10 : α → α) (path_cap : Nat) (root : Node α)
    (parent_tx_dbm rxmin_dbm acc_loss_db acc_dist_km : α) (down_flag : Int) (st : SimState α)
    (hrange : ∀ r ∈ (walk_and_compute log10 path_cap root parent_tx_dbm rxmin_dbm acc_loss_db
        acc_dist_km down_flag st).2.ont_csv.drop st.ont_csv.length,
      -1000000000 ≤ r.rx_dbm ∧ r.rx_dbm ≤ 1000000000) :
    stats_merge stats_init
        (walk_and_compute log10 path_cap root parent_tx_dbm rxmin_dbm acc_loss_db acc_dist_km
          down_flag st).1 =
      (walk_and_compute log10 path_cap root parent_tx_dbm rxmin_dbm acc_loss_db acc_dist_km
          down_flag st).1 ∧
    ((walk_and_compute log10 path_cap root parent_tx_dbm rxmin_dbm acc_loss_db acc_dist_km
        down_flag st).2.ont_csv.drop st.ont_csv.length ≠ [] →
      (∀ r ∈ (walk_and_compute log10 path_cap root parent_tx_dbm rxmin_dbm acc_loss_db
          acc_dist_km down_flag st).2.ont_csv.drop st.ont_csv.length,
        r.rx_dbm ≤ (walk_and_compute log10 path_cap root parent_tx_dbm rxmin_dbm acc_loss_db
          acc_dist_km down_flag st).1.best_rx) ∧
      (∃ r ∈ (walk_and_compute log10 path_cap root parent_tx_dbm rxmin_dbm acc_loss_db
          acc_dist_km down_flag st).2.ont_csv.drop st.ont_csv.length,
        r.rx_dbm = (walk_and_compute log10 path_cap root parent_tx_dbm rxmin_dbm acc_loss_db
          acc_dist_km down_flag st).1.best_rx) ∧
      (∀ r ∈ (walk_and_compute log10 path_cap root parent_tx_dbm rxmin_dbm acc_loss_db
          acc_dist_km down_flag st).2.ont_csv.drop st.ont_csv.length,
        (walk_and_compute log10 path_cap root parent_tx_dbm rxmin_dbm acc_loss_db
          acc_dist_km down_flag st).1.worst_rx ≤ r.rx_dbm) ∧
      (∃ r ∈ (walk_and_compute log10 path_cap root parent_tx_dbm rxmin_dbm acc_loss_db
          acc_dist_km down_flag st).2.ont_csv.drop st.ont_csv.length,
        r.rx_dbm = (walk_and_compute log10 path_cap root parent_tx_dbm rxmin_dbm acc_loss_db
          acc_dist_km down_flag st).1.worst_rx)) := by
  by_cases ht : root.fields.type = NodeType.NODE_ONT
  · obtain ⟨r, hr, hs⟩ := walk_stats_rows_ont log10 path_cap root
      ⟨parent_tx_dbm, rxmin_dbm, acc_loss_db, acc_dist_km, down_flag⟩ st ht
    simp only at hr hs
    rw [hr] at hrange ⊢
    rw [hs]
    obtain ⟨h1, h2⟩ := hrange r (by simp)
    constructor
    · rw [stats_merge_comm]
      exact stats_merge_init_right _ h1 h2
    · intro _
      simp [single_stats]
  · have hs := walk_stats_rows log10 path_cap root
      ⟨parent_tx_dbm, rxmin_dbm, acc_loss_db, acc_dist_km, down_flag⟩ st ht
    simp only at hs
    generalize (walk_and_compute log10 path_cap root parent_tx_dbm rxmin_dbm acc_loss_db acc_dist_km
      down_flag st).2.ont_csv.drop st.ont_csv.length = rows at hs hrange ⊢
    rw [hs]
    have hb := foldl_stats_merge_best_ge (rows.map single_stats) (stats_init : SubtreeStats α)
    have hw := foldl_stats_merge_worst_le (rows.map single_stats) (stats_init : SubtreeStats α)
    constructor
    · rw [stats_merge_comm]
      exact stats_merge_init_right _ hb hw
    · intro hne
      obtain ⟨r0, hr0⟩ := List.exists_mem_of_ne_nil rows hne
      have hmax : ∀ r ∈ rows, r.rx_dbm ≤ ((rows.map single_stats).foldl stats_merge stats_init).best_rx :=
        fun r hr => foldl_stats_merge_best_mem (rows.map single_stats) stats_init (single_stats r)
          (List.mem_map_of_mem _ hr)
      have hmin : ∀ r ∈ rows, ((rows.map single_stats).foldl stats_merge stats_init).worst_rx ≤ r.rx_dbm :=
        fun r hr => foldl_stats_merge_worst_mem (rows.map single_stats) stats_init (single_stats r)
          (List.mem_map_of_mem _ hr)
      refine ⟨hmax, ?_, hmin, ?_⟩
      · rcases foldl_stats_merge_best_attained (rows.map single_stats) (stats_init : SubtreeStats α)
          with h | ⟨x, hx, h⟩
        · refine ⟨r0, hr0, le_antisymm (hmax r0 hr0) ?_⟩
          rw [h]
          exact (hrange r0 hr0).1
        · obtain ⟨r, hr, rfl⟩ := List.mem_map.1 hx
          exact ⟨r, hr, h.symm⟩
      · rcases foldl_stats_merge_worst_attained (rows.map single_stats) (stats_init : SubtreeStats α)
          with h | ⟨x, hx, h⟩
        · refine ⟨r0, hr0, le_antisymm ?_ (hmin r0 hr0)⟩
          rw [h]
          exact (hrange r0 hr0).2
        · obtain ⟨r, hr, rfl⟩ := List.mem_map.1 hx
          exact ⟨r, hr, h.symm⟩

/-- C7 (witness): the amended statement at the tree with two sibling splitters,
whose receive powers are 0.95 dBm and 0.60 dBm. -/
theorem c7_sentinels_neutral_within_range_witness :
    (∀ r ∈ (walk_and_compute (fun _ => 0) 512 tree_two_splitters 3 (-27) 0 0 0
        state_init).2.ont_csv.drop (state_init : SimState ℚ).ont_csv.length,
      -1000000000 ≤ r.rx_dbm ∧ r.rx_dbm ≤ 1000000000) ∧
    stats_merge stats_init
        (walk_and_compute (fun _ => 0) 512 tree_two_splitters 3 (-27) 0 0 0 state_init).1 =
      (walk_and_compute (fun _ => 0) 512 tree_two_splitters 3 (-27) 0 0 0 state_init).1 :=
  have h : ∀ r ∈ (walk_and_compute (fun _ => 0) 512 tree_two_splitters 3 (-27) 0 0 0
        state_init).2.ont_csv.drop (state_init : SimState ℚ).ont_csv.length,
      -1000000000 ≤ r.rx_dbm ∧ r.rx_dbm ≤ 1000000000 := by
    rw [two_splitters_rows]
    intro r hr
    simp only [state_init, List.length_nil, List.drop_zero, List.mem_cons, List.mem_singleton,
      List.not_mem_nil, or_false] at hr
    rcases hr with rfl | rfl <;> norm_num
  ⟨h, (c7_sentinels_neutral_within_range (fun _ => 0) 512 tree_two_splitters 3 (-27) 0 0 0
    state_init h).1⟩

/-- C8: for every node (terminal, splitter or head-end, with any subtree), every
buffer capacity `path_cap` of at most 512 bytes (`main` passes 512) and every
string held by the path buffer at entry (shorter than `path_cap`), when
`walk_and_compute` returns the path buffer holds exactly the string it held at
entry. -/
theorem c8_path_restored_on_return (log10 : α → α) (path_cap : Nat) (n : Node α)
    (parent_tx_dbm rxmin_dbm acc_loss_db acc_dist_km : α) (down_flag : Int) (st : SimState α)
    (hlen : st.path.length < path_cap) (hcap : path_cap ≤ 512) :
    (walk_and_compute log10 path_cap n parent_tx_dbm rxmin_dbm acc_loss_db acc_dist_km down_flag
      st).2.path = st.path := by
  have h := walk_path log10 path_cap n ⟨parent_tx_dbm, rxmin_dbm, acc_loss_db, acc_dist_km, down_flag⟩ st
  simp only at h
  rw [h, List.take_of_length_le (l := st.path) (by omega), List.take_of_length_le (by omega)]

/-- C8 (witness): the traversal of the tree with two sibling splitters, entered
with the buffer of 512 bytes holding `net`, returns with the buffer holding
`net`. -/
theorem c8_path_restored_on_return_witness :
    ({ (state_init : SimState ℚ) with path := "net".toList }).path.length < 512 ∧ 512 ≤ 512 ∧
    (walk_and_compute (fun _ => 0) 512 tree_two_splitters 3 (-27) 0 0 0
      { (state_init : SimState ℚ) with path := "net".toList }).2.path = "net".toList :=
  ⟨by decide, by decide,
    c8_path_restored_on_return (fun _ => 0) 512 tree_two_splitters 3 (-27) 0 0 0
      { (state_init : SimState ℚ) with path := "net".toList } (by decide) (by decide)⟩

/-- C9 (counterexample): for the terminal below eight nested splitters with
names of 63 characters (all fields fit `struct Node`), traversed from an empty
path as `main` does, the full path has 561 characters but the path string
written has only 511: it is not the full path. -/
theorem c9_counterexample_path_truncated :
    (∀ p ∈ visited_paths tree_long_path, ∀ n ∈ p, n.fields.name.length ≤ 63) ∧
    (visited_paths tree_long_path).map (fun p => (full_path p).length) = [561] ∧
    (main_walk (fun _ => 0) tree_long_path).2.ont_csv.map (fun r => r.path.length) = [511] ∧
    (main_walk (fun _ => 0) tree_long_path).2.ont_csv.map (fun r => r.path) ≠
      (visited_paths tree_long_path).map full_path := by
  refine ⟨by decide!, by decide!, by decide!, by decide!⟩

/-- C9 (amended): for every tree whose nodes hold values that fit `struct Node`,
traversed from an empty path with a buffer of `path_cap ≤ 512` bytes (`main`
passes 512), the path string written for each visited terminal is the full
path from the root to that terminal (the labels of exactly the nodes of its
root-to-terminal path, in order, joined by `/`: `OLT`, `name(1:ratio)` or
`S(1:ratio)`, `ONT#id`) cut to the `path_cap - 1` characters the buffer holds,
hence the full path itself when that has at most `path_cap - 1` characters.
With two sibling splitters `A` and `B`, each above one terminal, the two path
strings are `OLT/A(1:8)/ONT#1` and `OLT/B(1:4)/ONT#2`: neither holds the label
of the other splitter. -/
theorem c9_path_is_full_path_cut_to_buffer :
    (∀ (α : Type) [LinearOrderedField α] (log10 : α → α) (path_cap : Nat) (root : Node α)
        (parent_tx_dbm rxmin_dbm acc_loss_db acc_dist_km : α) (down_flag : Int) (st : SimState α),
      path_cap ≤ 512 → st.path = [] →
      (∀ p ∈ visited_paths root, ∀ n ∈ p, n.fields.fits) →
      List.Forall₂
        (fun (r : OntCsvRow α) (p : List (Node α)) =>
          r.path = (full_path p).take (path_cap - 1) ∧
            ((full_path p).length ≤ path_cap - 1 → r.path = full_path p))
        ((walk_and_compute log10 path_cap root parent_tx_dbm rxmin_dbm acc_loss_db acc_dist_km down_flag
          st).2.ont_csv.drop st.ont_csv.length)
        (visited_paths root)) ∧
    (main_walk (fun _ => 0) tree_two_splitters).2.ont_csv.map (fun r => r.path) =
      ["OLT/A(1:8)/ONT#1".toList, "OLT/B(1:4)/ONT#2".toList] := by
  constructor
  · intro α _ log10 path_cap root parent_tx_dbm rxmin_dbm acc_loss_db acc_dist_km down_flag st
      hcap hst hfits
    have h := walk_row_paths_drop log10 path_cap hcap root
      ⟨parent_tx_dbm, rxmin_dbm, acc_loss_db, acc_dist_km, down_flag⟩ st hst
    refine (forall₂_and_mem_right h hfits).imp ?_
    rintro r p ⟨hr, hp⟩
    have hmap : p.map (fun n => node_part n.fields) = p.map (fun n => node_label n.fields) :=
      List.map_congr_left (fun n hn => node_part_eq_label n.fields (hp n hn))
    have hr2 : r.path = (full_path p).take (path_cap - 1) := by
      rw [hr, hmap]; rfl
    exact ⟨hr2, fun hlen => by rw [hr2, List.take_of_length_le hlen]⟩
  · decide!

/-- C9 (witness): the amended statement at the tree with two sibling splitters,
whose full paths have 16 characters. -/
theorem c9_path_is_full_path_cut_to_buffer_witness :
    512 ≤ 512 ∧ (state_init : SimState ℚ).path = [] ∧
    (∀ p ∈ visited_paths tree_two_splitters, ∀ n ∈ p, n.fields.fits) ∧
    List.Forall₂
      (fun (r : OntCsvRow ℚ) (p : List (Node ℚ)) =>
        r.path = (full_path p).take (512 - 1) ∧
          ((full_path p).length ≤ 512 - 1 → r.path = full_path p))
      ((walk_and_compute (fun _ => 0) 512 tree_two_splitters 3 (-27) 0 0 0
        state_init).2.ont_csv.drop (state_init : SimState ℚ).ont_csv.length)
      (visited_paths tree_two_splitters) :=
  have hfits : ∀ p ∈ visited_paths tree_two_splitters, ∀ n ∈ p, n.fields.fits := by
    intro p hp n hn
    have hp2 : p ∈ visited_paths tree_two_splitters := hp
    simp only [tree_two_splitters, visited_paths, visited_paths.visited_paths_children, node_new] at hp
    simp at hp
    rcases hp with rfl | rfl <;> simp at hn <;> rcases hn with rfl | rfl | rfl <;>
      simp [NodeFields.fits, Node.fields, String.toList]
  ⟨le_refl 512, rfl, hfits,
    c9_path_is_full_path_cut_to_buffer.1 ℚ (fun _ => 0) 512 tree_two_splitters 3 (-27) 0 0 0
      state_init (le_refl 512) rfl hfits⟩

/-- C10: for every integer ratio `r`, `splitter_loss_db r` is
`10 * log10 r + 1.0` dB when `r > 1` and 0 dB when `r ≤ 1`, zero and negative
ratios included; ratio 1 gives 0 dB and, with the real base-10 logarithm,
ratio 8 gives between 10.03 and 10.04 dB, about 10.0 dB. -/
theorem c10_splitter_loss_db :
    (∀ (α : Type) [LinearOrderedField α] (log10 : α → α) (r : Int),
      splitter_loss_db log10 r = if r > 1 then 10 * log10 (r : α) + 1 else 0) ∧
    (∀ (α : Type) [LinearOrderedField α] (log10 : α → α), splitter_loss_db log10 1 = 0) ∧
    (1003 / 100 : ℝ) < splitter_loss_db (Real.logb 10) 8 ∧
    splitter_loss_db (Real.logb 10) 8 < 1004 / 100 := by
  refine ⟨?_, ?_, ?_, ?_⟩
  · intro α _ log10 r
    unfold splitter_loss_db SPLITTER_INS_DB
    by_cases h : r ≤ 1
    · rw [if_pos h, if_neg (by omega)]
    · rw [if_neg h, if_pos (by omega)]
  · intro α _ log10
    simp [splitter_loss_db]
  · have h := logb_ten_eight_bounds.1
    have he : splitter_loss_db (Real.logb 10) 8 = 10 * Real.logb 10 8 + 1 := by
      simp [splitter_loss_db, SPLITTER_INS_DB]
    rw [he]; linarith
  · have h := logb_ten_eight_bounds.2
    have he : splitter_loss_db (Real.logb 10) 8 = 10 * Real.logb 10 8 + 1 := by
      simp [splitter_loss_db, SPLITTER_INS_DB]
    rw [he]; linarith

/-- C11: for every node (in particular every node that is not a head-end),
`node_link_loss_db` is `len_km * 0.35 + connectors * 0.50 + splices * 0.10`,
plus `splitter_loss_db` of the ratio exactly when the node is a splitter, plus
`extra_loss_db` exactly when the fault flag is set; negative length,
connectors and splices are used as given: a terminal with -2 km, -1 connector
and -3 splices has a link loss of -1.5 dB. -/
theorem c11_node_link_loss_db :
    (∀ (α : Type) [LinearOrderedField α] (log10 : α → α) (n : NodeFields α),
      node_link_loss_db log10 n =
        n.len_km * (35 / 100) + (n.connectors : α) * (50 / 100) + (n.splices : α) * (10 / 100) +
          (if n.type = NodeType.NODE_SPLITTER then splitter_loss_db log10 n.splitter_ratio else 0) +
          (if n.faulty ≠ 0 then n.extra_loss_db else 0)) ∧
    node_link_loss_db (fun _ => 0)
      ({ node_new NodeType.NODE_ONT with len_km := -2, connectors := -1, splices := -3,
                                         extra_loss_db := 5 } : NodeFields ℚ) = -15 / 10 := by
  constructor
  · intro α _ log10 n
    unfold node_link_loss_db ATTEN_DB_PER_KM CONN_LOSS_DB SPLICE_LOSS_DB
    by_cases h1 : n.type = NodeType.NODE_SPLITTER <;> by_cases h2 : n.faulty = 0 <;> simp [h1, h2]
  · decide!

/-- C12 (counterexample): in the end-to-end scenario, with the real base-10
logarithm, the splitter loss is above 10.03 dB, the total loss written above
12.18 dB, the receive power below -9.18 dBm and the margin below 17.82 dB: none
of them is, to four decimals, the 10.0103, 12.1603, -9.1603 and 17.8397 of the
claim. -/
theorem c12_counterexample_scenario_numbers :
    ¬ |splitter_loss_db (Real.logb 10) 8 - 100103 / 10000| ≤ (5 / 100000 : ℝ) ∧
    ∀ r ∈ (main_walk (Real.logb 10) (tree_scenario : Node ℝ)).2.ont_csv,
      ¬ |r.total_loss_db - 121603 / 10000| ≤ (5 / 100000 : ℝ) ∧
      ¬ |r.rx_dbm - (-91603 / 10000)| ≤ (5 / 100000 : ℝ) ∧
      ¬ |r.margin_db - 178397 / 10000| ≤ (5 / 100000 : ℝ) := by
  have hl := logb_ten_eight_tight.1
  have he : splitter_loss_db (Real.logb 10) 8 = 10 * Real.logb 10 8 + 1 := by
    simp [splitter_loss_db, SPLITTER_INS_DB]
  constructor
  · rw [he, abs_le]
    rintro ⟨_, h⟩
    linarith
  · intro r hr
    rw [scenario_rows, List.mem_singleton] at hr
    subst hr
    simp only [abs_le]
    refine ⟨?_, ?_, ?_⟩
    · rintro ⟨_, h⟩; linarith
    · rintro ⟨h, _⟩; linarith
    · rintro ⟨h, _⟩; linarith

/-- C12 (amended): in the end-to-end scenario head-end (3.0 dBm, -27.0 dBm),
splitter (ratio 8, 2 km, 1 connector), one terminal (1 km, 1 connector,
1 splice, not faulty), with the real base-10 logarithm, the traversal gives, to
the four decimals the CSV prints: splitter loss 10.0309 dB, feeder link loss
1.20 dB on top of it, drop link loss 0.95 dB, total loss 12.1809 dB, receive
power -9.1809 dBm, margin 17.8191 dB, and status OK. -/
theorem c12_scenario_numbers :
    |splitter_loss_db (Real.logb 10) 8 - 100309 / 10000| < (5 / 100000 : ℝ) ∧
    node_link_loss_db (Real.logb 10)
        ({ node_new NodeType.NODE_SPLITTER with splitter_ratio := 8, len_km := 2, connectors := 1 }
          : NodeFields ℝ) = 120 / 100 + splitter_loss_db (Real.logb 10) 8 ∧
    node_link_loss_db (Real.logb 10)
        ({ node_new NodeType.NODE_ONT with len_km := 1, connectors := 1, splices := 1, ont_id := 1 }
          : NodeFields ℝ) = 95 / 100 ∧
    ∃ r, (main_walk (Real.logb 10) (tree_scenario : Node ℝ)).2.ont_csv = [r] ∧
      |r.total_loss_db - 121809 / 10000| < (5 / 100000 : ℝ) ∧
      |r.rx_dbm - (-91809 / 10000)| < (5 / 100000 : ℝ) ∧
      |r.margin_db - 178191 / 10000| < (5 / 100000 : ℝ) ∧
      r.status = "OK" := by
  obtain ⟨hl, hu⟩ := logb_ten_eight_tight
  have he : splitter_loss_db (Real.logb 10) 8 = 10 * Real.logb 10 8 + 1 := by
    simp [splitter_loss_db, SPLITTER_INS_DB]
  refine ⟨?_, ?_, ?_, _, scenario_rows, ?_, ?_, ?_, rfl⟩
  · rw [he, abs_lt]; constructor <;> linarith
  · simp [node_link_loss_db, node_new, ATTEN_DB_PER_KM, CONN_LOSS_DB, SPLICE_LOSS_DB]
    norm_num
  · simp [node_link_loss_db, node_new, ATTEN_DB_PER_KM, CONN_LOSS_DB, SPLICE_LOSS_DB]
    norm_num
  · simp only [abs_lt]; constructor <;> linarith
  · simp only [abs_lt]; constructor <;> linarith
  · simp only [abs_lt]; constructor <;> linarith

/-- C13: for every splitter whose subtree holds no terminal (in particular a
splitter without children), the call of `walk_and_compute` on it pushes, after
the records of the splitters beneath it, exactly one record for it, with
terminal, ok, fail and down counts 0 and `avg_rx`, `avg_loss` exactly 0 (the
guard `ont_count > 0` keeps the division away); and a splitter or head-end
without children returns statistics with count 0 and all counts and sums 0. -/
theorem c13_empty_splitter_record :
    (∀ (α : Type) [LinearOrderedField α] (log10 : α → α) (path_cap : Nat) (n : NodeFields α)
        (cs : List (Node α)) (parent_tx_dbm rxmin_dbm acc_loss_db acc_dist_km : α) (down_flag : Int)
        (st : SimState α),
      n.type = NodeType.NODE_SPLITTER →
      (∀ p e, IsDescent (Node.mk n cs) p → p.getLast? = some e →
        e.fields.type ≠ NodeType.NODE_ONT) →
      ∃ below, below.length = (splitter_paths.splitter_paths_children cs).length ∧
        (walk_and_compute log10 path_cap (Node.mk n cs) parent_tx_dbm rxmin_dbm acc_loss_db acc_dist_km
          down_flag st).2.splitters =
          st.splitters ++ below ++
            [{ name := if n.name ≠ [] then n.name.take 63 else "(unnamed)".toList,
               ratio := n.splitter_ratio, ont_count := 0, ok_count := 0, fail_count := 0,
               down_count := 0, avg_rx := 0, avg_loss := 0, worst_rx := 0 }]) ∧
    (∀ (α : Type) [LinearOrderedField α] (log10 : α → α) (path_cap : Nat) (n : NodeFields α)
        (parent_tx_dbm rxmin_dbm acc_loss_db acc_dist_km : α) (down_flag : Int) (st : SimState α),
      n.type ≠ NodeType.NODE_ONT →
      (walk_and_compute log10 path_cap (Node.mk n []) parent_tx_dbm rxmin_dbm acc_loss_db acc_dist_km
          down_flag st).1.ont_count = 0 ∧
      (walk_and_compute log10 path_cap (Node.mk n []) parent_tx_dbm rxmin_dbm acc_loss_db acc_dist_km
          down_flag st).1.ok_count = 0 ∧
      (walk_and_compute log10 path_cap (Node.mk n []) parent_tx_dbm rxmin_dbm acc_loss_db acc_dist_km
          down_flag st).1.fail_count = 0 ∧
      (walk_and_compute log10 path_cap (Node.mk n []) parent_tx_dbm rxmin_dbm acc_loss_db acc_dist_km
          down_flag st).1.down_count = 0 ∧
      (walk_and_compute log10 path_cap (Node.mk n []) parent_tx_dbm rxmin_dbm acc_loss_db acc_dist_km
          down_flag st).1.sum_rx = 0 ∧
      (walk_and_compute log10 path_cap (Node.mk n []) parent_tx_dbm rxmin_dbm acc_loss_db acc_dist_km
          down_flag st).1.sum_loss = 0) := by
  constructor
  · intro α _ log10 path_cap n cs parent_tx_dbm rxmin_dbm acc_loss_db acc_dist_km down_flag st hs hzero
    have ht : (Node.mk n cs).fields.type ≠ NodeType.NODE_ONT := by
      simp only [Node.fields, hs]; decide
    obtain ⟨below, h1, h2⟩ := walk_splitter_node log10 path_cap n cs
      ⟨parent_tx_dbm, rxmin_dbm, acc_loss_db, acc_dist_km, down_flag⟩ st hs
    have h0 := walk_stats_of_no_terminal log10 path_cap (Node.mk n cs)
      ⟨parent_tx_dbm, rxmin_dbm, acc_loss_db, acc_dist_km, down_flag⟩ st ht
      (visited_paths_eq_nil hzero)
    simp only at h1 h0
    refine ⟨below, h2.length_eq, ?_⟩
    rw [h1, h0]
    simp [splitter_record, stats_init, String.toList]
  · intro α _ log10 path_cap n parent_tx_dbm rxmin_dbm acc_loss_db acc_dist_km down_flag st hn
    have h0 := walk_stats_of_no_terminal log10 path_cap (Node.mk n [])
      ⟨parent_tx_dbm, rxmin_dbm, acc_loss_db, acc_dist_km, down_flag⟩ st hn
      (by simp [visited_paths, hn, visited_paths.visited_paths_children])
    simp only at h0
    rw [h0]
    simp [stats_init]

/-- C13 (witness): the first part at the splitter `F` above a splitter without
children: two records are pushed, the second one for `F`, with zero counts and
zero averages. -/
theorem c13_empty_splitter_record_witness :
    ({ node_new NodeType.NODE_SPLITTER with name := "F".toList, splitter_ratio := 8 }
      : NodeFields ℚ).type = NodeType.NODE_SPLITTER ∧
    (∀ p e, IsDescent (Node.mk ({ node_new NodeType.NODE_SPLITTER with
          name := "F".toList, splitter_ratio := 8 } : NodeFields ℚ)
        [.mk { node_new NodeType.NODE_SPLITTER with splitter_ratio := 4 } []]) p →
      p.getLast? = some e → e.fields.type ≠ NodeType.NODE_ONT) ∧
    ∃ below, below.length = 1 ∧
      (walk_and_compute (fun _ => 0) 512
        (Node.mk ({ node_new NodeType.NODE_SPLITTER with
            name := "F".toList, splitter_ratio := 8 } : NodeFields ℚ)
          [.mk { node_new NodeType.NODE_SPLITTER with splitter_ratio := 4 } []])
        3 (-27) 0 0 0 state_init).2.splitters =
        (state_init : SimState ℚ).splitters ++ below ++
          [{ name := "F".toList, ratio := 8, ont_count := 0, ok_count := 0, fail_count := 0,
             down_count := 0, avg_rx := 0, avg_loss := 0, worst_rx := 0 }] :=
  have hzero : ∀ p e, IsDescent (Node.mk ({ node_new NodeType.NODE_SPLITTER with
          name := "F".toList, splitter_ratio := 8 } : NodeFields ℚ)
        [.mk { node_new NodeType.NODE_SPLITTER with splitter_ratio := 4 } []]) p →
      p.getLast? = some e → e.fields.type ≠ NodeType.NODE_ONT := by
    intro p e hd he
    cases hd with
    | single =>
      simp only [List.getLast?_singleton, Option.some.injEq] at he
      subst he; simp [Node.fields, node_new]
    | step _ c q hc hq =>
      simp only [Node.children, List.mem_singleton] at hc
      subst hc
      cases hq with
      | single =>
        simp only [List.getLast?_cons_cons, List.getLast?_singleton, Option.some.injEq] at he
        subst he; simp [Node.fields, node_new]
      | step _ c' q' hc' _ => simp [Node.children] at hc'
  ⟨rfl, hzero,
    c13_empty_splitter_record.1 ℚ (fun _ => 0) 512 _ _ 3 (-27) 0 0 0 state_init rfl hzero⟩

/-- C14 (counterexample): for the head-end above 1025 terminals, the traversal
visits 1025 terminals and writes 1025 lines, but `ont_results` holds only
`MAX_ONT` = 1024 results afterwards. -/
theorem c14_counterexample_more_than_max_ont :
    (visited_paths tree_many_terminals).length = 1025 ∧
    (main_walk (fun _ => 0) tree_many_terminals).2.ont_csv.length = 1025 ∧
    (main_walk (fun _ => 0) tree_many_terminals).2.ont_results.length = 1024 := by
  have hv : (visited_paths tree_many_terminals).length = 1025 := by decide!
  refine ⟨hv, (main_walk_rows_length _ _).trans hv, (main_walk_results_length _ _).trans ?_⟩
  rw [hv]
  decide

/-- C14 (amended): for every tree, the traversal appends one result per visited
terminal to `ont_results`, in traversal order (depth first, children in input
order), as long as fewer than `MAX_ONT` = 1024 results are stored: the results
appended are as many as the visited terminals or as the room left, whichever is
smaller (from the empty array of `main`: the smaller of the number of visited
terminals and 1024), and the i-th of them belongs to the i-th visited
terminal: it has its id, and the receive power, margin and path string of the
i-th line written. -/
theorem c14_results_in_traversal_order_up_to_max_ont (log10 : α → α) (path_cap : Nat) (root : Node α)
    (parent_tx_dbm rxmin_dbm acc_loss_db acc_dist_km : α) (down_flag : Int) (st : SimState α) :
    (∃ new,
      (walk_and_compute log10 path_cap root parent_tx_dbm rxmin_dbm acc_loss_db acc_dist_km down_flag
        st).2.ont_results = st.ont_results ++ new ∧
      new.length = min (visited_paths root).length (MAX_ONT - st.ont_results.length) ∧
      List.Forall₂
        (fun (res : OntResult α) (p : List (Node α)) =>
          ∃ e, p.getLast? = some e ∧ res.ont_id = e.fields.ont_id)
        new ((visited_paths root).take (MAX_ONT - st.ont_results.length)) ∧
      List.Forall₂
        (fun (res : OntResult α) (r : OntCsvRow α) =>
          res.ont_id = r.ont_id ∧ res.rx_dbm = r.rx_dbm ∧ res.margin_db = r.margin_db ∧
            res.path = r.path.take 511)
        new
        (((walk_and_compute log10 path_cap root parent_tx_dbm rxmin_dbm acc_loss_db acc_dist_km down_flag
          st).2.ont_csv.drop st.ont_csv.length).take (MAX_ONT - st.ont_results.length))) ∧
    (main_walk log10 root).2.ont_results.length = min MAX_ONT (visited_paths root).length := by
  refine ⟨?_, main_walk_results_length log10 root⟩
  have hres := walk_results_drop log10 path_cap root
    ⟨parent_tx_dbm, rxmin_dbm, acc_loss_db, acc_dist_km, down_flag⟩ st
  have hrows := walk_rows_drop log10 path_cap root
    ⟨parent_tx_dbm, rxmin_dbm, acc_loss_db, acc_dist_km, down_flag⟩ st
  simp only at hres hrows
  refine ⟨_, hres, ?_, ?_, ?_⟩
  · rw [List.length_map, List.length_take, hrows.length_eq, min_comm]
  · rw [List.forall₂_map_left_iff]
    refine (List.forall₂_take _ hrows).imp ?_
    rintro r p ⟨e, s, he, rfl⟩
    exact ⟨e, he, rfl⟩
  · rw [List.forall₂_map_left_iff, List.forall₂_same]
    intro r _
    exact ⟨rfl, rfl, rfl, rfl⟩

/-- C15 (counterexample): the tree `OLT`, `  ONT`, `    SPLITTER ratio=4` holds a
splitter, below the terminal, but the traversal pushes no record: it returns at
the terminal without visiting its children. -/
theorem c15_counterexample_splitter_below_terminal :
    IsDescent tree_splitter_below_terminal
      [tree_splitter_below_terminal,
       .mk { node_new NodeType.NODE_ONT with ont_id := 1 }
         [.mk { node_new NodeType.NODE_SPLITTER with splitter_ratio := 4 } []],
       .mk { node_new NodeType.NODE_SPLITTER with splitter_ratio := 4 } []] ∧
    (main_walk (fun _ => 0) tree_splitter_below_terminal).2.splitters = [] := by
  refine ⟨?_, by decide!⟩
  refine IsDescent.step _ _ _ ?_ (IsDescent.step _ _ _ ?_ (IsDescent.single _))
  · simp [tree_splitter_below_terminal, Node.children]
  · simp [Node.children]

/-- C15 (amended): for every tree, the traversal appends exactly one record per
splitter that does not lie below a terminal, in post-order (the order of
`splitter_paths`: a splitter after all splitters beneath it and before those of
its later siblings), with the ratio and name of the splitter; the terminal, ok,
fail and down counts of the record are the numbers of lines, and of lines of
each status, written for the terminals visited in the subtree of that splitter,
and when the count is positive `avg_rx` and `avg_loss` are the sums of their
receive powers and losses divided by the count.  Every record belongs to a
splitter: none is pushed for a terminal or a head-end. -/
theorem c15_one_record_per_visited_splitter (log10 : α → α) (path_cap : Nat) (root : Node α)
    (parent_tx_dbm rxmin_dbm acc_loss_db acc_dist_km : α) (down_flag : Int) (st : SimState α) :
    ∃ new,
      (walk_and_compute log10 path_cap root parent_tx_dbm rxmin_dbm acc_loss_db acc_dist_km down_flag
        st).2.splitters = st.splitters ++ new ∧
      List.Forall₂
        (fun (r : SplitterRecord α) (p : List (Node α)) =>
          ∃ s, p.getLast? = some s ∧ s.fields.type = NodeType.NODE_SPLITTER ∧
            r.ratio = s.fields.splitter_ratio ∧
            r.name = (if s.fields.name ≠ [] then s.fields.name.take 63 else "(unnamed)".toList) ∧
            r.ont_count =
              (((run_at log10 ⟨parent_tx_dbm, rxmin_dbm, acc_loss_db, acc_dist_km, down_flag⟩ p
                s).2.ont_csv.length : Nat) : Int) ∧
            r.ok_count =
              ((((run_at log10 ⟨parent_tx_dbm, rxmin_dbm, acc_loss_db, acc_dist_km, down_flag⟩ p
                s).2.ont_csv.filter (fun l => l.status = "OK")).length : Nat) : Int) ∧
            r.fail_count =
              ((((run_at log10 ⟨parent_tx_dbm, rxmin_dbm, acc_loss_db, acc_dist_km, down_flag⟩ p
                s).2.ont_csv.filter (fun l => l.status = "FAIL")).length : Nat) : Int) ∧
            r.down_count =
              ((((run_at log10 ⟨parent_tx_dbm, rxmin_dbm, acc_loss_db, acc_dist_km, down_flag⟩ p
                s).2.ont_csv.filter (fun l => l.status = "DOWN")).length : Nat) : Int) ∧
            (r.ont_count > 0 →
              r.avg_rx =
                (((run_at log10 ⟨parent_tx_dbm, rxmin_dbm, acc_loss_db, acc_dist_km, down_flag⟩ p
                  s).2.ont_csv.map (fun l => l.rx_dbm)).sum) / (r.ont_count : α) ∧
              r.avg_loss =
                (((run_at log10 ⟨parent_tx_dbm, rxmin_dbm, acc_loss_db, acc_dist_km, down_flag⟩ p
                  s).2.ont_csv.map (fun l => l.total_loss_db)).sum) / (r.ont_count : α)))
        new (splitter_paths root) := by
  obtain ⟨recs, h1, h2⟩ := walk_splitters log10 path_cap root
    ⟨parent_tx_dbm, rxmin_dbm, acc_loss_db, acc_dist_km, down_flag⟩ st
  refine ⟨recs, h1, ?_⟩
  refine (forall₂_and_mem_right h2 (fun p hp => (splitter_paths_sound root p hp).2.1)).imp ?_
  rintro r p ⟨⟨s, hs, rfl⟩, ⟨e, he, het⟩⟩
  rw [hs] at he
  cases he
  have hc := walk_counts_by_status log10 512 s
    (Inherited.along log10 ⟨parent_tx_dbm, rxmin_dbm, acc_loss_db, acc_dist_km, down_flag⟩ p.dropLast)
    state_init
  have hsum := walk_sums log10 512 s
    (Inherited.along log10 ⟨parent_tx_dbm, rxmin_dbm, acc_loss_db, acc_dist_km, down_flag⟩ p.dropLast)
    state_init
  have h0 : (state_init : SimState α).ont_csv.length = 0 := rfl
  rw [h0] at hc hsum
  simp only [List.drop_zero] at hc hsum
  obtain ⟨hc1, hc2, hc3, hc4⟩ := hc
  obtain ⟨hs1, hs2⟩ := hsum
  refine ⟨s, hs, het, rfl, rfl, hc1, hc2, hc3, hc4, ?_⟩
  intro hpos
  simp only [splitter_record] at hpos ⊢
  rw [if_pos hpos, if_pos hpos]
  exact ⟨by rw [hs1]; rfl, by rw [hs2]; rfl⟩

/-- C16 (counterexample): two terminals with the same link have the same margin;
the results of the traversal of the tree and of the tree with the two terminals
swapped are permutations of each other, and with insertion sort as `qsort` the
first result after the sort is terminal 1 for the one and terminal 2 for the
other: not the same set of terminals. -/
theorem c16_counterexample_equal_margins :
    qsort_sorts (insertion_qsort : List (OntResult ℚ) → List (OntResult ℚ)) ∧
    (main_walk (fun _ => 0) tree_twins).2.ont_results.Perm
      (main_walk (fun _ => 0) tree_twins_swapped).2.ont_results ∧
    (worst_n insertion_qsort 1 (main_walk (fun _ => 0) tree_twins).2.ont_results).map
      (fun x => x.ont_id) = [1] ∧
    (worst_n insertion_qsort 1 (main_walk (fun _ => 0) tree_twins_swapped).2.ont_results).map
      (fun x => x.ont_id) = [2] := by
  have h1 : (main_walk (fun _ => 0) tree_twins).2.ont_results =
      [{ ont_id := 1, rx_dbm := 3, margin_db := 30, path := "OLT/ONT#1".toList },
       { ont_id := 2, rx_dbm := 3, margin_db := 30, path := "OLT/ONT#2".toList }] := by decide!
  have h2 : (main_walk (fun _ => 0) tree_twins_swapped).2.ont_results =
      [{ ont_id := 2, rx_dbm := 3, margin_db := 30, path := "OLT/ONT#2".toList },
       { ont_id := 1, rx_dbm := 3, margin_db := 30, path := "OLT/ONT#1".toList }] := by decide!
  refine ⟨insertion_qsort_sorts, ?_, by decide!, by decide!⟩
  rw [h1, h2]
  exact List.Perm.swap _ _ _

/-- C16 (amended): for every result sequence, every `N` and every `qsort` that
sorts with `cmp_margin` (which compares `margin_db` only), sorting by margin
ascending and taking the first `N` entries yields the same margins for every
permutation of the original sequence, and the same terminals whenever the
margins of the sequence are pairwise distinct. -/
theorem c16_worst_n_independent_of_order (qsort : List (OntResult α) → List (OntResult α))
    (n : Nat) (l l' : List (OntResult α)) (hq : qsort_sorts qsort) (hp : l.Perm l') :
    (worst_n qsort n l).map (fun x => x.margin_db) = (worst_n qsort n l').map (fun x => x.margin_db) ∧
    ((l.map (fun x => x.margin_db)).Nodup → worst_n qsort n l = worst_n qsort n l') := by
  unfold worst_n
  constructor
  · rw [List.map_take, List.map_take, qsort_margins_eq qsort hq hp]
  · intro hn
    rw [qsort_eq_of_nodup qsort hq hp hn]

/-- C16 (witness): the amended statement for insertion sort and the results of
the tree with two sibling splitters (margins 27.95 and 27.60), in traversal
order and reversed. -/
theorem c16_worst_n_independent_of_order_witness :
    qsort_sorts (insertion_qsort : List (OntResult ℚ) → List (OntResult ℚ)) ∧
    (main_walk (fun _ => 0) tree_two_splitters).2.ont_results.Perm
      (main_walk (fun _ => 0) tree_two_splitters).2.ont_results.reverse ∧
    ((main_walk (fun _ => 0) tree_two_splitters).2.ont_results.map (fun x => x.margin_db)).Nodup ∧
    worst_n insertion_qsort 1 (main_walk (fun _ => 0) tree_two_splitters).2.ont_results =
      worst_n insertion_qsort 1 (main_walk (fun _ => 0) tree_two_splitters).2.ont_results.reverse :=
  have hn : ((main_walk (fun _ => 0) tree_two_splitters).2.ont_results.map
      (fun x => x.margin_db)).Nodup := by decide!
  ⟨insertion_qsort_sorts, (List.reverse_perm _).symm, hn,
    (c16_worst_n_independent_of_order insertion_qsort 1 _ _ insertion_qsort_sorts
      (List.reverse_perm _).symm).2 hn⟩

/-- C17 (the code at the failing input): `print_summary` never divides by a zero
count and the splitter record of `walk_and_compute` has averages 0 for a zero
count, but for the topology `OLT` alone the traversal returns a count of 0 and
`generate_report` evaluates `sum_rx / ont_count` with that zero count. -/
theorem c17_generate_report_divides_by_zero :
    (∀ (α : Type) [LinearOrderedField α] (all : SubtreeStats α), ∀ v ∈ print_summary all, v ≠ none) ∧
    (∀ (α : Type) [LinearOrderedField α] (n : NodeFields α) (here : SubtreeStats α),
      here.ont_count = 0 →
        (splitter_record n here).avg_rx = 0 ∧ (splitter_record n here).avg_loss = 0) ∧
    (main_walk (fun _ => 0) tree_head_end_only).1.ont_count = 0 ∧
    print_summary (main_walk (fun _ => 0) tree_head_end_only).1 = [] ∧
    generate_report (main_walk (fun _ => 0) tree_head_end_only).1 = none := by
  refine ⟨?_, ?_, by decide!, by decide!, by decide!⟩
  · intro α _ all v hv
    unfold print_summary at hv
    split_ifs at hv with h
    · have h0 : all.ont_count ≠ 0 := by omega
      simp only [div_count, h0, if_false, List.mem_cons, List.mem_singleton, List.not_mem_nil,
        or_false] at hv
      rcases hv with rfl | rfl <;> simp
    · simp at hv
  · intro α _ n here h0
    simp [splitter_record, h0]

/-- C18 (counterexample): the text `OLT`, `  ONT id=1`, `  ONT`, `  ONT id=-3` is
accepted; the three lines of terminals carry the identifiers 1, none (-1) and
-3, and the terminals of the tree have the identifiers 1, 1 and 2: the second
terminal gets the first automatic identifier, which the first terminal was
given, and the third does not keep the identifier of its line. -/
theorem c18_counterexample_duplicate_id :
    (parsed_nodes decimal_int (fun _ => (0 : ℚ)) text_duplicate_id).map (fun n => n.ont_id) =
      [-1, 1, -1, -3] ∧
    read_topology decimal_int (fun _ => (0 : ℚ)) text_duplicate_id = some tree_duplicate_id ∧
    terminal_ids ((tree_nodes tree_duplicate_id).map Node.fields) = [1, 1, 2] ∧
    ¬ (terminal_ids ((tree_nodes tree_duplicate_id).map Node.fields)).Nodup := by
  refine ⟨by decide!, rfl, by decide!, by decide!⟩

/-- C18 (amended): in every tree that `read_topology` builds from an accepted
text, the nodes are, in the order of their lines, the last nodes of the file
(the ones from the last line at depth 0 on) with the identifiers assigned in
order of appearance: a terminal whose line gives an identifier that is 0 or
more keeps it, every other terminal receives the next value of a counter that
starts at 1 and counts the terminals numbered so far in the file.  When no line
of a terminal gives such an identifier, the identifiers of the terminals of the
tree are consecutive numbers from 1 or more on, in the order of their lines, and
so unique across the tree. -/
theorem c18_terminal_ids_in_order_of_appearance (parse_int : List Char → Int)
    (parse_double : List Char → α) (lines : List (List Char)) (root : Node α)
    (h : read_topology parse_int parse_double lines = some root) :
    (∃ j, (tree_nodes root).map Node.fields =
      (assign_ids 1 (parsed_nodes parse_int parse_double lines)).drop j) ∧
    ((∀ n ∈ parsed_nodes parse_int parse_double lines, n.type = NodeType.NODE_ONT → n.ont_id < 0) →
      (terminal_ids ((tree_nodes root).map Node.fields)).Nodup ∧
      ∃ (k : Int) (m : Nat), 1 ≤ k ∧
        terminal_ids ((tree_nodes root).map Node.fields) =
          (List.range m).map (fun (i : Nat) => k + (i : Int))) := by
  obtain ⟨j, hj⟩ := read_topology_nodes parse_int parse_double lines root h
  refine ⟨⟨j, hj⟩, ?_⟩
  intro hauto
  have hs : terminal_ids ((tree_nodes root).map Node.fields) <:+
      terminal_ids (assign_ids 1 (parsed_nodes parse_int parse_double lines)) := by
    rw [hj]
    unfold terminal_ids
    exact ((List.drop_suffix j _).filter _).map _
  rw [terminal_ids_assign_ids _ 1 hauto] at hs
  obtain ⟨k, m, hk, he⟩ := suffix_consecutive _ 1 _ hs
  refine ⟨?_, k, m, hk, he⟩
  rw [he]
  exact consecutive_nodup k m

/-- C18 (witness): the amended statement at a text of five nodes in which no
terminal is given an identifier: the terminals of the tree have the
identifiers 1, 2, 3. -/
theorem c18_terminal_ids_in_order_of_appearance_witness :
    read_topology decimal_int (fun _ => (0 : ℚ)) text_auto_ids = some tree_auto_ids ∧
    (∀ n ∈ parsed_nodes decimal_int (fun _ => (0 : ℚ)) text_auto_ids,
      n.type = NodeType.NODE_ONT → n.ont_id < 0) ∧
    terminal_ids ((tree_nodes tree_auto_ids).map Node.fields) = [1, 2, 3] ∧
    (terminal_ids ((tree_nodes tree_auto_ids).map Node.fields)).Nodup :=
  have h : read_topology decimal_int (fun _ => (0 : ℚ)) text_auto_ids = some tree_auto_ids := by
    rfl
  have ha : ∀ n ∈ parsed_nodes decimal_int (fun _ => (0 : ℚ)) text_auto_ids,
      n.type = NodeType.NODE_ONT → n.ont_id < 0 := by decide!
  ⟨h, ha, by decide!,
    ((c18_terminal_ids_in_order_of_appearance decimal_int (fun _ => (0 : ℚ)) text_auto_ids
      tree_auto_ids h).2 ha).1⟩

/-- C19 (counterexample): every node that is not a head-end has non-negative
length, connectors, splices and extra loss, yet `node_link_loss_db` of the root
head-end is -0.35 dB, and the terminal, below a second head-end of 5 dBm, is
written with a receive power of 5 dBm, above the 3 dBm of the root head-end. -/
theorem c19_counterexample_head_ends :
    tree_head_end_negative_length.fields.type = NodeType.NODE_OLT ∧
    (∀ m ∈ tree_nodes tree_head_end_negative_length, m.fields.type ≠ NodeType.NODE_OLT →
      0 ≤ m.fields.len_km ∧ 0 ≤ m.fields.connectors ∧ 0 ≤ m.fields.splices ∧
        0 ≤ m.fields.extra_loss_db) ∧
    node_link_loss_db (fun _ => 0) tree_head_end_negative_length.fields = -35 / 100 ∧
    ¬ (∀ m ∈ tree_nodes tree_head_end_negative_length,
        0 ≤ node_link_loss_db (fun _ => 0) m.fields) ∧
    tree_head_end_negative_length.fields.olt_tx_dbm = 3 ∧
    (main_walk (fun _ => 0) tree_head_end_negative_length).2.ont_csv.map (fun r => r.rx_dbm) = [5] ∧
    ¬ (∀ r ∈ (main_walk (fun _ => 0) tree_head_end_negative_length).2.ont_csv,
        r.rx_dbm ≤ tree_head_end_negative_length.fields.olt_tx_dbm) := by
  refine ⟨rfl, by decide!, by decide!, by decide!, rfl, by decide!, by decide!⟩

/-- C19 (amended): for every tree with a head-end root whose nodes that are not
head-ends all have length, connectors, splices and extra fault loss that are
not negative, with a logarithm that is not negative on the ratios above 1 and
an accumulated loss at the start that is not negative (0 in `main`):
`node_link_loss_db` is not negative for every node that is not a head-end; the
accumulated loss a call computes and passes to the children is at least the
one it was called with, so along every downward chain from the root the
accumulated loss does not decrease; and every visited terminal is written with
a total loss at least the one at the start and a receive power at most the
transmit power of the last head-end on its path, which is the root head-end
when no head-end lies below the root on that path. -/
theorem c19_loss_accumulates_monotonically (log10 : α → α) (path_cap : Nat) (root : Node α)
    (parent_tx_dbm rxmin_dbm acc_loss_db acc_dist_km : α) (down_flag : Int) (st : SimState α)
    (hlog : ∀ r : Int, 1 < r → 0 ≤ log10 (r : α))
    (hroot : root.fields.type = NodeType.NODE_OLT)
    (hacc : 0 ≤ acc_loss_db)
    (hpos : ∀ m ∈ tree_nodes root, m.fields.type ≠ NodeType.NODE_OLT →
      0 ≤ m.fields.len_km ∧ 0 ≤ m.fields.connectors ∧ 0 ≤ m.fields.splices ∧
        0 ≤ m.fields.extra_loss_db) :
    (∀ m ∈ tree_nodes root, m.fields.type ≠ NodeType.NODE_OLT →
      0 ≤ node_link_loss_db log10 m.fields) ∧
    (∀ m ∈ tree_nodes root, ∀ c : Inherited α, c.new_loss ≤ (c.enter log10 m.fields).new_loss) ∧
    (∀ p, IsDescent root p → ∀ q r, p = q ++ r →
      ((Inherited.mk parent_tx_dbm rxmin_dbm acc_loss_db acc_dist_km down_flag).along log10 q).new_loss ≤
        ((Inherited.mk parent_tx_dbm rxmin_dbm acc_loss_db acc_dist_km down_flag).along log10
          p).new_loss) ∧
    List.Forall₂
      (fun (r : OntCsvRow α) (p : List (Node α)) =>
        acc_loss_db ≤ r.total_loss_db ∧
        (∃ h, nearest_head_end p = some h ∧ r.rx_dbm ≤ h.fields.olt_tx_dbm) ∧
        ((∀ m ∈ p.tail, m.fields.type ≠ NodeType.NODE_OLT) → r.rx_dbm ≤ root.fields.olt_tx_dbm))
      ((walk_and_compute log10 path_cap root parent_tx_dbm rxmin_dbm acc_loss_db acc_dist_km down_flag
        st).2.ont_csv.drop st.ont_csv.length)
      (visited_paths root) := by
  have hlink : ∀ m ∈ tree_nodes root, m.fields.type ≠ NodeType.NODE_OLT →
      0 ≤ node_link_loss_db log10 m.fields := by
    intro m hm ht
    obtain ⟨h1, h2, h3, h4⟩ := hpos m hm ht
    exact node_link_loss_db_nonneg log10 hlog m.fields h1 h2 h3 h4
  have hpath : ∀ p, IsDescent root p → ∀ q r, p = q ++ r → ∀ c : Inherited α,
      (c.along log10 q).new_loss ≤ (c.along log10 p).new_loss := by
    intro p hd q r hp c
    subst hp
    rw [along_append]
    apply along_new_loss_ge
    intro m hm
    exact hlink m (isDescent_mem_tree_nodes hd m (List.mem_append_right q hm))
  refine ⟨hlink, ?_, fun p hd q r hp => hpath p hd q r hp _, ?_⟩
  · intro m hm c
    exact enter_new_loss_ge log10 c m.fields (hlink m hm)
  · have h := walk_rows_drop log10 path_cap root
      ⟨parent_tx_dbm, rxmin_dbm, acc_loss_db, acc_dist_km, down_flag⟩ st
    have hmem : ∀ p ∈ visited_paths root, p ∈ visited_paths root := fun _ hp => hp
    refine (forall₂_and_mem_right h hmem).imp ?_
    rintro r p ⟨⟨e, s, _, rfl⟩, hp⟩
    obtain ⟨q, rfl⟩ := visited_paths_head root p hp
    have hd := (visited_paths_sound root _ hp).1
    have hge := hpath _ hd [] _ (List.nil_append _).symm
      ⟨parent_tx_dbm, rxmin_dbm, acc_loss_db, acc_dist_km, down_flag⟩
    rw [along_nil] at hge
    simp only at hge
    obtain ⟨h, hh⟩ := nearest_head_end_of_head root q hroot
    have hrx : ∀ g, nearest_head_end (root :: q) = some g →
        (leaf_row ((Inherited.mk parent_tx_dbm rxmin_dbm acc_loss_db acc_dist_km down_flag).along log10
          (root :: q)) e.fields.ont_id s).rx_dbm ≤ g.fields.olt_tx_dbm := by
      intro g hg
      simp only [leaf_row, along_tx_dbm, hg, Option.map_some', Option.getD_some]
      linarith
    refine ⟨hge, ⟨h, hh, hrx h hh⟩, ?_⟩
    intro hno
    exact hrx root (nearest_head_end_of_no_other root q hroot hno)

/-- C19 (witness): the amended statement at the tree with two sibling splitters,
with a logarithm that is 0 everywhere. -/
theorem c19_loss_accumulates_monotonically_witness :
    (∀ r : Int, 1 < r → (0 : ℚ) ≤ (fun _ => 0) (r : ℚ)) ∧
    tree_two_splitters.fields.type = NodeType.NODE_OLT ∧
    (0 : ℚ) ≤ 0 ∧
    (∀ m ∈ tree_nodes tree_two_splitters, m.fields.type ≠ NodeType.NODE_OLT →
      0 ≤ m.fields.len_km ∧ 0 ≤ m.fields.connectors ∧ 0 ≤ m.fields.splices ∧
        0 ≤ m.fields.extra_loss_db) ∧
    (∀ m ∈ tree_nodes tree_two_splitters, m.fields.type ≠ NodeType.NODE_OLT →
      0 ≤ node_link_loss_db (fun _ => 0) m.fields) ∧
    List.Forall₂
      (fun (r : OntCsvRow ℚ) (p : List (Node ℚ)) =>
        0 ≤ r.total_loss_db ∧
        (∃ h, nearest_head_end p = some h ∧ r.rx_dbm ≤ h.fields.olt_tx_dbm) ∧
        ((∀ m ∈ p.tail, m.fields.type ≠ NodeType.NODE_OLT) →
          r.rx_dbm ≤ tree_two_splitters.fields.olt_tx_dbm))
      ((walk_and_compute (fun _ => 0) 512 tree_two_splitters 3 (-27) 0 0 0
        state_init).2.ont_csv.drop (state_init : SimState ℚ).ont_csv.length)
      (visited_paths tree_two_splitters) :=
  have hlog : ∀ r : Int, 1 < r → (0 : ℚ) ≤ (fun _ => 0) (r : ℚ) := fun _ _ => le_refl 0
  have hpos : ∀ m ∈ tree_nodes tree_two_splitters, m.fields.type ≠ NodeType.NODE_OLT →
      0 ≤ m.fields.len_km ∧ 0 ≤ m.fields.connectors ∧ 0 ≤ m.fields.splices ∧
        0 ≤ m.fields.extra_loss_db := by decide!
  have h := c19_loss_accumulates_monotonically (fun _ => 0) 512 tree_two_splitters 3 (-27) 0 0 0
    state_init hlog rfl (le_refl 0) hpos
  ⟨hlog, rfl, le_refl 0, hpos, h.1, h.2.2.2⟩

/-- C20: for every head-end node, replacing its `len_km`, `connectors` and
`splices` by any other values leaves the whole outcome of `walk_and_compute`
from that node unchanged: the returned statistics, the lines of
`ont_results.csv` (distance, loss, receive power, margin, status, path), the
stored results, the splitter records and the path buffer are identical.  The
call passes the accumulated loss and distance it was called with on to its
children unchanged: accumulation starts below the head-end. -/
theorem c20_head_end_link_fields_ignored (log10 : α → α) (path_cap : Nat) (n : NodeFields α)
    (cs : List (Node α)) (len_km : α) (connectors splices : Int)
    (parent_tx_dbm rxmin_dbm acc_loss_db acc_dist_km : α) (down_flag : Int) (st : SimState α)
    (hn : n.type = NodeType.NODE_OLT) :
    walk_and_compute log10 path_cap
        (Node.mk { n with len_km := len_km, connectors := connectors, splices := splices } cs)
        parent_tx_dbm rxmin_dbm acc_loss_db acc_dist_km down_flag st =
      walk_and_compute log10 path_cap (Node.mk n cs) parent_tx_dbm rxmin_dbm acc_loss_db acc_dist_km
        down_flag st ∧
    (walk_and_compute log10 path_cap (Node.mk n cs) parent_tx_dbm rxmin_dbm acc_loss_db acc_dist_km
        down_flag st).1 =
      (walk_children log10 path_cap cs n.olt_tx_dbm n.gpon_rxmin_dbm acc_loss_db acc_dist_km down_flag
        stats_init { st with path := path_enter path_cap st.path n }).1 ∧
    (walk_and_compute log10 path_cap (Node.mk n cs) parent_tx_dbm rxmin_dbm acc_loss_db acc_dist_km
        down_flag st).2.ont_csv =
      (walk_children log10 path_cap cs n.olt_tx_dbm n.gpon_rxmin_dbm acc_loss_db acc_dist_km down_flag
        stats_init { st with path := path_enter path_cap st.path n }).2.ont_csv ∧
    (walk_and_compute log10 path_cap (Node.mk n cs) parent_tx_dbm rxmin_dbm acc_loss_db acc_dist_km
        down_flag st).2.ont_results =
      (walk_children log10 path_cap cs n.olt_tx_dbm n.gpon_rxmin_dbm acc_loss_db acc_dist_km down_flag
        stats_init { st with path := path_enter path_cap st.path n }).2.ont_results ∧
    (walk_and_compute log10 path_cap (Node.mk n cs) parent_tx_dbm rxmin_dbm acc_loss_db acc_dist_km
        down_flag st).2.splitters =
      (walk_children log10 path_cap cs n.olt_tx_dbm n.gpon_rxmin_dbm acc_loss_db acc_dist_km down_flag
        stats_init { st with path := path_enter path_cap st.path n }).2.splitters := by
  have e := walk_head_end_children log10 path_cap n cs
    ⟨parent_tx_dbm, rxmin_dbm, acc_loss_db, acc_dist_km, down_flag⟩ st hn
  simp only at e
  refine ⟨walk_head_end log10 path_cap n _ cs
    ⟨parent_tx_dbm, rxmin_dbm, acc_loss_db, acc_dist_km, down_flag⟩ st hn hn rfl rfl, ?_, ?_, ?_, ?_⟩ <;>
  rw [e]

/-- C20 (witness): the head-end of the tree with two sibling splitters, given
7 km, 3 connectors and 2 splices. -/
theorem c20_head_end_link_fields_ignored_witness :
    (node_new NodeType.NODE_OLT : NodeFields ℚ).type = NodeType.NODE_OLT ∧
    walk_and_compute (fun _ => 0) 512
        (Node.mk { (node_new NodeType.NODE_OLT : NodeFields ℚ) with
            len_km := 7, connectors := 3, splices := 2 } tree_two_splitters.children)
        3 (-27) 0 0 0 state_init =
      walk_and_compute (fun _ => 0) 512
        (Node.mk (node_new NodeType.NODE_OLT) tree_two_splitters.children) 3 (-27) 0 0 0 state_init :=
  ⟨rfl, (c20_head_end_link_fields_ignored (fun _ => 0) 512 (node_new NodeType.NODE_OLT)
    tree_two_splitters.children 7 3 2 3 (-27) 0 0 0 state_init rfl).1⟩

/-- C21: for every node and every call of `walk_and_compute` on it, the returned
statistics satisfy `ok_count + fail_count + down_count = ont_count`, the four
counts are not negative, and `ont_count` is the number of terminals visited in
the subtree of the node, which is the number of lines the call writes.  Every
record the call pushes satisfies the same equation with counts that are not
negative, and the records are paired, in order, with the visited splitters,
the terminal count of each being the number of terminals visited in the
subtree of its splitter. -/
theorem c21_counts_add_up (log10 : α → α) (path_cap : Nat) (t : Node α)
    (parent_tx_dbm rxmin_dbm acc_loss_db acc_dist_km : α) (down_flag : Int) (st : SimState α) :
    ((walk_and_compute log10 path_cap t parent_tx_dbm rxmin_dbm acc_loss_db acc_dist_km down_flag
        st).1.ok_count +
      (walk_and_compute log10 path_cap t parent_tx_dbm rxmin_dbm acc_loss_db acc_dist_km down_flag
        st).1.fail_count +
      (walk_and_compute log10 path_cap t parent_tx_dbm rxmin_dbm acc_loss_db acc_dist_km down_flag
        st).1.down_count =
      (walk_and_compute log10 path_cap t parent_tx_dbm rxmin_dbm acc_loss_db acc_dist_km down_flag
        st).1.ont_count) ∧
    (0 ≤ (walk_and_compute log10 path_cap t parent_tx_dbm rxmin_dbm acc_loss_db acc_dist_km down_flag
        st).1.ont_count ∧
      0 ≤ (walk_and_compute log10 path_cap t parent_tx_dbm rxmin_dbm acc_loss_db acc_dist_km down_flag
        st).1.ok_count ∧
      0 ≤ (walk_and_compute log10 path_cap t parent_tx_dbm rxmin_dbm acc_loss_db acc_dist_km down_flag
        st).1.fail_count ∧
      0 ≤ (walk_and_compute log10 path_cap t parent_tx_dbm rxmin_dbm acc_loss_db acc_dist_km down_flag
        st).1.down_count) ∧
    ((walk_and_compute log10 path_cap t parent_tx_dbm rxmin_dbm acc_loss_db acc_dist_km down_flag
        st).1.ont_count = ((visited_paths t).length : Int) ∧
      (walk_and_compute log10 path_cap t parent_tx_dbm rxmin_dbm acc_loss_db acc_dist_km down_flag
        st).1.ont_count =
        (((walk_and_compute log10 path_cap t parent_tx_dbm rxmin_dbm acc_loss_db acc_dist_km down_flag
          st).2.ont_csv.drop st.ont_csv.length).length : Int)) ∧
    (∀ r ∈ (walk_and_compute log10 path_cap t parent_tx_dbm rxmin_dbm acc_loss_db acc_dist_km down_flag
        st).2.splitters.drop st.splitters.length,
      r.ok_count + r.fail_count + r.down_count = r.ont_count ∧
      0 ≤ r.ont_count ∧ 0 ≤ r.ok_count ∧ 0 ≤ r.fail_count ∧ 0 ≤ r.down_count) ∧
    List.Forall₂
      (fun (r : SplitterRecord α) (p : List (Node α)) =>
        ∃ s, p.getLast? = some s ∧ s.fields.type = NodeType.NODE_SPLITTER ∧
          r.ont_count = ((visited_paths s).length : Int))
      ((walk_and_compute log10 path_cap t parent_tx_dbm rxmin_dbm acc_loss_db acc_dist_km down_flag
        st).2.splitters.drop st.splitters.length)
      (splitter_paths t) := by
  obtain ⟨h1, h2, h3, h4, h5⟩ := walk_count_invariant log10 path_cap t
    ⟨parent_tx_dbm, rxmin_dbm, acc_loss_db, acc_dist_km, down_flag⟩ st
  have hrec := walk_splitters_drop log10 path_cap t
    ⟨parent_tx_dbm, rxmin_dbm, acc_loss_db, acc_dist_km, down_flag⟩ st
  simp only at h1 h2 h3 h4 h5 hrec
  refine ⟨h2, ⟨by rw [h1]; exact Int.natCast_nonneg _, h3, h4, h5⟩, ⟨h1, ?_⟩, ?_, ?_⟩
  · exact (walk_counts_by_status log10 path_cap t
      ⟨parent_tx_dbm, rxmin_dbm, acc_loss_db, acc_dist_km, down_flag⟩ st).1
  · intro r hr
    obtain ⟨p, _, s, _, rfl⟩ := forall₂_mem_left hrec r hr
    obtain ⟨g1, g2, g3, g4, g5⟩ := walk_count_invariant log10 512 s
      (Inherited.along log10 ⟨parent_tx_dbm, rxmin_dbm, acc_loss_db, acc_dist_km, down_flag⟩ p.dropLast)
      state_init
    simp only [splitter_record]
    exact ⟨g2, by rw [g1]; exact Int.natCast_nonneg _, g3, g4, g5⟩
  · refine (forall₂_and_mem_right hrec (fun p hp => splitter_paths_sound t p hp)).imp ?_
    rintro r p ⟨⟨s, hs, rfl⟩, hsound⟩
    refine ⟨s, hs, ?_, ?_⟩
    · obtain ⟨e, he, het⟩ := hsound.2.1
      rw [hs, Option.some.injEq] at he
      rw [he]; exact het
    · exact (walk_count_invariant log10 512 s _ state_init).1

end Claims

end FtthSim
